import Mathlib

/-!
# The RLS load-balancing policy (`rls.cc`): a shallow embedding

The definitions below follow
`src/core/ext/filters/client_channel/lb_policy/rls/rls.cc` function by function.

Conventions of the embedding.

* All state guarded by `RlsLb::mu_` is an explicit value that operations take
  and return.  A pointer to a cache entry is the entry's key in `Cache.map`; a
  pointer to a child policy wrapper is the wrapper's target in
  `child_policy_map`.
* `ExecCtx::Get()->Now()` is an explicit argument `now`.
* `std::unordered_map` is an association list (`umFind`, `umErase`, `umSet`,
  `umEmplace`); `std::list` is a `List`; `std::map<std::string, std::string>`
  is an association list kept sorted by key.
* A failed `GPR_ASSERT` or a dereference of a null pointer is `none`.
* Logging, reference counts and the timers themselves are left out; what a
  timer callback does is a function of its own.
-/

namespace Rls

/-! ## Time -/

/-- Modelled from the spec: `Timestamp` (declared in `src/core/lib/gprpp/time.h`,
which is not among the sources) is a count of milliseconds.  Saturation at the
`int64_t` limits is not modelled. -/
abbrev Timestamp := Int

/-- Modelled from the spec: `Duration` (declared in `src/core/lib/gprpp/time.h`,
which is not among the sources) is a count of milliseconds. -/
abbrev Duration := Int

/-- Modelled from the spec: `Timestamp::InfPast()`, the least `int64_t` value
(declared in `src/core/lib/gprpp/time.h`). -/
def InfPast : Timestamp := -9223372036854775808

def kMinExpirationTime : Duration := 5000
def kCacheBackoffInitial : Duration := 1000
def kCacheBackoffMax : Duration := 120000
def kDefaultThrottleWindowSize : Duration := 30000
def kDefaultThrottlePadding : Int := 8
def kRlsHeaderKey : String := "X-Google-RLS-Data"

/-! ## Status -/

/-- Modelled from the spec: `absl::StatusCode` (third-party, not among the
sources). -/
inductive StatusCode where
  | kOk | kCancelled | kUnknown | kInvalidArgument | kDeadlineExceeded
  | kNotFound | kAlreadyExists | kPermissionDenied | kResourceExhausted
  | kFailedPrecondition | kAborted | kOutOfRange | kUnimplemented
  | kInternal | kUnavailable | kDataLoss | kUnauthenticated
deriving DecidableEq, Repr

/-- Modelled from the spec: `absl::Status` (third-party, not among the
sources): a code and a message. -/
structure Status where
  code : StatusCode
  message : String
deriving DecidableEq, Repr

def OkStatus : Status := ⟨StatusCode.kOk, ""⟩
def UnavailableError (msg : String) : Status := ⟨StatusCode.kUnavailable, msg⟩
def InvalidArgumentError (msg : String) : Status := ⟨StatusCode.kInvalidArgument, msg⟩
def InternalError (msg : String) : Status := ⟨StatusCode.kInternal, msg⟩

/-- Modelled from the spec: `absl::Status::ok()`. -/
def Status.ok (s : Status) : Bool := decide (s.code = StatusCode.kOk)

/-- Modelled from the spec: `absl::StatusCodeToString`. -/
def StatusCodeToString : StatusCode → String
  | .kOk => "OK"
  | .kCancelled => "CANCELLED"
  | .kUnknown => "UNKNOWN"
  | .kInvalidArgument => "INVALID_ARGUMENT"
  | .kDeadlineExceeded => "DEADLINE_EXCEEDED"
  | .kNotFound => "NOT_FOUND"
  | .kAlreadyExists => "ALREADY_EXISTS"
  | .kPermissionDenied => "PERMISSION_DENIED"
  | .kResourceExhausted => "RESOURCE_EXHAUSTED"
  | .kFailedPrecondition => "FAILED_PRECONDITION"
  | .kAborted => "ABORTED"
  | .kOutOfRange => "OUT_OF_RANGE"
  | .kUnimplemented => "UNIMPLEMENTED"
  | .kInternal => "INTERNAL"
  | .kUnavailable => "UNAVAILABLE"
  | .kDataLoss => "DATA_LOSS"
  | .kUnauthenticated => "UNAUTHENTICATED"

/-- Modelled from the spec: `absl::Status::ToString()`: `"OK"` for an OK
status, otherwise the code name, a colon and the message. -/
def Status.ToString (s : Status) : String :=
  if s.ok then "OK" else StatusCodeToString s.code ++ ": " ++ s.message

/-! ## `std::unordered_map` as an association list -/

section UnorderedMap
variable {K V : Type} [DecidableEq K]

/-- The `find` of `std::unordered_map`. -/
def umFind : List (K × V) → K → Option V
  | [], _ => none
  | (k', v) :: rest, k => if k' = k then some v else umFind rest k

/-- The `erase` of `std::unordered_map` (by key). -/
def umErase : List (K × V) → K → List (K × V)
  | [], _ => []
  | (k', v) :: rest, k => if k' = k then rest else (k', v) :: umErase rest k

/-- Assignment through a pointer to the mapped value: the value stored under
`k` becomes `v`; nothing happens when `k` is absent. -/
def umSet : List (K × V) → K → V → List (K × V)
  | [], _, _ => []
  | (k', v') :: rest, k, v =>
    if k' = k then (k', v) :: rest else (k', v') :: umSet rest k v

/-- The `emplace` of `std::unordered_map`: no effect when the key is present. -/
def umEmplace (m : List (K × V)) (k : K) (v : V) : List (K × V) :=
  match umFind m k with
  | some _ => m
  | none => (k, v) :: m

end UnorderedMap

/-! ## Request keys -/

/-- `RlsLb::RequestKey`: `key_map` is a `std::map`, here the list of its pairs
in key order. -/
structure RequestKey where
  key_map : List (String × String)
deriving DecidableEq, Repr

/-- The two `sizeof` values the size accounting uses; they depend on the
platform and are parameters here. -/
structure Layout where
  sizeof_RequestKey : Nat
  sizeof_Entry : Nat
deriving DecidableEq, Repr

/-- `RequestKey::Size`. `std::string::length` counts bytes. -/
def RequestKey.Size (L : Layout) (key : RequestKey) : Nat :=
  key.key_map.foldl (fun size kv => size + (kv.1.utf8ByteSize + kv.2.utf8ByteSize))
    L.sizeof_RequestKey

/-! ## Backoff state and cache entries -/

/-- Modelled from the spec: `BackOff` (`src/core/lib/backoff/backoff.h` is not
among the sources): whether the next attempt is the first one, and the current
delay. -/
structure BackOff where
  initial : Bool
  current_backoff : Duration
deriving DecidableEq, Repr

/-- `MakeCacheEntryBackoff`: a fresh backoff state with initial delay
`kCacheBackoffInitial`. -/
def MakeCacheEntryBackoff : BackOff := ⟨true, kCacheBackoffInitial⟩

/-- `RlsLb::Cache::Entry::BackoffTimer`. -/
structure BackoffTimer where
  armed : Bool
  backoff_time : Timestamp
deriving DecidableEq, Repr

/-- `RlsLb::Cache::Entry`.  `child_policy_wrappers` holds the targets of the
wrappers the entry references; `lru_iterator_` is the entry's key. -/
structure Entry where
  status : Status
  backoff_state : Option BackOff
  backoff_time : Timestamp
  backoff_expiration_time : Timestamp
  backoff_timer : Option BackoffTimer
  child_policy_wrappers : List String
  header_data : String
  data_expiration_time : Timestamp
  stale_time : Timestamp
  min_expiration_time : Timestamp
deriving DecidableEq, Repr

/-- The member initialisers of `Entry::Entry` (the constructor also appends the
key to the LRU list, see `Cache.FindOrInsert`). -/
def Entry.new (now : Timestamp) : Entry :=
  { status := OkStatus
    backoff_state := some MakeCacheEntryBackoff
    backoff_time := InfPast
    backoff_expiration_time := InfPast
    backoff_timer := none
    child_policy_wrappers := []
    header_data := ""
    data_expiration_time := InfPast
    stale_time := InfPast
    min_expiration_time := now + kMinExpirationTime }

/-- `Entry::ResetBackoff`. -/
def Entry.ResetBackoff (e : Entry) : Entry :=
  { e with backoff_time := InfPast, backoff_timer := none }

/-- `Entry::ShouldRemove`. -/
def Entry.ShouldRemove (e : Entry) (now : Timestamp) : Bool :=
  decide (e.data_expiration_time < now) && decide (e.backoff_expiration_time < now)

/-- `Entry::CanEvict`. -/
def Entry.CanEvict (e : Entry) (now : Timestamp) : Bool :=
  decide (e.min_expiration_time < now)

/-! ## The cache -/

/-- `RlsLb::Cache`.  `size` and `size_limit` are `size_t` byte counts; the sum
of the entry sizes is bounded by the memory the keys occupy, so the counters
are natural numbers here. -/
structure Cache where
  size_limit : Nat
  size : Nat
  lru_list : List RequestKey
  map : List (RequestKey × Entry)
deriving DecidableEq, Repr

/-- The cache of a freshly constructed policy. -/
def Cache.empty : Cache := ⟨0, 0, [], []⟩

/-- `Cache::EntrySizeForKey`. -/
def Cache.EntrySizeForKey (L : Layout) (key : RequestKey) : Nat :=
  (key.Size L * 2) + L.sizeof_Entry

/-- `Entry::MarkUsed` for the entry stored under `key`: its node moves to the
end of the LRU list. -/
def Cache.MarkUsed (c : Cache) (key : RequestKey) : Cache :=
  { c with lru_list := c.lru_list.erase key ++ [key] }

/-- What `map_.erase(it)` does for the entry stored under `key`: the binding
goes, and `Entry::Orphan` takes the entry's node out of the LRU list. -/
def Cache.eraseEntry (c : Cache) (key : RequestKey) : Cache :=
  { c with map := umErase c.map key, lru_list := c.lru_list.erase key }

/-- `Cache::Find`: the entry, if any, and the cache with the entry marked
used. -/
def Cache.Find (c : Cache) (key : RequestKey) : Cache × Option Entry :=
  match umFind c.map key with
  | none => (c, none)
  | some e => (c.MarkUsed key, some e)

/-- The `while` loop of `Cache::MaybeShrinkSize`, run for at most `fuel`
iterations.  `none` is the failed `GPR_ASSERT(map_it != map_.end())`, or the
fuel running out. -/
def Cache.shrinkLoop (L : Layout) (now : Timestamp) (bytes : Nat) : Nat → Cache → Option Cache
  | 0, _ => none
  | fuel + 1, c =>
    if c.size > bytes then
      match c.lru_list with
      | [] => some c
      | key :: _ =>
        match umFind c.map key with
        | none => none
        | some e =>
          if !e.CanEvict now then some c
          else
            Cache.shrinkLoop L now bytes fuel
              { (c.eraseEntry key) with size := c.size - Cache.EntrySizeForKey L key }
    else some c

/-- `Cache::MaybeShrinkSize`.  Every iteration that continues removes the head
of the LRU list, so `lru_list.length + 1` iterations are enough for the loop
to end by itself (`shrinkLoop_fuel`). -/
def Cache.MaybeShrinkSize (L : Layout) (now : Timestamp) (bytes : Nat) (c : Cache) :
    Option Cache :=
  Cache.shrinkLoop L now bytes (c.lru_list.length + 1) c

/-- `Cache::FindOrInsert`: the cache afterwards and the entry returned. -/
def Cache.FindOrInsert (L : Layout) (now : Timestamp) (c : Cache) (key : RequestKey) :
    Option (Cache × Entry) :=
  match umFind c.map key with
  | none =>
    let entry_size := Cache.EntrySizeForKey L key
    match Cache.MaybeShrinkSize L now (c.size_limit - min c.size_limit entry_size) c with
    | none => none
    | some c1 =>
      let entry := Entry.new now
      some ({ c1 with
                lru_list := c1.lru_list ++ [key]
                map := umEmplace c1.map key entry
                size := c1.size + entry_size }, entry)
  | some e => some (c.MarkUsed key, e)

/-- `Cache::Resize`. -/
def Cache.Resize (L : Layout) (now : Timestamp) (c : Cache) (bytes : Nat) : Option Cache :=
  Cache.MaybeShrinkSize L now bytes { c with size_limit := bytes }

/-- `Cache::ResetAllBackoff`. -/
def Cache.ResetAllBackoff (c : Cache) : Cache :=
  { c with map := c.map.map (fun p => (p.1, p.2.ResetBackoff)) }

/-- `Cache::Shutdown`. -/
def Cache.Shutdown (c : Cache) : Cache :=
  { c with map := [], lru_list := [] }

/-- The loop of `Cache::OnCleanupTimer` over the bindings `m` still to visit. -/
def Cache.cleanupLoop (L : Layout) (now : Timestamp) :
    List (RequestKey × Entry) → Cache → Cache
  | [], c => c
  | (key, e) :: rest, c =>
    if e.ShouldRemove now && e.CanEvict now then
      Cache.cleanupLoop L now rest
        { (c.eraseEntry key) with size := c.size - Cache.EntrySizeForKey L key }
    else Cache.cleanupLoop L now rest c

/-- The body of `Cache::OnCleanupTimer` once the shutdown check has passed. -/
def Cache.OnCleanupTimer (L : Layout) (now : Timestamp) (c : Cache) : Cache :=
  Cache.cleanupLoop L now c.map c


/-! ## Building the request key -/

/-- Modelled from the spec: the read-only metadata view of a call
(`LoadBalancingPolicy::MetadataInterface`, not among the sources), as the list
of its name and value pairs. -/
abbrev Metadata := List (String × String)

/-- Modelled from the spec: `MetadataInterface::Lookup`, `lookup(name) →
optional<string>`. -/
def Metadata.Lookup (md : Metadata) (name : String) : Option String := umFind md name

/-- Modelled from the spec: `MetadataInterface::Add`. -/
def Metadata.Add (md : Metadata) (name value : String) : Metadata := md ++ [(name, value)]

/-- `key_map[key] = value` on a `std::map<std::string, std::string>`. -/
def smAssign : List (String × String) → String → String → List (String × String)
  | [], k, v => [(k, v)]
  | (k1, v1) :: rest, k, v =>
    if k < k1 then (k, v) :: (k1, v1) :: rest
    else if k = k1 then (k, v) :: rest
    else (k1, v1) :: smAssign rest k v

/-- `key_map.insert({key, value})` on a `std::map<std::string, std::string>`:
no effect when the key is present. -/
def smInsert : List (String × String) → String → String → List (String × String)
  | [], k, v => [(k, v)]
  | (k1, v1) :: rest, k, v =>
    if k < k1 then (k, v) :: (k1, v1) :: rest
    else if k = k1 then (k1, v1) :: rest
    else (k1, v1) :: smInsert rest k v

/-- `RlsLbConfig::KeyBuilder`.  The two `std::map` members are the lists of
their pairs in key order. -/
structure KeyBuilder where
  header_keys : List (String × List String)
  host_key : String
  service_key : String
  method_key : String
  constant_keys : List (String × String)
deriving DecidableEq, Repr

/-- `path.rfind("/")`: the position of the last `c` among the characters from
position `i` on, `last` when there is none.  Paths are ASCII (they are HTTP/2
`:path` values), so byte positions are character positions. -/
def rfindFrom (c : Char) : List Char → Nat → Option Nat → Option Nat
  | [], _, last => last
  | x :: xs, i, last => rfindFrom c xs (i + 1) (if x = c then some i else last)

/-- `path.substr(pos, n)` for `pos ≤ path.size()`. -/
def substr (s : List Char) (pos n : Nat) : List Char := (s.drop pos).take n

/-- The `size_t` difference `last_slash_pos - 1`. -/
def posMinusOne (last_slash_pos : Nat) : Nat := (last_slash_pos + 2 ^ 64 - 1) % 2 ^ 64

/-- The key-builder lookup at the head of `BuildKeyMap`: the exact path, then
the path up to and including its last `/`. -/
def findKeyBuilder (key_builder_map : List (String × KeyBuilder)) (path : String) :
    Option KeyBuilder :=
  match umFind key_builder_map path with
  | some key_builder => some key_builder
  | none =>
    match rfindFrom '/' path.data 0 none with
    | none => none
    | some last_slash_pos =>
      umFind key_builder_map (String.mk (substr path.data 0 (last_slash_pos + 1)))

/-- The header-key loop of `BuildKeyMap`. -/
def addHeaderKeys (initial_metadata : Metadata) :
    List (String × List String) → List (String × String) → List (String × String)
  | [], key_map => key_map
  | (key, header_names) :: rest, key_map =>
    match header_names.findSome? (fun header_name => initial_metadata.Lookup header_name) with
    | some value => addHeaderKeys initial_metadata rest (smAssign key_map key value)
    | none => addHeaderKeys initial_metadata rest key_map

/-- `BuildKeyMap`. -/
def BuildKeyMap (key_builder_map : List (String × KeyBuilder)) (path : String)
    (host : String) (initial_metadata : Metadata) : List (String × String) :=
  match findKeyBuilder key_builder_map path with
  | none => []
  | some key_builder =>
    let last_slash_pos := rfindFrom '/' path.data 0 none
    let key_map := addHeaderKeys initial_metadata key_builder.header_keys []
    let key_map := key_builder.constant_keys.foldl (fun m kv => smInsert m kv.1 kv.2) key_map
    let key_map :=
      if key_builder.host_key = "" then key_map else smAssign key_map key_builder.host_key host
    match last_slash_pos with
    | none =>
      if key_builder.service_key = "" ∧ key_builder.method_key = "" then key_map else []
    | some pos =>
      let key_map :=
        if key_builder.service_key = "" then key_map
        else smAssign key_map key_builder.service_key
          (String.mk (substr path.data 1 (posMinusOne pos)))
      if key_builder.method_key = "" then key_map
      else smAssign key_map key_builder.method_key
        (String.mk (substr path.data (pos + 1) (path.data.length - (pos + 1))))

/-! ## Pick arguments and results, child policy wrappers -/

/-- Modelled from the spec: `LoadBalancingPolicy::PickArgs` (not among the
sources): the path and the initial metadata of the call. -/
structure PickArgs where
  path : String
  initial_metadata : Metadata
deriving DecidableEq, Repr

/-- Modelled from the spec: `LoadBalancingPolicy::PickResult` (not among the
sources).  A complete pick names a subchannel. -/
inductive PickResult where
  | Complete (subchannel : Nat)
  | Queue
  | Fail (status : Status)
  | Drop (status : Status)
deriving DecidableEq, Repr

/-- `grpc_connectivity_state`. -/
inductive grpc_connectivity_state where
  | GRPC_CHANNEL_IDLE
  | GRPC_CHANNEL_CONNECTING
  | GRPC_CHANNEL_READY
  | GRPC_CHANNEL_TRANSIENT_FAILURE
  | GRPC_CHANNEL_SHUTDOWN
deriving DecidableEq, Repr

open grpc_connectivity_state

/-- What a pick hands back to the caller: the result, and the initial metadata
of the call, to which the pick may have added. -/
structure PickOutcome where
  result : PickResult
  initial_metadata : Metadata
deriving DecidableEq, Repr

/-- `RlsLb::ChildPolicyWrapper`.  `picker` is `picker_->Pick`; `child_policy`
and `pending_config` say whether the pointers are set. -/
structure ChildPolicyWrapper where
  target : String
  is_shutdown : Bool
  child_policy : Bool
  pending_config : Bool
  connectivity_state : grpc_connectivity_state
  picker : PickArgs → PickResult

/-- The pick of `QueuePicker`. -/
def QueuePicker : PickArgs → PickResult := fun _ => PickResult.Queue

/-- The pick of `TransientFailurePicker`. -/
def TransientFailurePicker (status : Status) : PickArgs → PickResult :=
  fun _ => PickResult.Fail status

/-- `ChildPolicyWrapper::Pick`. -/
def ChildPolicyWrapper.Pick (w : ChildPolicyWrapper) (args : PickArgs) : PickResult :=
  w.picker args

/-- The `for` loop of `Entry::Pick` over the wrappers from index `i` on: the
wrapper `child_policy_wrapper` points to when the loop ends.  The test
`i < child_policy_wrappers_.size() - 1` holds when another wrapper follows.
`none` is the null pointer the loop leaves when the list is empty (or a target
with no wrapper). -/
def Entry.pickLoop (child_policy_map : List (String × ChildPolicyWrapper)) :
    List String → Option ChildPolicyWrapper
  | [] => none
  | target :: rest =>
    match umFind child_policy_map target with
    | none => none
    | some child_policy_wrapper =>
      if child_policy_wrapper.connectivity_state = GRPC_CHANNEL_TRANSIENT_FAILURE ∧ rest ≠ []
      then Entry.pickLoop child_policy_map rest
      else some child_policy_wrapper

/-- What `strcpy(copied_header_data, header_data_.c_str())` leaves in
`copied_header_data`, read as the C string that `Add` is given: the characters
of the string before its first NUL character. -/
def strcpy (s : String) : String :=
  String.mk (s.data.takeWhile (fun c => decide (c ≠ Char.ofNat 0)))

/-- `Entry::Pick`.  `none` is the dereference of a null `child_policy_wrapper`. -/
def Entry.Pick (child_policy_map : List (String × ChildPolicyWrapper)) (e : Entry)
    (args : PickArgs) : Option PickOutcome :=
  match Entry.pickLoop child_policy_map e.child_policy_wrappers with
  | none => none
  | some child_policy_wrapper =>
    let args1 : PickArgs :=
      if e.header_data = "" then args
      else { args with
        initial_metadata := args.initial_metadata.Add kRlsHeaderKey (strcpy e.header_data) }
    some ⟨child_policy_wrapper.Pick args1, args1.initial_metadata⟩

/-! ## The throttle, the RLS channel and pending requests -/

/-- The power `2 ^ k` for an integer exponent. -/
def pow2 (k : Int) : ℚ :=
  if 0 ≤ k then ((2 ^ k.toNat : Nat) : ℚ) else 1 / ((2 ^ (-k).toNat : Nat) : ℚ)

/-- The integer nearest to `q`, the even one of the two when `q` is halfway. -/
def roundHalfEven (q : ℚ) : Int :=
  if q - ⌊q⌋ < 1 / 2 then ⌊q⌋
  else if 1 / 2 < q - ⌊q⌋ then ⌊q⌋ + 1
  else if ⌊q⌋ % 2 = 0 then ⌊q⌋ else ⌊q⌋ + 1

/-- The loop of `floorLog2`. -/
def floorLog2.loop : Nat → Nat → Nat
  | 0, _ => 0
  | fuel + 1, n => if n < 2 then 0 else floorLog2.loop fuel (n / 2) + 1

/-- The `k` with `2 ^ k ≤ n < 2 ^ (k + 1)`, for `n ≥ 1`. -/
def floorLog2 (n : Nat) : Nat := floorLog2.loop n n

/-- The binary exponent of `q ≠ 0`: the `e` with `2 ^ e ≤ |q| < 2 ^ (e + 1)`. -/
def binaryExponent (q : ℚ) : Int :=
  let k : Int := (floorLog2 q.num.natAbs : Int) - (floorLog2 q.den : Int)
  if |q| < pow2 k then k - 1 else k

/-- The value of `q` in an IEEE 754 binary format with `prec` significand bits
and least exponent `emin`, rounded to nearest, ties to even (the rounding of
the target): the multiple of the unit in the last place of `q` that is nearest
to `q`.  Values beyond the largest finite number of the format, which the
format turns into an infinity, are not modelled; the throttle, with fewer than
2^64 timestamps in a deque, the ratio 2 and the padding 8, stays far below
them. -/
def roundToBinary (prec : Nat) (emin : Int) (q : ℚ) : ℚ :=
  if q = 0 then 0
  else
    let ulp := pow2 (max (binaryExponent q) emin - ((prec : Int) - 1))
    (roundHalfEven (q / ulp) : ℚ) * ulp

/-- The conversion to `float` (binary32) of a value, and the rounding of the
result of an operation on `float` operands. -/
def toFloat (q : ℚ) : ℚ := roundToBinary 24 (-126) q

/-- The conversion to `double` (binary64) of a value, and the rounding of the
result of an operation on `double` operands. -/
def toDouble (q : ℚ) : ℚ := roundToBinary 53 (-1022) q

/-- `RlsLb::RlsChannel::Throttle`.  `ratio_for_successes` is the value of the
`double` member. -/
structure Throttle where
  window_size : Duration
  ratio_for_successes : ℚ
  padding : Int
  requests : List Timestamp
  failures : List Timestamp
deriving DecidableEq

/-- The throttle a new `RlsChannel` starts with. -/
def Throttle.new : Throttle := ⟨kDefaultThrottleWindowSize, 2, kDefaultThrottlePadding, [], []⟩

/-- `Throttle::ShouldThrottle`; `u` is the `float` that `dist(rng_)` draws.
The arithmetic is that of the source, each operation at the type of its
operands (`FLT_EVAL_METHOD` is 0 on the target): `num_requests` and
`num_successes` are `float`; the product with the `double`
`ratio_for_successes_` and the difference with it are `double`; the sum with
the `int` `padding_` is `float`; the quotient is `double` and is converted to
the `float` `throttle_probability`.  With the divisor zero the quotient is an
infinity or a NaN, and the draw is below it exactly when the dividend is
positive. -/
def Throttle.ShouldThrottle (t : Throttle) (now : Timestamp) (u : ℚ) : Bool × Throttle :=
  let requests := t.requests.dropWhile (fun front => decide (now - front > t.window_size))
  let failures := t.failures.dropWhile (fun front => decide (now - front > t.window_size))
  let num_requests : ℚ := toFloat requests.length
  let num_successes : ℚ := toFloat (num_requests - toFloat failures.length)
  let dividend : ℚ := toDouble (num_requests - toDouble (num_successes * t.ratio_for_successes))
  let divisor : ℚ := toFloat (num_requests + toFloat t.padding)
  let throttle : Bool :=
    if divisor = 0 then decide (0 < dividend)
    else decide (u < toFloat (toDouble (dividend / divisor)))
  if throttle then
    (true, { t with requests := requests ++ [now], failures := failures ++ [now] })
  else
    (false, { t with requests := requests, failures := failures })

/-- `Throttle::RegisterResponse`. -/
def Throttle.RegisterResponse (t : Throttle) (now : Timestamp) (success : Bool) : Throttle :=
  { t with
    requests := t.requests ++ [now]
    failures := if !success then t.failures ++ [now] else t.failures }

/-- `RlsLb::RlsChannel`; `id` tells one channel object from another. -/
structure RlsChannel where
  id : Nat
  is_shutdown : Bool
  throttle : Throttle
deriving DecidableEq

/-- `grpc_lookup_v1_RouteLookupRequest_Reason`. -/
inductive Reason where
  | REASON_UNKNOWN
  | REASON_MISS
  | REASON_STALE
deriving DecidableEq, Repr

/-- `RlsLb::RlsRequest`: the members the constructor is given; `rls_channel`
is the `id` of the channel the request holds. -/
structure RlsRequest where
  key : RequestKey
  rls_channel : Nat
  backoff_state : Option BackOff
  reason : Reason
  stale_header_data : String
deriving DecidableEq, Repr

/-- `RlsLbConfig`: the route lookup configuration.
`child_policy_config_error target` is what parsing the child policy
configuration reports once the target field is set to `target` (`none` when it
validates). -/
structure RlsLbConfig where
  key_builder_map : List (String × KeyBuilder)
  lookup_service : String
  lookup_service_timeout : Duration
  max_age : Duration
  stale_age : Duration
  cache_size_bytes : Int
  default_target : String
  child_policy_config_error : String → Option Status

/-- `RlsLb`: the state of the policy. `default_child_policy` is the target of
the default wrapper. `picker_updates` counts the calls of
`UpdatePickerAsync`. -/
structure RlsLb where
  server_name : String
  is_shutdown : Bool
  update_in_progress : Bool
  cache : Cache
  request_map : List (RequestKey × RlsRequest)
  rls_channel : Option RlsChannel
  config : Option RlsLbConfig
  default_child_policy : Option String
  child_policy_map : List (String × ChildPolicyWrapper)
  picker_updates : Nat

/-- `RlsLb::Picker`: the configuration and the default wrapper (its target)
the picker was constructed with. -/
structure Picker where
  config : RlsLbConfig
  default_child_policy : Option String

/-- `RlsChannel::StartRlsCall`.  `stale_entry` is the key under which the stale
entry is stored; `none` in the result is a dangling `stale_entry`, or a missing
`rls_channel_`. -/
def RlsChannel.StartRlsCall (lb : RlsLb) (key : RequestKey) (stale_entry : Option RequestKey) :
    Option RlsLb :=
  match lb.rls_channel with
  | none => none
  | some channel =>
    match stale_entry with
    | none =>
      some { lb with
        request_map := umEmplace lb.request_map key
          ⟨key, channel.id, none, Reason.REASON_MISS, ""⟩ }
    | some entry_key =>
      match umFind lb.cache.map entry_key with
      | none => none
      | some entry =>
        some { lb with
          cache := { lb.cache with
            map := umSet lb.cache.map entry_key { entry with backoff_state := none } }
          request_map := umEmplace lb.request_map key
            ⟨key, channel.id, entry.backoff_state, Reason.REASON_STALE, entry.header_data⟩ }

/-- The end of `Picker::Pick`, from "If the cache entry exists, see if it has
usable data" on. -/
def Picker.pickFromEntry (p : Picker) (lb : RlsLb) (entry : Option Entry) (args : PickArgs)
    (now : Timestamp) : Option PickOutcome :=
  match entry with
  | none => some ⟨PickResult.Queue, args.initial_metadata⟩
  | some entry =>
    if entry.data_expiration_time ≥ now then Entry.Pick lb.child_policy_map entry args
    else if entry.backoff_time ≥ now then
      match p.default_child_policy with
      | some target =>
        match umFind lb.child_policy_map target with
        | none => none
        | some w => some ⟨w.Pick args, args.initial_metadata⟩
      | none =>
        some ⟨PickResult.Fail (UnavailableError ("RLS request failed: " ++ entry.status.ToString)),
          args.initial_metadata⟩
    else some ⟨PickResult.Queue, args.initial_metadata⟩

/-- `Picker::Pick`, at time `now`; `u` is the number the throttle draws if it
is consulted.  The result is the state of the policy afterwards and what the
caller gets; `none` is the dereference of a null pointer. -/
def Picker.Pick (p : Picker) (lb : RlsLb) (args : PickArgs) (now : Timestamp) (u : ℚ) :
    Option (RlsLb × PickOutcome) :=
  let key : RequestKey :=
    ⟨BuildKeyMap p.config.key_builder_map args.path lb.server_name args.initial_metadata⟩
  if lb.is_shutdown then
    some (lb, ⟨PickResult.Fail (UnavailableError "LB policy already shut down"),
      args.initial_metadata⟩)
  else
    let found := lb.cache.Find key
    let entry := found.2
    let lb1 : RlsLb := { lb with cache := found.1 }
    let expired : Bool :=
      match entry with
      | none => true
      | some e => decide (e.data_expiration_time < now)
    let eligible : Bool :=
      match entry with
      | none => true
      | some e => decide (e.stale_time < now) && decide (e.backoff_time < now)
    if eligible ∧ umFind lb1.request_map key = none then
      match lb1.rls_channel with
      | none => none
      | some channel =>
        let throttled := channel.throttle.ShouldThrottle now u
        let lb2 : RlsLb := { lb1 with rls_channel := some { channel with throttle := throttled.2 } }
        if throttled.1 ∧ expired then
          match p.default_child_policy with
          | some target =>
            match umFind lb2.child_policy_map target with
            | none => none
            | some w => some (lb2, ⟨w.Pick args, args.initial_metadata⟩)
          | none =>
            some (lb2, ⟨PickResult.Fail (UnavailableError "RLS request throttled"),
              args.initial_metadata⟩)
        else
          match RlsChannel.StartRlsCall lb2 key (if expired then none else some key) with
          | none => none
          | some lb3 => (Picker.pickFromEntry p lb3 entry args now).map (fun r => (lb3, r))
    else (Picker.pickFromEntry p lb1 entry args now).map (fun r => (lb1, r))

/-! ## The response path -/

/-- `RlsLb::ResponseInfo`. -/
structure ResponseInfo where
  status : Status
  targets : List String
  header_data : String
deriving DecidableEq, Repr

/-- Modelled from the spec: `BackOff::NextAttemptTime`
(`src/core/lib/backoff/backoff.cc` is not among the sources), for the options of
`MakeCacheEntryBackoff`: the first attempt comes after the initial delay; each
further one multiplies the delay by 1.6, capped at `kCacheBackoffMax`, and adds
the drawn `jitter`. -/
def BackOff.NextAttemptTime (b : BackOff) (now : Timestamp) (jitter : Duration) :
    Timestamp × BackOff :=
  if b.initial then (now + b.current_backoff, { b with initial := false })
  else
    let current_backoff := min (b.current_backoff * 8 / 5) kCacheBackoffMax
    (now + current_backoff + jitter, ⟨false, current_backoff⟩)

/-- The constructor of `ChildPolicyWrapper`: the new wrapper, which the
constructor also registers in `child_policy_map_`. -/
def ChildPolicyWrapper.new (target : String) : ChildPolicyWrapper :=
  { target := target
    is_shutdown := false
    child_policy := false
    pending_config := false
    connectivity_state := GRPC_CHANNEL_IDLE
    picker := QueuePicker }

/-- `ChildPolicyWrapper::StartUpdate`. -/
def ChildPolicyWrapper.StartUpdate (config : RlsLbConfig) (w : ChildPolicyWrapper) :
    ChildPolicyWrapper :=
  match config.child_policy_config_error w.target with
  | none => { w with pending_config := true }
  | some error =>
    { w with pending_config := false, picker := TransientFailurePicker error,
             child_policy := false }

/-- `ChildPolicyWrapper::MaybeFinishUpdate`: the child policy is created if
need be and takes the pending configuration. -/
def ChildPolicyWrapper.MaybeFinishUpdate (w : ChildPolicyWrapper) : ChildPolicyWrapper :=
  if w.pending_config then { w with child_policy := true, pending_config := false } else w

/-- What the loop over `response.targets` in `Entry::OnRlsResponseLocked`
builds. -/
structure TargetsUpdate where
  child_policy_map : List (String × ChildPolicyWrapper)
  update_picker : Bool
  child_policies_to_finish_update : List String
  new_child_policy_wrappers : List String

/-- The loop over `response.targets` in `Entry::OnRlsResponseLocked`. -/
def Entry.updateTargets (config : RlsLbConfig) (old_targets : List String) :
    List String → TargetsUpdate → TargetsUpdate
  | [], acc => acc
  | target :: rest, acc =>
    match umFind acc.child_policy_map target with
    | none =>
      let new_child := (ChildPolicyWrapper.new target).StartUpdate config
      Entry.updateTargets config old_targets rest
        { acc with
          child_policy_map := umEmplace acc.child_policy_map target new_child
          child_policies_to_finish_update := acc.child_policies_to_finish_update ++ [target]
          new_child_policy_wrappers := acc.new_child_policy_wrappers ++ [target] }
    | some _ =>
      Entry.updateTargets config old_targets rest
        { acc with
          new_child_policy_wrappers := acc.new_child_policy_wrappers ++ [target]
          update_picker := if target ∈ old_targets then acc.update_picker else true }

/-- Whether a strong reference to the wrapper of `target` is held by an entry
of `entries` (in `child_policy_wrappers_`) or by `default_child_policy_`.  The
other holders of strong references, the pickers, hold the default wrapper
only, the one `default_child_policy_` holds as long as the configuration is
not updated. -/
def wrapperHeld (entries : List (RequestKey × Entry)) (default_child_policy : Option String)
    (target : String) : Bool :=
  entries.any (fun p => decide (target ∈ p.2.child_policy_wrappers)) ||
    decide (default_child_policy = some target)

/-- The release of references to the wrappers of `targets` (the destructors of
`RefCountedPtr<ChildPolicyWrapper>`), `entries` and `default_child_policy`
holding the references that remain: a wrapper that loses its last strong
reference runs `ChildPolicyWrapper::Orphan`, which erases its target from
`child_policy_map_`. -/
def releaseWrappers (entries : List (RequestKey × Entry)) (default_child_policy : Option String) :
    List String → List (String × ChildPolicyWrapper) → List (String × ChildPolicyWrapper)
  | [], child_policy_map => child_policy_map
  | target :: rest, child_policy_map =>
    releaseWrappers entries default_child_policy rest
      (if wrapperHeld entries default_child_policy target then child_policy_map
       else umErase child_policy_map target)

/-- The wrappers (their targets) held by the entries of `before` that are not
in `after`: `Entry::Orphan` clears `child_policy_wrappers_`, which releases
them. -/
def orphanedWrappers (before after : List (RequestKey × Entry)) : List String :=
  (before.filter (fun p => (umFind after p.1).isNone)).foldr
    (fun p acc => p.2.child_policy_wrappers ++ acc) []

/-- `Entry::OnRlsResponseLocked` for the entry stored under `key`; `jitter` is
what the backoff state draws.  The result is the policy afterwards and the
wrappers (their targets) to finish updating; `none` is a dangling entry
pointer, or a missing `config_`.  The move assignment to
`child_policy_wrappers_` releases the wrappers the entry held, after the new
list has taken its references. -/
def Entry.OnRlsResponseLocked (lb : RlsLb) (key : RequestKey) (response : ResponseInfo)
    (backoff_state : Option BackOff) (now : Timestamp) (jitter : Duration) :
    Option (RlsLb × List String) :=
  match umFind lb.cache.map key with
  | none => none
  | some entry =>
    let cache := lb.cache.MarkUsed key
    if !response.status.ok then
      let backoff_state :=
        match backoff_state with
        | some b => b
        | none => MakeCacheEntryBackoff
      let next := backoff_state.NextAttemptTime now jitter
      let backoff_time := next.1
      let entry1 : Entry :=
        { entry with
          status := response.status
          backoff_state := some next.2
          backoff_time := backoff_time
          backoff_expiration_time := now + (backoff_time - now) * 2
          backoff_timer := some ⟨true, backoff_time⟩ }
      some ({ lb with
              cache := { cache with map := umSet cache.map key entry1 }
              picker_updates := lb.picker_updates + 1 }, [])
    else
      match lb.config with
      | none => none
      | some config =>
        let entry1 : Entry :=
          { entry with
            header_data := response.header_data
            data_expiration_time := now + config.max_age
            stale_time := now + config.stale_age
            status := OkStatus
            backoff_state := none
            backoff_time := InfPast
            backoff_expiration_time := InfPast }
        let targets_changed := decide (entry.child_policy_wrappers ≠ response.targets)
        if !targets_changed then
          some ({ lb with
                  cache := { cache with map := umSet cache.map key entry1 }
                  picker_updates := lb.picker_updates + 1 }, [])
        else
          let upd := Entry.updateTargets config entry.child_policy_wrappers response.targets
            ⟨lb.child_policy_map, false, [], []⟩
          let entry2 : Entry := { entry1 with child_policy_wrappers := upd.new_child_policy_wrappers }
          let map := umSet cache.map key entry2
          some ({ lb with
                  cache := { cache with map := map }
                  child_policy_map :=
                    releaseWrappers map lb.default_child_policy entry.child_policy_wrappers
                      upd.child_policy_map
                  picker_updates := if upd.update_picker then lb.picker_updates + 1
                                    else lb.picker_updates },
                upd.child_policies_to_finish_update)

/-- `grpc_lookup_v1_RouteLookupResponse`, parsed. -/
structure RouteLookupResponse where
  targets : List String
  header_data : String
deriving DecidableEq, Repr

/-- What a completed RLS call hands to `OnRlsCallCompleteLocked`: the error of
the batch (with the code and message `grpc_error_get_status` reads from it), the
status received, and the received message, `none` when it does not parse. -/
structure RlsCallResult where
  error : Status
  status_recv : StatusCode
  status_details_recv : String
  recv_message : Option RouteLookupResponse
deriving DecidableEq, Repr

/-- `RlsRequest::ParseResponseProto`. -/
def RlsRequest.ParseResponseProto (recv_message : Option RouteLookupResponse) : ResponseInfo :=
  match recv_message with
  | none => ⟨InternalError "cannot parse RLS response", [], ""⟩
  | some response =>
    if response.targets.length = 0 then
      ⟨InvalidArgumentError "RLS response has no target entry", [], ""⟩
    else ⟨OkStatus, response.targets, response.header_data⟩

/-- The "Parse response" part of `RlsRequest::OnRlsCallCompleteLocked`. -/
def RlsRequest.responseInfo (r : RlsCallResult) : ResponseInfo :=
  if !r.error.ok then ⟨⟨r.error.code, r.error.message⟩, [], ""⟩
  else if r.status_recv ≠ StatusCode.kOk then ⟨⟨r.status_recv, r.status_details_recv⟩, [], ""⟩
  else RlsRequest.ParseResponseProto r.recv_message

/-- `RlsChannel::ReportResponseLocked` on the channel the request holds: the
throttle of the policy's channel changes when that is the request's channel. -/
def RlsRequest.reportResponse (req : RlsRequest) (lb : RlsLb) (now : Timestamp)
    (response_succeeded : Bool) : RlsLb :=
  match lb.rls_channel with
  | none => lb
  | some channel =>
    if channel.id = req.rls_channel then
      let throttle := channel.throttle.RegisterResponse now response_succeeded
      { lb with rls_channel := some { channel with throttle := throttle } }
    else lb

/-- The number of calls of `UpdatePickerAsync` by `Entry::Orphan` when the
entries of `before` that are not in `after` are removed: one for each entry
with a backoff timer. -/
def orphanPickerUpdates (before after : List (RequestKey × Entry)) : Nat :=
  (before.filter (fun p => (umFind after p.1).isNone && p.2.backoff_timer.isSome)).length

/-- `RlsRequest::OnRlsCallCompleteLocked` for the request `req`, with the
`MaybeFinishUpdate` calls that follow the locked section.  The entries that
`FindOrInsert` evicts release their wrappers. -/
def RlsRequest.OnRlsCallCompleteLocked (L : Layout) (req : RlsRequest) (lb : RlsLb)
    (result : RlsCallResult) (now : Timestamp) (jitter : Duration) : Option RlsLb :=
  let response := RlsRequest.responseInfo result
  if lb.is_shutdown then some lb
  else
    let lb1 := req.reportResponse lb now response.status.ok
    match Cache.FindOrInsert L now lb1.cache req.key with
    | none => none
    | some (cache, _) =>
      let lb2 : RlsLb :=
        { lb1 with
          cache := cache
          child_policy_map :=
            releaseWrappers cache.map lb1.default_child_policy
              (orphanedWrappers lb1.cache.map cache.map) lb1.child_policy_map
          picker_updates := lb1.picker_updates + orphanPickerUpdates lb1.cache.map cache.map }
      match Entry.OnRlsResponseLocked lb2 req.key response req.backoff_state now jitter with
      | none => none
      | some (lb3, child_policies_to_finish_update) =>
        some { lb3 with
          request_map := umErase lb3.request_map req.key
          child_policy_map := lb3.child_policy_map.map (fun p =>
            if p.1 ∈ child_policies_to_finish_update then (p.1, p.2.MaybeFinishUpdate) else p) }

/-! ## Picks and completions as a transition system -/

/-- The events of the data path and of the response path: a pick through a
picker, and the completion of the pending request for a key. -/
inductive RlsEvent where
  | pick (p : Picker) (args : PickArgs) (now : Timestamp) (u : ℚ)
  | complete (key : RequestKey) (result : RlsCallResult) (now : Timestamp) (jitter : Duration)

/-- One event.  A completion is that of the request `request_map` holds for the
key; with no such request nothing happens. -/
def RlsLb.step (L : Layout) (lb : RlsLb) : RlsEvent → Option RlsLb
  | .pick p args now u => (Picker.Pick p lb args now u).map Prod.fst
  | .complete key result now jitter =>
    match umFind lb.request_map key with
    | none => some lb
    | some req => RlsRequest.OnRlsCallCompleteLocked L req lb result now jitter

/-- A sequence of events, first to last. -/
def RlsLb.run (L : Layout) : RlsLb → List RlsEvent → Option RlsLb
  | lb, [] => some lb
  | lb, ev :: evs => (RlsLb.step L lb ev).bind (fun lb1 => RlsLb.run L lb1 evs)

/-! ## Cache operations as a transition system -/

/-- The sum of the entry sizes of the bindings of a cache map. -/
def Cache.sumEntrySizes (L : Layout) (m : List (RequestKey × Entry)) : Nat :=
  (m.map (fun p => Cache.EntrySizeForKey L p.1)).sum

/-- The operations of the cache interface.  `assign` is an assignment to the
fields of the entry stored under a key, as `Entry::OnRlsResponseLocked` and
`Entry::TakeBackoffState` do through the entry pointer. -/
inductive CacheOp where
  | find (key : RequestKey)
  | find_or_insert (key : RequestKey) (now : Timestamp)
  | resize (bytes : Nat) (now : Timestamp)
  | reset_all_backoff
  | cleanup (now : Timestamp)
  | assign (key : RequestKey) (e : Entry)
  | shutdown
deriving DecidableEq, Repr

/-- One operation on the cache. -/
def Cache.step (L : Layout) (c : Cache) : CacheOp → Option Cache
  | .find key => some (c.Find key).1
  | .find_or_insert key now => (Cache.FindOrInsert L now c key).map Prod.fst
  | .resize bytes now => Cache.Resize L now c bytes
  | .reset_all_backoff => some c.ResetAllBackoff
  | .cleanup now => some (Cache.OnCleanupTimer L now c)
  | .assign key e => some { c with map := umSet c.map key e }
  | .shutdown => some c.Shutdown

/-- A sequence of operations on the cache, first to last. -/
def Cache.run (L : Layout) : Cache → List CacheOp → Option Cache
  | c, [] => some c
  | c, op :: ops => (Cache.step L c op).bind (fun c1 => Cache.run L c1 ops)

/-- The invariant of the cache: the size counter is the sum of the entry
sizes, no key is bound twice, and the LRU list holds the keys of the map, each
once. -/
structure Cache.Inv (L : Layout) (c : Cache) : Prop where
  size_eq : c.size = Cache.sumEntrySizes L c.map
  keys_nodup : (c.map.map Prod.fst).Nodup
  lru_nodup : c.lru_list.Nodup
  lru_mem : ∀ k, k ∈ c.lru_list ↔ k ∈ c.map.map Prod.fst

/-- The condition, in the words of the specification of `resize`, under which
eviction stops once the first `m` keys of the LRU list are removed: the size is
at most the new limit, or the list is empty, or the entry at the head may not
be evicted yet (`now ≤ min_expiration_time`). -/
def Cache.evictionStops (L : Layout) (now : Timestamp) (new_limit : Nat) (c : Cache)
    (m : Nat) : Prop :=
  c.size - ((c.lru_list.take m).map (Cache.EntrySizeForKey L)).sum ≤ new_limit ∨
  c.lru_list.drop m = [] ∨
  ∃ key e, (c.lru_list.drop m).head? = some key ∧ umFind c.map key = some e ∧
    now ≤ e.min_expiration_time

/-- The pick returns from the throttle branch of `Picker::Pick`: it was about
to start a request (no entry, or an entry that is stale and not in backoff, and
no pending request), the throttle said throttle, and there is no entry with
unexpired data. -/
def Picker.returnsThrottled (p : Picker) (lb : RlsLb) (args : PickArgs) (now : Timestamp)
    (u : ℚ) : Prop :=
  let key : RequestKey :=
    ⟨BuildKeyMap p.config.key_builder_map args.path lb.server_name args.initial_metadata⟩
  (match umFind lb.cache.map key with
   | none => True
   | some e => e.stale_time < now ∧ e.backoff_time < now ∧ e.data_expiration_time < now) ∧
  umFind lb.request_map key = none ∧
  ∃ ch, lb.rls_channel = some ch ∧ (ch.throttle.ShouldThrottle now u).1 = true

/-! ## Example data

The policy of the first end-to-end scenario of the specification: one key
builder for `/svc.S/M` with host key `h`, server name `a.example`. -/

def exLayout : Layout := ⟨48, 200⟩

def exKeyBuilderMap : List (String × KeyBuilder) := [("/svc.S/M", ⟨[], "h", "", "", []⟩)]

def exConfig : RlsLbConfig :=
  ⟨exKeyBuilderMap, "rls.example", 10000, 60000, 30000, 1048576, "", fun _ => none⟩

def exKey : RequestKey := ⟨[("h", "a.example")]⟩

def exArgs : PickArgs := ⟨"/svc.S/M", []⟩

/-- A call whose path no key builder matches. -/
def exArgsOther : PickArgs := ⟨"/other.S/M", []⟩

def exWrapper (target : String) (state : grpc_connectivity_state) (subchannel : Nat) :
    ChildPolicyWrapper :=
  ⟨target, false, true, false, state, fun _ => PickResult.Complete subchannel⟩

def exChannel (throttle : Throttle) : RlsChannel := ⟨0, false, throttle⟩

/-- A throttle that has seen one request, which failed: it throttles a draw of 0. -/
def exThrottling : Throttle := { Throttle.new with requests := [0], failures := [0] }

/-- A policy with the given cache entries, pending requests and throttle, and
three wrappers: `t1` (READY), `t2` (TRANSIENT_FAILURE) and `dflt` (READY). -/
def exLb (entries : List (RequestKey × Entry)) (requests : List (RequestKey × RlsRequest))
    (throttle : Throttle) : RlsLb :=
  { server_name := "a.example"
    is_shutdown := false
    update_in_progress := false
    cache := ⟨1048576, Cache.sumEntrySizes exLayout entries, entries.map Prod.fst, entries⟩
    request_map := requests
    rls_channel := some (exChannel throttle)
    config := some exConfig
    default_child_policy := none
    child_policy_map :=
      [("t1", exWrapper "t1" GRPC_CHANNEL_READY 1),
       ("t2", exWrapper "t2" GRPC_CHANNEL_TRANSIENT_FAILURE 2),
       ("dflt", exWrapper "dflt" GRPC_CHANNEL_READY 7)]
    picker_updates := 0 }

/-- A picker with no default target. -/
def exPicker : Picker := ⟨exConfig, none⟩

/-- A picker whose default target is `dflt`. -/
def exPickerDefault : Picker := ⟨exConfig, some "dflt"⟩

/-- An entry with data from a response at time 0: targets `t2`, `t1`, header
data `hd`, stale from 30000, expired from 60000. -/
def exEntryData : Entry :=
  { status := OkStatus
    backoff_state := none
    backoff_time := InfPast
    backoff_expiration_time := InfPast
    backoff_timer := none
    child_policy_wrappers := ["t2", "t1"]
    header_data := "hd"
    data_expiration_time := 60000
    stale_time := 30000
    min_expiration_time := 5000 }

/-- An entry whose only lookup failed at time 0: in backoff until 1000. -/
def exEntryFailed : Entry :=
  { status := UnavailableError "down"
    backoff_state := some ⟨false, 1000⟩
    backoff_time := 1000
    backoff_expiration_time := 2000
    backoff_timer := some ⟨true, 1000⟩
    child_policy_wrappers := []
    header_data := ""
    data_expiration_time := InfPast
    stale_time := InfPast
    min_expiration_time := 5000 }

/-- A cache with two entries, for `exKey` (created at 0) and for the key
`h = b` (created at 3000), the entry for `exKey` used last. -/
def exCacheTwo : Cache :=
  ⟨1000, 616, [⟨[("h", "b")]⟩, exKey], [(⟨[("h", "b")]⟩, Entry.new 3000), (exKey, Entry.new 0)]⟩

/-- A layout under which a key holding ten bytes of strings gives an entry of
size 100, as in the fifth end-to-end scenario of the specification. -/
def exLayout100 : Layout := ⟨10, 60⟩

/-- Four keys whose entries have size 100 under `exLayout100`. -/
def exKey1 : RequestKey := ⟨[("k", "entry-one")]⟩
def exKey2 : RequestKey := ⟨[("k", "entry-two")]⟩
def exKey3 : RequestKey := ⟨[("k", "entry-tri")]⟩
def exKey4 : RequestKey := ⟨[("k", "entry-for")]⟩

/-- The cache of the fifth end-to-end scenario after the first three entries
are inserted at times 0, 1000 and 2000. -/
def exCacheThree : Cache :=
  ⟨200, 300, [exKey1, exKey2, exKey3],
    [(exKey3, Entry.new (0 + 2000)), (exKey2, Entry.new (0 + 1000)), (exKey1, Entry.new 0)]⟩

/-- The pending request for `exKey`, started for a stale entry. -/
def exRequestStale (backoff_state : Option BackOff) : RlsRequest :=
  ⟨exKey, 0, backoff_state, Reason.REASON_STALE, "hd"⟩

/-- A call that completed with status OK and a response that lists no target. -/
def exResultNoTargets : RlsCallResult := ⟨OkStatus, StatusCode.kOk, "", some ⟨[], "new"⟩⟩

/-- A call that completed with status UNAVAILABLE. -/
def exResultDown : RlsCallResult := ⟨OkStatus, StatusCode.kUnavailable, "down", none⟩

/-- A call that completed with status OK and the given response. -/
def exResultTargets (targets : List String) (header_data : String) : RlsCallResult :=
  ⟨OkStatus, StatusCode.kOk, "", some ⟨targets, header_data⟩⟩

/-- The backoff delay `backoff_time - now` of the entry under `key` once the
events `evs` have happened, the last of them a completion at `now`. -/
def backoffDelayAfter (L : Layout) (lb : RlsLb) (evs : List RlsEvent) (key : RequestKey)
    (now : Timestamp) : Option Duration :=
  (RlsLb.run L lb evs).bind (fun lb1 =>
    (umFind lb1.cache.map key).map (fun e => e.backoff_time - now))

/-- The reason and the backoff state of the request pending for `key` once the
events `evs` have happened. -/
def pendingRequestAfter (L : Layout) (lb : RlsLb) (evs : List RlsEvent) (key : RequestKey) :
    Option (Reason × Option BackOff) :=
  (RlsLb.run L lb evs).bind (fun lb1 =>
    (umFind lb1.request_map key).map (fun r => (r.reason, r.backoff_state)))

/-! ## Connectivity state: child reports and the aggregated state -/

/-- `ChildPolicyWrapper::ChildPolicyHelper::UpdateState` on the wrapper of the
helper: the wrapper after the report, and whether `UpdatePickerLocked` is
called.  `picker` is `none` for a null picker (`GPR_DEBUG_ASSERT` does nothing
in a release build). -/
def ChildPolicyHelper.UpdateState (w : ChildPolicyWrapper) (state : grpc_connectivity_state)
    (picker : Option (PickArgs → PickResult)) : ChildPolicyWrapper × Bool :=
  if w.is_shutdown then (w, false)
  else if w.connectivity_state = GRPC_CHANNEL_TRANSIENT_FAILURE ∧
      state ≠ GRPC_CHANNEL_READY then (w, false)
  else
    ({ w with
       connectivity_state := state
       picker := match picker with
                 | some p => p
                 | none => w.picker }, true)

/-- A sequence of reports of the child of one wrapper, first to last. -/
def ChildPolicyHelper.reports (w : ChildPolicyWrapper) :
    List (grpc_connectivity_state × Option (PickArgs → PickResult)) → ChildPolicyWrapper
  | [] => w
  | r :: rs => ChildPolicyHelper.reports (ChildPolicyHelper.UpdateState w r.1 r.2).1 rs

/-- The local variables of the loop of `UpdatePickerLocked`.  The counters are
`int`s; they count wrappers, and are unbounded here. -/
structure StateCount where
  state : grpc_connectivity_state
  num_idle : Nat
  num_connecting : Nat
deriving DecidableEq, Repr

/-- The loop of `UpdatePickerLocked` over `child_policy_map_`, which stops at
the first wrapper that is READY. -/
def RlsLb.UpdatePickerLocked.loop :
    List (String × ChildPolicyWrapper) → StateCount → StateCount
  | [], acc => acc
  | p :: rest, acc =>
    let child_state := p.2.connectivity_state
    if child_state = GRPC_CHANNEL_READY then { acc with state := GRPC_CHANNEL_READY }
    else if child_state = GRPC_CHANNEL_CONNECTING then
      RlsLb.UpdatePickerLocked.loop rest { acc with num_connecting := acc.num_connecting + 1 }
    else if child_state = GRPC_CHANNEL_IDLE then
      RlsLb.UpdatePickerLocked.loop rest { acc with num_idle := acc.num_idle + 1 }
    else RlsLb.UpdatePickerLocked.loop rest acc

/-- What `UpdatePickerLocked` passes to `channel_control_helper()->UpdateState`;
`picker` is `none` for a picker constructed over a null `config_`. -/
structure PublishedState where
  state : grpc_connectivity_state
  status : Status
  picker : Option Picker

/-- `RlsLb::UpdatePickerLocked`: the state published, `none` when the function
returns without publishing. -/
def RlsLb.UpdatePickerLocked (lb : RlsLb) : Option PublishedState :=
  if lb.update_in_progress then none
  else
    let state : Option grpc_connectivity_state :=
      if !lb.child_policy_map.isEmpty then
        if lb.is_shutdown then none
        else
          let acc := RlsLb.UpdatePickerLocked.loop lb.child_policy_map
            ⟨GRPC_CHANNEL_TRANSIENT_FAILURE, 0, 0⟩
          if acc.state ≠ GRPC_CHANNEL_READY then
            if acc.num_connecting > 0 then some GRPC_CHANNEL_CONNECTING
            else if acc.num_idle > 0 then some GRPC_CHANNEL_IDLE
            else some acc.state
          else some acc.state
      else some GRPC_CHANNEL_IDLE
    state.map (fun state =>
      { state := state
        status := if state = GRPC_CHANNEL_TRANSIENT_FAILURE then
                    UnavailableError "no children available"
                  else OkStatus
        picker := lb.config.map (fun config => ⟨config, lb.default_child_policy⟩) })

/-- The example policy before any wrapper exists: no default target, no
response handled yet. -/
def exLbNoChildren : RlsLb := { exLb [] [] Throttle.new with child_policy_map := [] }

/-- A key builder map with one builder, registered for every method of
`svc.S`: the key `user` is read from the header `x-user`, else from `x-alt`;
the constant key `c` has the value `v`; the host key is `h`, the service key
`s`, the method key `m`. -/
def exKeyBuilderMapHeaders : List (String × KeyBuilder) :=
  [("/svc.S/", ⟨[("user", ["x-user", "x-alt"])], "h", "s", "m", [("c", "v")]⟩)]

/-! ## Configuration parsing -/

/-- Modelled from the spec: `Json` (`json.h`, not among the sources), the JSON
value; a number holds its text, an object the list of its members in key
order. -/
inductive Json where
  | null
  | boolean (b : Bool)
  | number (s : String)
  | string (s : String)
  | object (members : List (String × Json))
  | array (items : List Json)
deriving Repr

/-- An error of the configuration parser (`absl::Status` with child errors):
its description and its children. -/
inductive ConfigError where
  | mk (description : String) (children : List ConfigError)
deriving Repr

/-- The children of an error. -/
def ConfigError.children : ConfigError → List ConfigError
  | .mk _ children => children

/-- Modelled from the spec: the macro `GRPC_ERROR_CREATE_FROM_VECTOR` (and
`GRPC_ERROR_CREATE_FROM_VECTOR_AND_CPP_STRING`; `error.h`, not among the
sources): `GRPC_ERROR_NONE`, here `none`, for an empty list, else an error
with the description and the list as its children. -/
def GRPC_ERROR_CREATE_FROM_VECTOR (desc : String) (error_list : List ConfigError) :
    Option ConfigError :=
  if error_list.isEmpty then none else some (ConfigError.mk desc error_list)

/-- What one call of a field helper of `json_util.h` does with a value output:
the value it returns, the value it stores through `output` (`none` when
`*output` is left as it was) and the errors it appends to `error_list`. -/
structure FieldOutcome (α : Type) where
  returned : Bool
  stored : Option α
  errors : List ConfigError

/-- What one call of a field helper does with a pointer output that is null
before the call: the pointer after the call (the call returns true exactly
when it is set) and the errors appended to `error_list`. -/
structure PointerOutcome (α : Type) where
  output : Option α
  errors : List ConfigError

/-- The helpers of `json_util.h` and the target check of the resolver
registry, none of them among the sources, as parameters of the parser: the
overloads of `ParseJsonObjectField(object, field_name, output, error_list,
required)` by output type, `ParseJsonObjectFieldAsDuration`,
`ExtractJsonString(json, field_name, output, error_list)` and
`IsValidTarget`. -/
structure JsonUtil where
  ParseJsonObjectField_string : List (String × Json) → String → Bool → FieldOutcome String
  ParseJsonObjectField_array : List (String × Json) → String → Bool → PointerOutcome (List Json)
  ParseJsonObjectField_object :
    List (String × Json) → String → Bool → PointerOutcome (List (String × Json))
  ParseJsonObjectField_int64 : List (String × Json) → String → Bool → FieldOutcome Int
  ParseJsonObjectFieldAsDuration : List (String × Json) → String → Bool → FieldOutcome Duration
  ExtractJsonString : Json → String → FieldOutcome String
  IsValidTarget : String → Bool

def kDefaultLookupServiceTimeout : Duration := 10000
def kMaxMaxAge : Duration := 300000
def kMaxCacheSizeBytes : Int := 5 * 1024 * 1024

/-- `RlsLbConfig::RouteLookupConfig`. -/
structure RouteLookupConfig where
  key_builder_map : List (String × KeyBuilder)
  lookup_service : String
  lookup_service_timeout : Duration
  max_age : Duration
  stale_age : Duration
  cache_size_bytes : Int
  default_target : String

/-- The loop of `ParseJsonHeaders` over the header names, from index
`name_idx` on. -/
def ParseJsonHeaders.names : Nat → List Json → List String → List ConfigError →
    List String × List ConfigError
  | _, [], headers, error_list => (headers, error_list)
  | name_idx, name_json :: rest, headers, error_list =>
    match name_json with
    | .string s =>
      if s.isEmpty then
        ParseJsonHeaders.names (name_idx + 1) rest headers
          (error_list ++ [ConfigError.mk ("field:names index:" ++ toString name_idx ++
            " error:header name must be non-empty") []])
      else ParseJsonHeaders.names (name_idx + 1) rest (headers ++ [s]) error_list
    | _ =>
      ParseJsonHeaders.names (name_idx + 1) rest headers
        (error_list ++ [ConfigError.mk ("field:names index:" ++ toString name_idx ++
          " error:type should be STRING") []])

/-- `ParseJsonHeaders`: the error returned, `*key` and `*headers` (both empty
before the call). -/
def ParseJsonHeaders (util : JsonUtil) (idx : Nat) (json : Json) :
    Option ConfigError × String × List String :=
  match json with
  | .object members =>
    let error_list : List ConfigError :=
      if (umFind members "requiredMatch").isSome then
        [ConfigError.mk "field:requiredMatch error:must not be present" []]
      else []
    let key_outcome := util.ParseJsonObjectField_string members "key" true
    let key := key_outcome.stored.getD ""
    let error_list := error_list ++ key_outcome.errors
    let error_list :=
      if key_outcome.returned && key.isEmpty then
        error_list ++ [ConfigError.mk "field:key error:must be non-empty" []]
      else error_list
    let headers_json := util.ParseJsonObjectField_array members "names" true
    let error_list := error_list ++ headers_json.errors
    let r : List String × List ConfigError :=
      match headers_json.output with
      | none => ([], error_list)
      | some items =>
        if items.isEmpty then
          ([], error_list ++ [ConfigError.mk "field:names error:list is empty" []])
        else ParseJsonHeaders.names 0 items [] error_list
    (GRPC_ERROR_CREATE_FROM_VECTOR ("field:headers index:" ++ toString idx) r.2, key, r.1)
  | _ =>
    (some (ConfigError.mk ("field:headers index:" ++ toString idx ++ " error:type should be OBJECT") []),
      "", [])

/-- `ParseJsonMethodName`: the error stored in `*error` and the path
returned. -/
def ParseJsonMethodName (util : JsonUtil) (idx : Nat) (json : Json) :
    Option ConfigError × String :=
  match json with
  | .object members =>
    let service := util.ParseJsonObjectField_string members "service" true
    let service_name := service.stored.getD ""
    let method := util.ParseJsonObjectField_string members "method" false
    let method_name := method.stored.getD ""
    let error_list := service.errors ++ method.errors
    (GRPC_ERROR_CREATE_FROM_VECTOR ("field:names index:" ++ toString idx) error_list,
      "/" ++ service_name ++ "/" ++ method_name)
  | _ =>
    (some (ConfigError.mk ("field:names index:" ++ toString idx ++ " error:type should be OBJECT") []), "")

/-- `std::set<std::string>::insert`: the set, as the list of its elements in
order, and whether the element was inserted. -/
def setInsert : List String → String → List String × Bool
  | [], k => ([k], true)
  | k1 :: rest, k =>
    if k < k1 then (k :: k1 :: rest, true)
    else if k = k1 then (k1 :: rest, false)
    else ((k1 :: (setInsert rest k).1), (setInsert rest k).2)

/-- `emplace` on a `std::map` with string keys: no effect when the key is
present. -/
def mapEmplace {V : Type} : List (String × V) → String → V → List (String × V)
  | [], k, v => [(k, v)]
  | (k1, v1) :: rest, k, v =>
    if k < k1 then (k, v) :: (k1, v1) :: rest
    else if k = k1 then (k1, v1) :: rest
    else (k1, v1) :: mapEmplace rest k v

/-- The lambda `duplicate_key_check_func` of `ParseGrpcKeybuilder`, on the
captured `all_keys` and `error_list`. -/
def duplicate_key_check_func (all_keys : List String) (error_list : List ConfigError)
    (key : String) : List String × List ConfigError :=
  if key ∈ all_keys then
    (all_keys, error_list ++ [ConfigError.mk ("key \"" ++ key ++ "\" listed multiple times") []])
  else ((setInsert all_keys key).1, error_list)

/-- The loop of `ParseGrpcKeybuilder` over `names_array`, from index
`name_idx` on, on the set `names` and `error_list`. -/
def ParseGrpcKeybuilder.names (util : JsonUtil) :
    Nat → List Json → List String → List ConfigError → List String × List ConfigError
  | _, [], names, error_list => (names, error_list)
  | name_idx, name_json :: rest, names, error_list =>
    let r := ParseJsonMethodName util name_idx name_json
    match r.1 with
    | some child_error =>
      ParseGrpcKeybuilder.names util (name_idx + 1) rest names (error_list ++ [child_error])
    | none =>
      let inserted := setInsert names r.2
      if inserted.2 then
        ParseGrpcKeybuilder.names util (name_idx + 1) rest inserted.1 error_list
      else
        ParseGrpcKeybuilder.names util (name_idx + 1) rest inserted.1
          (error_list ++ [ConfigError.mk ("field:names error:duplicate entry for " ++ r.2) []])

/-- The locals of `ParseGrpcKeybuilder` that its later loops update. -/
structure KeybuilderLocals where
  all_keys : List String
  key_builder : KeyBuilder
  error_list : List ConfigError

/-- The loop of `ParseGrpcKeybuilder` over `headers_array`, from index
`header_idx` on. -/
def ParseGrpcKeybuilder.headers (util : JsonUtil) :
    Nat → List Json → KeybuilderLocals → KeybuilderLocals
  | _, [], st => st
  | header_idx, header_json :: rest, st =>
    let r := ParseJsonHeaders util header_idx header_json
    match r.1 with
    | some child_error =>
      ParseGrpcKeybuilder.headers util (header_idx + 1) rest
        { st with error_list := st.error_list ++ [child_error] }
    | none =>
      let checked := duplicate_key_check_func st.all_keys st.error_list r.2.1
      ParseGrpcKeybuilder.headers util (header_idx + 1) rest
        { all_keys := checked.1
          key_builder := { st.key_builder with
            header_keys := mapEmplace st.key_builder.header_keys r.2.1 r.2.2 }
          error_list := checked.2 }

/-- One of the three fields of `extraKeys`: the key stored in the builder, the
errors added to `extra_keys_errors`, and the duplicate check of a non-empty
key. -/
def ParseGrpcKeybuilder.extraKey (util : JsonUtil) (extra_keys : List (String × Json))
    (field_name : String) (current : String) (all_keys : List String)
    (error_list extra_keys_errors : List ConfigError) :
    String × List String × List ConfigError × List ConfigError :=
  let outcome := util.ParseJsonObjectField_string extra_keys field_name false
  let key := outcome.stored.getD current
  let extra_keys_errors := extra_keys_errors ++ outcome.errors
  let extra_keys_errors :=
    if outcome.returned && key.isEmpty then
      extra_keys_errors ++ [ConfigError.mk ("field:" ++ field_name ++ " error:must be non-empty") []]
    else extra_keys_errors
  let checked :=
    if !key.isEmpty then duplicate_key_check_func all_keys error_list key
    else (all_keys, error_list)
  (key, checked.1, checked.2, extra_keys_errors)

/-- The loop of `ParseGrpcKeybuilder` over the members of `constantKeys`, on
the locals and `constant_keys_errors`. -/
def ParseGrpcKeybuilder.constantKeys (util : JsonUtil) :
    List (String × Json) → KeybuilderLocals → List ConfigError →
    KeybuilderLocals × List ConfigError
  | [], st, constant_keys_errors => (st, constant_keys_errors)
  | (key, value) :: rest, st, constant_keys_errors =>
    let constant_keys_errors :=
      if key.isEmpty then
        constant_keys_errors ++ [ConfigError.mk "error:keys must be non-empty" []]
      else constant_keys_errors
    let checked := duplicate_key_check_func st.all_keys st.error_list key
    let outcome := util.ExtractJsonString value key
    let current := (umFind st.key_builder.constant_keys key).getD ""
    ParseGrpcKeybuilder.constantKeys util rest
      { all_keys := checked.1
        key_builder := { st.key_builder with
          constant_keys :=
            smAssign st.key_builder.constant_keys key (outcome.stored.getD current) }
        error_list := checked.2 }
      (constant_keys_errors ++ outcome.errors)

/-- The last loop of `ParseGrpcKeybuilder`: the builder is registered under
each of the names. -/
def ParseGrpcKeybuilder.insert (key_builder : KeyBuilder) :
    List String → List (String × KeyBuilder) → List ConfigError →
    List (String × KeyBuilder) × List ConfigError
  | [], key_builder_map, error_list => (key_builder_map, error_list)
  | name :: rest, key_builder_map, error_list =>
    match umFind key_builder_map name with
    | none =>
      ParseGrpcKeybuilder.insert key_builder rest (umEmplace key_builder_map name key_builder)
        error_list
    | some _ =>
      ParseGrpcKeybuilder.insert key_builder rest key_builder_map
        (error_list ++ [ConfigError.mk ("field:names error:duplicate entry for " ++ name) []])

/-- `ParseGrpcKeybuilder`: the error returned and `*key_builder_map`. -/
def ParseGrpcKeybuilder (util : JsonUtil) (idx : Nat) (json : Json)
    (key_builder_map : List (String × KeyBuilder)) :
    Option ConfigError × List (String × KeyBuilder) :=
  match json with
  | .object members =>
    -- Parse names.
    let names_array := util.ParseJsonObjectField_array members "names" true
    let r : List String × List ConfigError :=
      match names_array.output with
      | none => ([], names_array.errors)
      | some items =>
        if items.isEmpty then
          ([], names_array.errors ++ [ConfigError.mk "field:names error:list is empty" []])
        else ParseGrpcKeybuilder.names util 0 items [] names_array.errors
    let names := r.1
    -- Parse headers.
    let headers_array := util.ParseJsonObjectField_array members "headers" false
    let st : KeybuilderLocals := ⟨[], ⟨[], "", "", "", []⟩, r.2 ++ headers_array.errors⟩
    let st :=
      match headers_array.output with
      | none => st
      | some items => ParseGrpcKeybuilder.headers util 0 items st
    -- Parse extraKeys.
    let extra_keys := util.ParseJsonObjectField_object members "extraKeys" false
    let st := { st with error_list := st.error_list ++ extra_keys.errors }
    let st :=
      match extra_keys.output with
      | none => st
      | some extra_keys =>
        let host := ParseGrpcKeybuilder.extraKey util extra_keys "host"
          st.key_builder.host_key st.all_keys st.error_list []
        let service := ParseGrpcKeybuilder.extraKey util extra_keys "service"
          st.key_builder.service_key host.2.1 host.2.2.1 host.2.2.2
        let method := ParseGrpcKeybuilder.extraKey util extra_keys "method"
          st.key_builder.method_key service.2.1 service.2.2.1 service.2.2.2
        let extra_keys_errors := method.2.2.2
        { all_keys := method.2.1
          key_builder := { st.key_builder with
            host_key := host.1, service_key := service.1, method_key := method.1 }
          error_list :=
            if !extra_keys_errors.isEmpty then
              method.2.2.1 ++ [ConfigError.mk "field:extraKeys" extra_keys_errors]
            else method.2.2.1 }
    -- Parse constantKeys.
    let constant_keys := util.ParseJsonObjectField_object members "constantKeys" false
    let st := { st with error_list := st.error_list ++ constant_keys.errors }
    let st :=
      match constant_keys.output with
      | none => st
      | some constant_keys =>
        let c := ParseGrpcKeybuilder.constantKeys util constant_keys st []
        if !c.2.isEmpty then
          { c.1 with error_list := c.1.error_list ++ [ConfigError.mk "field:constantKeys" c.2] }
        else c.1
    -- Insert key_builder into key_builder_map.
    let inserted := ParseGrpcKeybuilder.insert st.key_builder names key_builder_map st.error_list
    (GRPC_ERROR_CREATE_FROM_VECTOR ("index:" ++ toString idx) inserted.2, inserted.1)
  | _ =>
    (some (ConfigError.mk ("field:grpc_keybuilders index:" ++ toString idx ++
      " error:type should be OBJECT") []), key_builder_map)

/-- The loop of `ParseGrpcKeybuilders`, from index `idx` on. -/
def ParseGrpcKeybuilders.loop (util : JsonUtil) :
    Nat → List Json → List (String × KeyBuilder) → List ConfigError →
    List (String × KeyBuilder) × List ConfigError
  | _, [], key_builder_map, error_list => (key_builder_map, error_list)
  | idx, key_builder :: rest, key_builder_map, error_list =>
    let r := ParseGrpcKeybuilder util idx key_builder key_builder_map
    match r.1 with
    | some child_error =>
      ParseGrpcKeybuilders.loop util (idx + 1) rest r.2 (error_list ++ [child_error])
    | none => ParseGrpcKeybuilders.loop util (idx + 1) rest r.2 error_list

/-- `ParseGrpcKeybuilders`: the map returned and `*error`. -/
def ParseGrpcKeybuilders (util : JsonUtil) (key_builder_list : List Json) :
    List (String × KeyBuilder) × Option ConfigError :=
  if key_builder_list.isEmpty then
    ([], some (ConfigError.mk "field:grpcKeybuilders error:list is empty" []))
  else
    let r := ParseGrpcKeybuilders.loop util 0 key_builder_list [] []
    (r.1, GRPC_ERROR_CREATE_FROM_VECTOR "field:grpcKeybuilders" r.2)

/-- `ParseRouteLookupConfig`: the configuration returned and `*error`. -/
def ParseRouteLookupConfig (util : JsonUtil) (json : List (String × Json)) :
    RouteLookupConfig × Option ConfigError :=
  -- Parse grpcKeybuilders.
  let keybuilder_list := util.ParseJsonObjectField_array json "grpcKeybuilders" true
  let parsed : List (String × KeyBuilder) × List ConfigError :=
    match keybuilder_list.output with
    | none => ([], keybuilder_list.errors)
    | some list =>
      match (ParseGrpcKeybuilders util list).2 with
      | some child_error =>
        ((ParseGrpcKeybuilders util list).1, keybuilder_list.errors ++ [child_error])
      | none => ((ParseGrpcKeybuilders util list).1, keybuilder_list.errors)
  let error_list := parsed.2
  -- Parse lookupService.
  let lookup_service_outcome := util.ParseJsonObjectField_string json "lookupService" true
  let lookup_service := lookup_service_outcome.stored.getD ""
  let error_list := error_list ++ lookup_service_outcome.errors
  let error_list :=
    if lookup_service_outcome.returned && !util.IsValidTarget lookup_service then
      error_list ++ [ConfigError.mk "field:lookupService error:must be valid gRPC target URI" []]
    else error_list
  -- Parse lookupServiceTimeout.
  let timeout_outcome := util.ParseJsonObjectFieldAsDuration json "lookupServiceTimeout" false
  let lookup_service_timeout := timeout_outcome.stored.getD kDefaultLookupServiceTimeout
  let error_list := error_list ++ timeout_outcome.errors
  -- Parse maxAge.
  let max_age_outcome := util.ParseJsonObjectFieldAsDuration json "maxAge" false
  let max_age := max_age_outcome.stored.getD kMaxMaxAge
  let max_age_set := max_age_outcome.returned
  let error_list := error_list ++ max_age_outcome.errors
  -- Clamp maxAge to the max allowed value.
  let max_age := if max_age > kMaxMaxAge then kMaxMaxAge else max_age
  -- Parse staleAge.
  let stale_age_outcome := util.ParseJsonObjectFieldAsDuration json "staleAge" false
  let stale_age := stale_age_outcome.stored.getD kMaxMaxAge
  let stale_age_set := stale_age_outcome.returned
  let error_list := error_list ++ stale_age_outcome.errors
  -- If staleAge is set, then maxAge must also be set.
  let error_list :=
    if stale_age_set && !max_age_set then
      error_list ++ [ConfigError.mk "field:maxAge error:must be set if staleAge is set" []]
    else error_list
  -- Ignore staleAge if greater than or equal to maxAge.
  let stale_age := if stale_age ≥ max_age then max_age else stale_age
  -- Parse cacheSizeBytes.
  let cache_size_outcome := util.ParseJsonObjectField_int64 json "cacheSizeBytes" true
  let cache_size_bytes := cache_size_outcome.stored.getD 0
  let error_list := error_list ++ cache_size_outcome.errors
  let error_list :=
    if cache_size_bytes ≤ 0 then
      error_list ++ [ConfigError.mk "field:cacheSizeBytes error:must be greater than 0" []]
    else error_list
  -- Clamp cacheSizeBytes to the max allowed value.
  let cache_size_bytes :=
    if cache_size_bytes > kMaxCacheSizeBytes then kMaxCacheSizeBytes else cache_size_bytes
  -- Parse defaultTarget.
  let default_target_outcome := util.ParseJsonObjectField_string json "defaultTarget" false
  let default_target := default_target_outcome.stored.getD ""
  let error_list := error_list ++ default_target_outcome.errors
  let error_list :=
    if default_target_outcome.returned && default_target.isEmpty then
      error_list ++ [ConfigError.mk "field:defaultTarget error:must be non-empty if set" []]
    else error_list
  ({ key_builder_map := parsed.1
     lookup_service := lookup_service
     lookup_service_timeout := lookup_service_timeout
     max_age := max_age
     stale_age := stale_age
     cache_size_bytes := cache_size_bytes
     default_target := default_target },
   GRPC_ERROR_CREATE_FROM_VECTOR "field:routeLookupConfig" error_list)

/-! ### The field helpers, for the examples -/

/-- Modelled from the spec: `ParseJsonObjectField` (`json_util.h`, not among
the sources) for a value output: a missing field is an error when required,
a field that is there is handed to the extraction function of the type. -/
def exParseField {α : Type} (extract : Json → String → FieldOutcome α)
    (object : List (String × Json)) (field_name : String) (required : Bool) : FieldOutcome α :=
  match umFind object field_name with
  | none =>
    ⟨false, none,
      if required then [ConfigError.mk ("field:" ++ field_name ++ " error:does not exist.") []]
      else []⟩
  | some json => extract json field_name

/-- Modelled from the spec: `ExtractJsonString` (`json_util.h`): the text of a
STRING value, whatever it is; the empty string and an error otherwise. -/
def exExtractJsonString (json : Json) (field_name : String) : FieldOutcome String :=
  match json with
  | .string s => ⟨true, some s, []⟩
  | _ => ⟨false, some "", [ConfigError.mk ("field:" ++ field_name ++
      " error:type should be STRING") []]⟩

/-- The number a list of decimal digits denotes. -/
def exDigits (cs : List Char) : Option Nat :=
  if cs ≠ [] ∧ cs.all (fun c => c.isDigit) then
    some (cs.foldl (fun n c => 10 * n + (c.toNat - 48)) 0)
  else none

/-- Modelled from the spec: `ExtractJsonNumber` (`json_util.h`) for
`int64_t`, on the decimal numbers without sign or with the sign `-`. -/
def exExtractJsonInt64 (json : Json) (field_name : String) : FieldOutcome Int :=
  match json with
  | .number s =>
    match s.data with
    | '-' :: cs =>
      match exDigits cs with
      | some n => ⟨true, some (-(n : Int)), []⟩
      | none => ⟨false, none, [ConfigError.mk ("field:" ++ field_name ++
          " error:failed to parse.") []]⟩
    | cs =>
      match exDigits cs with
      | some n => ⟨true, some (n : Int), []⟩
      | none => ⟨false, none, [ConfigError.mk ("field:" ++ field_name ++
          " error:failed to parse.") []]⟩
  | _ => ⟨false, none, [ConfigError.mk ("field:" ++ field_name ++
      " error:type should be NUMBER") []]⟩

/-- Modelled from the spec: `ParseJsonObjectFieldAsDuration` (`json_util.h`), on
durations of whole seconds (`60s`): a field that does not parse stores
`Duration::NegativeInfinity()` and is an error. -/
def exParseJsonObjectFieldAsDuration (object : List (String × Json)) (field_name : String)
    (required : Bool) : FieldOutcome Duration :=
  match umFind object field_name with
  | none =>
    ⟨false, none,
      if required then [ConfigError.mk ("field:" ++ field_name ++ " error:does not exist.") []]
      else []⟩
  | some json =>
    let seconds : Option Nat :=
      match json with
      | .string s =>
        if s.data.getLast? = some 's' then exDigits s.data.dropLast else none
      | _ => none
    match seconds with
    | some n => ⟨true, some ((n : Int) * 1000), []⟩
    | none => ⟨false, some InfPast, [ConfigError.mk ("field:" ++ field_name ++
        " error:type must be STRING of the form given by google.proto.Duration.") []]⟩

/-- Modelled from the spec: `ParseJsonObjectField` for an array output. -/
def exParseArrayField (object : List (String × Json)) (field_name : String)
    (required : Bool) : PointerOutcome (List Json) :=
  match umFind object field_name with
  | none =>
    ⟨none,
      if required then [ConfigError.mk ("field:" ++ field_name ++ " error:does not exist.") []]
      else []⟩
  | some (.array items) => ⟨some items, []⟩
  | some _ => ⟨none, [ConfigError.mk ("field:" ++ field_name ++ " error:type should be ARRAY") []]⟩

/-- Modelled from the spec: `ParseJsonObjectField` for an object output. -/
def exParseObjectField (object : List (String × Json)) (field_name : String)
    (required : Bool) : PointerOutcome (List (String × Json)) :=
  match umFind object field_name with
  | none =>
    ⟨none,
      if required then [ConfigError.mk ("field:" ++ field_name ++ " error:does not exist.") []]
      else []⟩
  | some (.object members) => ⟨some members, []⟩
  | some _ => ⟨none, [ConfigError.mk ("field:" ++ field_name ++ " error:type should be OBJECT") []]⟩

/-- The helpers above, with every lookup service target taken as valid. -/
def exJsonUtil : JsonUtil :=
  { ParseJsonObjectField_string := exParseField exExtractJsonString
    ParseJsonObjectField_array := exParseArrayField
    ParseJsonObjectField_object := exParseObjectField
    ParseJsonObjectField_int64 := exParseField exExtractJsonInt64
    ParseJsonObjectFieldAsDuration := exParseJsonObjectFieldAsDuration
    ExtractJsonString := exExtractJsonString
    IsValidTarget := fun _ => true }

/-- The key builder `{names: [{service: "svc.S", method: "M"}], extraKeys:
{host: "h"}}` of the first end-to-end scenario. -/
def exKeybuilderJson : Json :=
  .object [("extraKeys", .object [("host", .string "h")]),
           ("names", .array [.object [("method", .string "M"), ("service", .string "svc.S")]])]

/-- A route lookup configuration with the given members besides the key
builders and the lookup service. -/
def exRouteLookupJson (members : List (String × Json)) : List (String × Json) :=
  [("grpcKeybuilders", .array [exKeybuilderJson]), ("lookupService", .string "rls.example")] ++
    members

/-- The names item `{service: "", method: "m"}`. -/
def exNameEmptyService : Json := .object [("method", .string "m"), ("service", .string "")]

/-! ## `status_util.cc`: the length prefix of a child status -/

/-- The conversion of an integer value to `char`, a signed 8-bit type on the
target: the value modulo 2^8, in the range from -128 to 127. -/
def toChar (v : Int) : Int := (v + 128) % 256 - 128

/-- The conversion of an integer value to `uint32_t`: the value modulo 2^32. -/
def toUInt32 (v : Int) : Nat := (v % 2 ^ 32).toNat

/-- `EncodeUInt32ToBytes`: the four elements written to `buf`. -/
def EncodeUInt32ToBytes (v : Nat) : List Int :=
  [toChar ((v &&& 0xFF : Nat) : Int),
   toChar (((v >>> 8) &&& 0xFF : Nat) : Int),
   toChar (((v >>> 16) &&& 0xFF : Nat) : Int),
   toChar (((v >>> 24) &&& 0xFF : Nat) : Int)]

/-- `DecodeUInt32FromBytes` on the elements of `buf`.  `buf[0]` is promoted to
`int` and converted to `uint32_t` by the `|` with a `uint32_t` operand; the
other elements are converted by the casts; the shifts are those of
`uint32_t`. -/
def DecodeUInt32FromBytes (buf : List Int) : Nat :=
  toUInt32 (buf.getD 0 0) ||| ((toUInt32 (buf.getD 1 0) <<< 8) % 2 ^ 32) |||
    ((toUInt32 (buf.getD 2 0) <<< 16) % 2 ^ 32) ||| ((toUInt32 (buf.getD 3 0) <<< 24) % 2 ^ 32)

/-- What `StatusAddChild` appends to the `children` payload for a child whose
serialized message is `msg`: the length, as `uint32_t`, in four bytes, then
the message. -/
def StatusAddChild (children : List Int) (msg : List Int) : List Int :=
  children ++ EncodeUInt32ToBytes (msg.length % 2 ^ 32) ++ msg

/-- The loop of `ParseChildren` over what is left of the buffer, for at most
`fuel` messages: the serialized messages it hands to the parser, in order;
`none` is the failed `GPR_ASSERT(buf.size() - cur >= msg_size)` (or the fuel
running out). -/
def ParseChildren.loop : Nat → List Int → List (List Int) → Option (List (List Int))
  | 0, _, _ => none
  | fuel + 1, rest, result =>
    if rest.length ≥ 4 then
      let msg_size := DecodeUInt32FromBytes rest
      let rest1 := rest.drop 4
      if rest1.length ≥ msg_size then
        ParseChildren.loop fuel (rest1.drop msg_size) (result ++ [rest1.take msg_size])
      else none
    else some result

/-- `ParseChildren`: the serialized messages found in the payload. -/
def ParseChildren (children : List Int) : Option (List (List Int)) :=
  ParseChildren.loop (children.length + 1) children []

/-- The callback of `Cache::OnCleanupTimer` on the policy: nothing happens for
a cancelled timer or after shutdown; otherwise the sweep runs under the lock,
and each removed entry releases its wrappers and, if it had a backoff timer,
calls `UpdatePickerAsync` from `Entry::Orphan`. -/
def RlsLb.OnCleanupTimer (L : Layout) (lb : RlsLb) (now : Timestamp) (cancelled : Bool) :
    RlsLb :=
  if cancelled then lb
  else if lb.is_shutdown then lb
  else
    let cache := Cache.OnCleanupTimer L now lb.cache
    { lb with
      cache := cache
      child_policy_map :=
        releaseWrappers cache.map lb.default_child_policy
          (orphanedWrappers lb.cache.map cache.map) lb.child_policy_map
      picker_updates := lb.picker_updates + orphanPickerUpdates lb.cache.map cache.map }

/-- The keys of the bindings of `m` that a sweep at `now` removes. -/
def Cache.sweptKeys (now : Timestamp) (m : List (RequestKey × Entry)) : List RequestKey :=
  (m.filter (fun p => p.2.ShouldRemove now && p.2.CanEvict now)).map Prod.fst

/-! ## The connectivity watcher of the RLS channel -/

/-- `RlsLb::RlsChannel::StateWatcher`: a new watcher has
`was_transient_failure_ = false`. -/
structure StateWatcher where
  was_transient_failure : Bool
deriving DecidableEq, Repr

/-- `StateWatcher::OnConnectivityStateChange` of the watcher of `channel`: the
watcher and the policy afterwards, and whether `cache_.ResetAllBackoff()` was
called (it ends with `UpdatePickerAsync`). -/
def StateWatcher.OnConnectivityStateChange (w : StateWatcher) (channel : RlsChannel)
    (lb : RlsLb) (new_state : grpc_connectivity_state) : StateWatcher × RlsLb × Bool :=
  if channel.is_shutdown then (w, lb, false)
  else if new_state = GRPC_CHANNEL_READY ∧ w.was_transient_failure = true then
    ({ w with was_transient_failure := false },
      { lb with cache := lb.cache.ResetAllBackoff, picker_updates := lb.picker_updates + 1 },
      true)
  else if new_state = GRPC_CHANNEL_TRANSIENT_FAILURE then
    ({ w with was_transient_failure := true }, lb, false)
  else (w, lb, false)

/-- A sequence of notifications, first to last: the watcher and the policy
afterwards, and for each notification whether `ResetAllBackoff` was called. -/
def StateWatcher.notifications (channel : RlsChannel) :
    StateWatcher → RlsLb → List grpc_connectivity_state → StateWatcher × RlsLb × List Bool
  | w, lb, [] => (w, lb, [])
  | w, lb, new_state :: rest =>
    let r := StateWatcher.OnConnectivityStateChange w channel lb new_state
    let rs := StateWatcher.notifications channel r.1 r.2.1 rest
    (rs.1, rs.2.1, r.2.2 :: rs.2.2)

/-- In the words of the specification: the notification `new_state`, coming
after the notifications `before`, is a READY that follows a
TRANSIENT_FAILURE with no READY in between. -/
def readyAfterTransientFailure (before : List grpc_connectivity_state)
    (new_state : grpc_connectivity_state) : Prop :=
  new_state = GRPC_CHANNEL_READY ∧
    ∃ l1 l2, before = l1 ++ GRPC_CHANNEL_TRANSIENT_FAILURE :: l2 ∧ GRPC_CHANNEL_READY ∉ l2

/-! ## Shutdown and the backoff timer callback -/

/-- `BackoffTimer::Orphan`: an armed timer is disarmed and cancelled. -/
def BackoffTimer.Orphan (t : BackoffTimer) : BackoffTimer :=
  if t.armed then { t with armed := false } else t

/-- The callback `BackoffTimer::OnBackoffTimer` of the timer `t`: the timer
afterwards and what `UpdatePickerLocked` publishes; `none` when the callback
returns before it, or nothing is published. -/
def BackoffTimer.OnBackoffTimer (t : BackoffTimer) (lb : RlsLb) :
    BackoffTimer × Option PublishedState :=
  let cancelled := !t.armed
  if cancelled then ({ t with armed := false }, none)
  else ({ t with armed := false }, lb.UpdatePickerLocked)

/-- The backoff timers of the entries of a cache once `map_.clear()` of
`Cache::Shutdown` has run: `Entry::Orphan` resets `backoff_timer_`, which
orphans the timer. -/
def Cache.orphanedTimers (c : Cache) : List BackoffTimer :=
  c.map.filterMap (fun p => p.2.backoff_timer.map BackoffTimer.Orphan)

/-- `RlsLb::ShutdownLocked`.  Each entry releases its wrappers and, if it had
a backoff timer, calls `UpdatePickerAsync` from `Entry::Orphan`;
`default_child_policy_.reset()` releases the default wrapper.  The wrappers
released are erased from `child_policy_map_` (the default wrapper once the
pickers that hold it too are destroyed, which the state does not record). -/
def RlsLb.ShutdownLocked (lb : RlsLb) : RlsLb :=
  { lb with
    is_shutdown := true
    config := none
    cache := lb.cache.Shutdown
    request_map := []
    rls_channel := none
    default_child_policy := none
    child_policy_map :=
      releaseWrappers [] none
        (orphanedWrappers lb.cache.map [] ++ lb.default_child_policy.toList)
        lb.child_policy_map
    picker_updates := lb.picker_updates + orphanPickerUpdates lb.cache.map [] }

/-- An entry of the cache whose data expiration time is later than the
infinite past holds at least one wrapper, and every wrapper an entry holds is
registered in `child_policy_map`. -/
def RlsLb.entriesHaveWrappers (lb : RlsLb) : Prop :=
  ∀ p ∈ lb.cache.map,
    (InfPast < p.2.data_expiration_time → p.2.child_policy_wrappers ≠ []) ∧
    ∀ t ∈ p.2.child_policy_wrappers, (umFind lb.child_policy_map t).isSome = true

end Rls

namespace Rls

open grpc_connectivity_state

/-! ## Lemmas on association lists -/

section UnorderedMapLemmas
variable {K V : Type} [DecidableEq K]

theorem umFind_eq_none_iff (m : List (K × V)) (k : K) :
    umFind m k = none ↔ k ∉ m.map Prod.fst := by
  induction m with
  | nil => simp [umFind]
  | cons p rest ih =>
    obtain ⟨k1, v1⟩ := p
    by_cases h : k1 = k
    · simp [umFind, h]
    · simp [umFind, h, ih, Ne.symm h]

theorem umFind_some_mem_keys {m : List (K × V)} {k : K} {v : V} (h : umFind m k = some v) :
    k ∈ m.map Prod.fst := by
  by_contra hk
  rw [← umFind_eq_none_iff] at hk
  rw [hk] at h
  cases h

theorem umFind_some_mem {m : List (K × V)} {k : K} {v : V} (h : umFind m k = some v) :
    (k, v) ∈ m := by
  induction m with
  | nil => simp [umFind] at h
  | cons p rest ih =>
    obtain ⟨k1, v1⟩ := p
    by_cases hk : k1 = k
    · simp [umFind, hk] at h
      simp [hk, h]
    · simp [umFind, hk] at h
      exact List.mem_cons_of_mem _ (ih h)

theorem mem_keys_umFind {m : List (K × V)} {k : K} (h : k ∈ m.map Prod.fst) :
    ∃ v, umFind m k = some v := by
  cases hf : umFind m k with
  | none => exact absurd h ((umFind_eq_none_iff m k).1 hf)
  | some v => exact ⟨v, rfl⟩

theorem keys_umErase (m : List (K × V)) (k : K) :
    (umErase m k).map Prod.fst = (m.map Prod.fst).erase k := by
  induction m with
  | nil => simp [umErase]
  | cons p rest ih =>
    obtain ⟨k1, v1⟩ := p
    by_cases h : k1 = k
    · simp [umErase, h]
    · simp [umErase, h, ih, List.erase_cons_tail]

theorem keys_umSet (m : List (K × V)) (k : K) (v : V) :
    (umSet m k v).map Prod.fst = m.map Prod.fst := by
  induction m with
  | nil => simp [umSet]
  | cons p rest ih =>
    obtain ⟨k1, v1⟩ := p
    by_cases h : k1 = k
    · simp [umSet, h]
    · simp [umSet, h, ih]

theorem umFind_umSet_same {m : List (K × V)} {k : K} (v : V) (h : k ∈ m.map Prod.fst) :
    umFind (umSet m k v) k = some v := by
  induction m with
  | nil => simp at h
  | cons p rest ih =>
    obtain ⟨k1, v1⟩ := p
    by_cases hk : k1 = k
    · simp [umSet, umFind, hk]
    · have : k ∈ rest.map Prod.fst := by
        simp only [List.map_cons, List.mem_cons] at h
        rcases h with h | h
        · exact absurd h.symm hk
        · exact h
      simp [umSet, umFind, hk, ih this]

theorem umFind_umSet_other (m : List (K × V)) {k k1 : K} (v : V) (h : k ≠ k1) :
    umFind (umSet m k v) k1 = umFind m k1 := by
  induction m with
  | nil => simp [umSet]
  | cons p rest ih =>
    obtain ⟨k2, v2⟩ := p
    by_cases hk : k2 = k
    · subst hk
      simp [umSet, umFind, h]
    · simp [umSet, umFind, hk, ih]

theorem umFind_umErase_same {m : List (K × V)} {k : K} (h : (m.map Prod.fst).Nodup) :
    umFind (umErase m k) k = none := by
  rw [umFind_eq_none_iff, keys_umErase]
  exact fun hm => ((List.Nodup.mem_erase_iff h).1 hm).1 rfl

theorem umFind_umErase_other (m : List (K × V)) {k k1 : K} (h : k ≠ k1) :
    umFind (umErase m k) k1 = umFind m k1 := by
  induction m with
  | nil => simp [umErase]
  | cons p rest ih =>
    obtain ⟨k2, v2⟩ := p
    by_cases hk : k2 = k
    · subst hk
      simp [umErase, umFind, h]
    · simp only [umErase, hk, if_false, umFind, ih]

theorem umFind_umEmplace_same {m : List (K × V)} {k : K} (v : V) (h : umFind m k = none) :
    umEmplace m k v = (k, v) :: m := by
  simp [umEmplace, h]

end UnorderedMapLemmas

/-! ## The cache invariant is preserved -/

theorem sumEntrySizes_keys (L : Layout) (m : List (RequestKey × Entry)) :
    Cache.sumEntrySizes L m = ((m.map Prod.fst).map (Cache.EntrySizeForKey L)).sum := by
  simp [Cache.sumEntrySizes, List.map_map, Function.comp_def]

theorem sumEntrySizes_umErase (L : Layout) {m : List (RequestKey × Entry)} {k : RequestKey}
    (h : k ∈ m.map Prod.fst) :
    Cache.EntrySizeForKey L k + Cache.sumEntrySizes L (umErase m k) = Cache.sumEntrySizes L m := by
  rw [sumEntrySizes_keys, sumEntrySizes_keys, keys_umErase]
  exact List.sum_map_erase _ h

theorem Inv_empty (L : Layout) : Cache.Inv L Cache.empty :=
  ⟨by simp [Cache.empty, Cache.sumEntrySizes], by simp [Cache.empty],
   by simp [Cache.empty], by simp [Cache.empty]⟩

theorem Inv_MarkUsed {L : Layout} {c : Cache} (h : Cache.Inv L c) {key : RequestKey}
    (hk : key ∈ c.lru_list) : Cache.Inv L (c.MarkUsed key) := by
  refine ⟨h.size_eq, h.keys_nodup, ?_, ?_⟩
  · simp only [Cache.MarkUsed]
    rw [List.nodup_append]
    refine ⟨h.lru_nodup.erase key, List.nodup_singleton key, ?_⟩
    intro a ha hb
    rw [List.mem_singleton] at hb
    subst hb
    exact ((List.Nodup.mem_erase_iff h.lru_nodup).1 ha).1 rfl
  · intro k
    simp only [Cache.MarkUsed, List.mem_append, List.mem_singleton]
    rw [← h.lru_mem k]
    constructor
    · rintro (h1 | h1)
      · exact List.mem_of_mem_erase h1
      · exact h1 ▸ hk
    · intro h1
      by_cases hkk : k = key
      · exact Or.inr hkk
      · exact Or.inl ((List.mem_erase_of_ne hkk).2 h1)

theorem Inv_eraseEntry {L : Layout} {c : Cache} (h : Cache.Inv L c) {key : RequestKey}
    (hk : key ∈ c.map.map Prod.fst) :
    Cache.Inv L { (c.eraseEntry key) with size := c.size - Cache.EntrySizeForKey L key } := by
  refine ⟨?_, ?_, ?_, ?_⟩
  · have := sumEntrySizes_umErase L hk
    have h2 := h.size_eq
    simp only [Cache.eraseEntry]
    omega
  · simp only [Cache.eraseEntry, keys_umErase]
    exact h.keys_nodup.erase key
  · simp only [Cache.eraseEntry]
    exact h.lru_nodup.erase key
  · intro k
    simp only [Cache.eraseEntry, keys_umErase]
    rw [List.Nodup.mem_erase_iff h.lru_nodup, List.Nodup.mem_erase_iff h.keys_nodup, h.lru_mem]

theorem eraseEntry_lru_length {c : Cache} {key : RequestKey} (hk : key ∈ c.lru_list) :
    (c.eraseEntry key).lru_list.length + 1 = c.lru_list.length := by
  simp only [Cache.eraseEntry, List.length_erase_of_mem hk]
  have : 0 < c.lru_list.length := List.length_pos_of_mem hk
  omega

theorem umErase_eq_filter {K V : Type} [DecidableEq K] (m : List (K × V)) (k : K)
    (h : (m.map Prod.fst).Nodup) :
    umErase m k = m.filter (fun p => decide (p.1 ≠ k)) := by
  induction m with
  | nil => simp [umErase]
  | cons p rest ih =>
    obtain ⟨k1, v1⟩ := p
    simp only [List.map_cons, List.nodup_cons] at h
    by_cases hk : k1 = k
    · subst hk
      simp only [umErase, if_true, ne_eq, not_true_eq_false, decide_False, Bool.false_eq_true,
        not_false_eq_true, List.filter_cons_of_neg]
      symm
      rw [List.filter_eq_self]
      intro q hq
      have : q.1 ≠ k1 := fun hh => h.1 (hh ▸ List.mem_map_of_mem Prod.fst hq)
      simp [this]
    · simp [umErase, hk, ih h.2]

/-- With fuel beyond the length of the LRU list, the loop of `MaybeShrinkSize`
ends by itself on a cache that satisfies the invariant.  It removes the first
`n` keys of the LRU list: each of them was evictable and was removed while the
size was above `bytes`, and after them the loop's exit condition holds. -/
theorem shrinkLoop_spec (L : Layout) (now : Timestamp) (bytes : Nat) :
    ∀ (fuel : Nat) (c : Cache), Cache.Inv L c → c.lru_list.length < fuel →
      ∃ n c1, Cache.shrinkLoop L now bytes fuel c = some c1 ∧ Cache.Inv L c1 ∧
        c1.size_limit = c.size_limit ∧ n ≤ c.lru_list.length ∧
        c1.lru_list = c.lru_list.drop n ∧
        c1.map = c.map.filter (fun p => decide (p.1 ∉ c.lru_list.take n)) ∧
        c1.size + ((c.lru_list.take n).map (Cache.EntrySizeForKey L)).sum = c.size ∧
        (∀ k ∈ c.lru_list.take n, ∃ e, umFind c.map k = some e ∧ e.min_expiration_time < now) ∧
        (∀ m, m < n → bytes < c.size - ((c.lru_list.take m).map (Cache.EntrySizeForKey L)).sum) ∧
        (c1.size ≤ bytes ∨ c1.lru_list = [] ∨
          ∃ key e, c1.lru_list.head? = some key ∧ umFind c.map key = some e ∧
            now ≤ e.min_expiration_time) := by
  intro fuel
  induction fuel with
  | zero => intro c _ hf; omega
  | succ f ih =>
    intro c hc hf
    unfold Cache.shrinkLoop
    by_cases hs : c.size > bytes
    · simp only [hs, if_true]
      cases hl : c.lru_list with
      | nil =>
        refine ⟨0, c, rfl, hc, rfl, Nat.zero_le _, by simp [hl], by simp, by simp, by simp,
          by simp, Or.inr (Or.inl hl)⟩
      | cons key rest =>
        have hmem : key ∈ c.lru_list := by simp [hl]
        have hkeys : key ∈ c.map.map Prod.fst := (hc.lru_mem key).1 hmem
        obtain ⟨e, he⟩ := mem_keys_umFind hkeys
        simp only [he]
        by_cases hev : e.CanEvict now = true
        · simp only [hev, Bool.not_true, Bool.false_eq_true, if_false]
          have hlen := eraseEntry_lru_length hmem
          have hnd : (key :: rest).Nodup := hl ▸ hc.lru_nodup
          have hlru1 : (c.eraseEntry key).lru_list = rest := by
            simp [Cache.eraseEntry, hl]
          obtain ⟨n, c1, h1, h2, h3, h4, h5, h6, h7, h8, h9, h10⟩ := ih
            { (c.eraseEntry key) with size := c.size - Cache.EntrySizeForKey L key }
            (Inv_eraseEntry hc hkeys) (by simp only; omega)
          simp only [hlru1] at h4 h5 h6 h7 h8 h9
          have hsz : Cache.EntrySizeForKey L key ≤ c.size := by
            have := sumEntrySizes_umErase L hkeys
            have := hc.size_eq
            omega
          have hmin : e.min_expiration_time < now := by
            simpa [Entry.CanEvict] using hev
          refine ⟨n + 1, c1, h1, h2, by simpa [Cache.eraseEntry] using h3, by simp; omega,
            by simpa using h5, ?_, ?_, ?_, ?_, ?_⟩
          · rw [h6]
            simp only [Cache.eraseEntry, umErase_eq_filter c.map key hc.keys_nodup,
              List.filter_filter, List.take_succ_cons, List.mem_cons, not_or]
            apply List.filter_congr
            intro p _
            by_cases hp : p.1 = key <;> simp [hp]
          · simp only [List.take_succ_cons, List.map_cons, List.sum_cons]
            omega
          · intro k hk
            simp only [List.take_succ_cons, List.mem_cons] at hk
            rcases hk with hk | hk
            · exact ⟨e, hk ▸ he, hmin⟩
            · obtain ⟨e1, he1, he2⟩ := h8 k hk
              have hne : key ≠ k := fun hh =>
                (List.nodup_cons.1 hnd).1 (hh ▸ List.mem_of_mem_take hk)
              simp only [Cache.eraseEntry] at he1
              rw [umFind_umErase_other c.map hne] at he1
              exact ⟨e1, he1, he2⟩
          · intro m hm
            cases m with
            | zero => simpa using hs
            | succ m =>
              have := h9 m (by omega)
              simp only [List.take_succ_cons, List.map_cons, List.sum_cons]
              omega
          · rcases h10 with h10 | h10 | ⟨k1, e1, hk1, he1, hle⟩
            · exact Or.inl h10
            · exact Or.inr (Or.inl h10)
            · refine Or.inr (Or.inr ⟨k1, e1, hk1, ?_, hle⟩)
              have hk1mem : k1 ∈ rest := by
                have : k1 ∈ c1.lru_list := List.mem_of_mem_head? hk1
                rw [h5] at this
                exact List.mem_of_mem_drop this
              have hne : key ≠ k1 := fun hh => (List.nodup_cons.1 hnd).1 (hh ▸ hk1mem)
              simp only [Cache.eraseEntry] at he1
              rw [umFind_umErase_other c.map hne] at he1
              exact he1
        · simp only [hev, Bool.not_false, if_true]
          have hmin : now ≤ e.min_expiration_time := by
            simpa [Entry.CanEvict] using hev
          refine ⟨0, c, rfl, hc, rfl, Nat.zero_le _, by simp [hl], by simp, by simp, by simp,
            by simp, Or.inr (Or.inr ⟨key, e, by simp [hl], he, hmin⟩)⟩
    · simp only [hs, if_false]
      refine ⟨0, c, rfl, hc, rfl, Nat.zero_le _, by simp, by simp, by simp, by simp,
        by simp, Or.inl (by omega)⟩

theorem shrinkLoop_Inv (L : Layout) (now : Timestamp) (bytes : Nat) (fuel : Nat) (c : Cache)
    (hc : Cache.Inv L c) (hf : c.lru_list.length < fuel) :
    ∃ c1, Cache.shrinkLoop L now bytes fuel c = some c1 ∧ Cache.Inv L c1 ∧
      c1.size_limit = c.size_limit ∧
      (∀ k, umFind c.map k = none → umFind c1.map k = none) := by
  obtain ⟨n, c1, h1, h2, h3, -, -, h6, -⟩ := shrinkLoop_spec L now bytes fuel c hc hf
  refine ⟨c1, h1, h2, h3, ?_⟩
  intro k hk
  rw [umFind_eq_none_iff] at hk ⊢
  intro hmem
  apply hk
  rw [h6] at hmem
  obtain ⟨p, hp, hpk⟩ := List.mem_map.1 hmem
  exact List.mem_map.2 ⟨p, List.mem_of_mem_filter hp, hpk⟩

theorem MaybeShrinkSize_Inv (L : Layout) (now : Timestamp) (bytes : Nat) (c : Cache)
    (h : Cache.Inv L c) :
    ∃ c1, Cache.MaybeShrinkSize L now bytes c = some c1 ∧ Cache.Inv L c1 ∧
      c1.size_limit = c.size_limit ∧
      (∀ k, umFind c.map k = none → umFind c1.map k = none) :=
  shrinkLoop_Inv L now bytes _ c h (Nat.lt_succ_self _)

theorem Inv_of_same_keys {L : Layout} {c c1 : Cache} (h : Cache.Inv L c)
    (hsize : c1.size = c.size) (hlru : c1.lru_list = c.lru_list)
    (hkeys : c1.map.map Prod.fst = c.map.map Prod.fst) : Cache.Inv L c1 := by
  refine ⟨?_, ?_, ?_, ?_⟩
  · rw [hsize, h.size_eq, sumEntrySizes_keys, sumEntrySizes_keys, hkeys]
  · rw [hkeys]; exact h.keys_nodup
  · rw [hlru]; exact h.lru_nodup
  · intro k; rw [hlru, hkeys]; exact h.lru_mem k

theorem Find_Inv {L : Layout} {c : Cache} (h : Cache.Inv L c) (key : RequestKey) :
    Cache.Inv L (c.Find key).1 := by
  unfold Cache.Find
  cases hf : umFind c.map key with
  | none => exact h
  | some e => exact Inv_MarkUsed h ((h.lru_mem key).2 (umFind_some_mem_keys hf))

theorem FindOrInsert_Inv (L : Layout) (now : Timestamp) {c : Cache} (h : Cache.Inv L c)
    (key : RequestKey) :
    ∃ r, Cache.FindOrInsert L now c key = some r ∧ Cache.Inv L r.1 := by
  unfold Cache.FindOrInsert
  cases hf : umFind c.map key with
  | some e => exact ⟨_, rfl, Inv_MarkUsed h ((h.lru_mem key).2 (umFind_some_mem_keys hf))⟩
  | none =>
    obtain ⟨c1, h1, h2, -, h4⟩ := MaybeShrinkSize_Inv L now
      (c.size_limit - min c.size_limit (Cache.EntrySizeForKey L key)) c h
    have hnone : umFind c1.map key = none := h4 key hf
    have hnk : key ∉ c1.map.map Prod.fst := (umFind_eq_none_iff _ _).1 hnone
    simp only [h1, umFind_umEmplace_same _ hnone]
    refine ⟨_, rfl, ?_, ?_, ?_, ?_⟩
    · simp only [Cache.sumEntrySizes, List.map_cons, List.sum_cons]
      have := h2.size_eq
      simp only [Cache.sumEntrySizes] at this
      omega
    · simp only [List.map_cons, List.nodup_cons]
      exact ⟨hnk, h2.keys_nodup⟩
    · rw [List.nodup_append]
      refine ⟨h2.lru_nodup, List.nodup_singleton key, ?_⟩
      intro a ha hb
      rw [List.mem_singleton] at hb
      subst hb
      exact hnk ((h2.lru_mem a).1 ha)
    · intro k
      simp only [List.mem_append, List.mem_singleton, List.map_cons, List.mem_cons]
      rw [h2.lru_mem k]
      tauto

theorem cleanupLoop_Inv (L : Layout) (now : Timestamp) :
    ∀ (rest : List (RequestKey × Entry)) (c : Cache), Cache.Inv L c →
      (rest.map Prod.fst).Nodup → (∀ k ∈ rest.map Prod.fst, k ∈ c.map.map Prod.fst) →
      Cache.Inv L (Cache.cleanupLoop L now rest c) := by
  intro rest
  induction rest with
  | nil => intro c hc _ _; exact hc
  | cons p rest ih =>
    obtain ⟨key, e⟩ := p
    intro c hc hnd hsub
    simp only [List.map_cons, List.nodup_cons] at hnd
    have hkey : key ∈ c.map.map Prod.fst := hsub key (by simp)
    unfold Cache.cleanupLoop
    by_cases hrm : (e.ShouldRemove now && e.CanEvict now) = true
    · simp only [hrm, if_true]
      refine ih _ (Inv_eraseEntry hc hkey) hnd.2 ?_
      intro k hk
      simp only [Cache.eraseEntry, keys_umErase]
      have hne : k ≠ key := fun hh => hnd.1 (hh ▸ hk)
      exact (List.mem_erase_of_ne hne).2 (hsub k (by simp [hk]))
    · simp only [hrm, Bool.false_eq_true, if_false]
      exact ih c hc hnd.2 (fun k hk => hsub k (by simp [hk]))

theorem OnCleanupTimer_Inv {L : Layout} (now : Timestamp) {c : Cache} (h : Cache.Inv L c) :
    Cache.Inv L (Cache.OnCleanupTimer L now c) :=
  cleanupLoop_Inv L now c.map c h h.keys_nodup (fun _ hk => hk)

theorem ResetAllBackoff_Inv {L : Layout} {c : Cache} (h : Cache.Inv L c) :
    Cache.Inv L c.ResetAllBackoff :=
  Inv_of_same_keys h rfl rfl (by simp [Cache.ResetAllBackoff, List.map_map, Function.comp_def])

/-- Every cache operation other than `shutdown` returns, and keeps the
invariant. -/
theorem step_Inv {L : Layout} {c : Cache} (h : Cache.Inv L c) (op : CacheOp)
    (hop : op ≠ CacheOp.shutdown) : ∃ c1, Cache.step L c op = some c1 ∧ Cache.Inv L c1 := by
  cases op with
  | find key => exact ⟨_, rfl, Find_Inv h key⟩
  | find_or_insert key now =>
    obtain ⟨r, hr, hinv⟩ := FindOrInsert_Inv L now h key
    exact ⟨r.1, by simp [Cache.step, hr], hinv⟩
  | resize bytes now =>
    have h0 : Cache.Inv L { c with size_limit := bytes } := Inv_of_same_keys h rfl rfl rfl
    obtain ⟨c1, h1, h2, -⟩ := MaybeShrinkSize_Inv L now bytes _ h0
    exact ⟨c1, h1, h2⟩
  | reset_all_backoff => exact ⟨_, rfl, ResetAllBackoff_Inv h⟩
  | cleanup now => exact ⟨_, rfl, OnCleanupTimer_Inv now h⟩
  | assign key e => exact ⟨_, rfl, Inv_of_same_keys h rfl rfl (keys_umSet _ _ _)⟩
  | shutdown => exact absurd rfl hop

theorem run_Inv {L : Layout} : ∀ (ops : List CacheOp) (c : Cache), Cache.Inv L c →
    CacheOp.shutdown ∉ ops → ∃ c1, Cache.run L c ops = some c1 ∧ Cache.Inv L c1 := by
  intro ops
  induction ops with
  | nil => intro c hc _; exact ⟨c, rfl, hc⟩
  | cons op ops ih =>
    intro c hc hno
    simp only [List.mem_cons, not_or] at hno
    obtain ⟨c1, h1, h2⟩ := step_Inv hc op (Ne.symm hno.1)
    obtain ⟨c2, h3, h4⟩ := ih c1 h2 hno.2
    exact ⟨c2, by simp [Cache.run, h1, h3], h4⟩

/-! ## C1: the size counter -/

/-- C1, as stated, fails: after `resize`, `find_or_insert` of one key and
`shutdown`, the map is empty (the sum of the entry sizes is 0) while the size
counter still holds the size of the entry that `shutdown` removed (316 with
`sizeof(RequestKey) = 48` and `sizeof(Entry) = 200`). -/
theorem cache_size_after_shutdown_counterexample :
    (Cache.run ⟨48, 200⟩ Cache.empty
        [CacheOp.resize 1000 0, CacheOp.find_or_insert ⟨[("h", "a.example")]⟩ 0,
         CacheOp.shutdown]).map
      (fun c => (c.size, Cache.sumEntrySizes ⟨48, 200⟩ c.map, c.map.length)) =
      some (316, 0, 0) := by
  decide

/-- C1, amended: every sequence of find, find_or_insert, resize,
reset_all_backoff, cleanup sweeps and assignments to entry fields, run from the
empty cache (so before any shutdown), returns a cache whose size counter equals
the sum, over the entries in the map, of `2 * key.Size() + sizeof(Entry)`. -/
theorem cache_size_eq_sum_before_shutdown (L : Layout) (ops : List CacheOp)
    (h : CacheOp.shutdown ∉ ops) :
    ∃ c, Cache.run L Cache.empty ops = some c ∧ c.size = Cache.sumEntrySizes L c.map := by
  obtain ⟨c, h1, h2⟩ := run_Inv ops Cache.empty (Inv_empty L) h
  exact ⟨c, h1, h2.size_eq⟩

/-- C1, amended, at a sequence of seven operations on three keys. -/
theorem cache_size_eq_sum_before_shutdown_witness :
    CacheOp.shutdown ∉
        [CacheOp.resize 700 0, CacheOp.find_or_insert ⟨[("h", "a.example")]⟩ 0,
         CacheOp.find_or_insert ⟨[("h", "b")]⟩ 1000, CacheOp.find ⟨[("h", "a.example")]⟩,
         CacheOp.find_or_insert ⟨[("h", "c")]⟩ 6000, CacheOp.reset_all_backoff,
         CacheOp.cleanup 7000] ∧
      ∃ c, Cache.run ⟨48, 200⟩ Cache.empty
          [CacheOp.resize 700 0, CacheOp.find_or_insert ⟨[("h", "a.example")]⟩ 0,
           CacheOp.find_or_insert ⟨[("h", "b")]⟩ 1000, CacheOp.find ⟨[("h", "a.example")]⟩,
           CacheOp.find_or_insert ⟨[("h", "c")]⟩ 6000, CacheOp.reset_all_backoff,
           CacheOp.cleanup 7000] = some c ∧
        c.size = Cache.sumEntrySizes ⟨48, 200⟩ c.map :=
  ⟨by decide, cache_size_eq_sum_before_shutdown _ _ (by decide)⟩

/-! ## C10: resize -/

theorem umFind_filter_keys {K V : Type} [DecidableEq K] (m : List (K × V)) (S : List K) (k : K) :
    umFind (m.filter (fun p => decide (p.1 ∉ S))) k = if k ∈ S then none else umFind m k := by
  induction m with
  | nil => simp [umFind]
  | cons p rest ih =>
    obtain ⟨k1, v1⟩ := p
    by_cases h1 : k1 ∈ S
    · simp only [List.filter_cons, h1, not_true_eq_false, decide_False, Bool.false_eq_true,
        if_false, ih, umFind]
      by_cases hk : k1 = k
      · subst hk; simp [h1]
      · simp [hk]
    · simp only [List.filter_cons, h1, not_false_eq_true, decide_True, if_true, umFind, ih]
      by_cases hk : k1 = k
      · subst hk; simp [h1]
      · simp [hk]

/-- C10: on a cache that satisfies the invariant, `resize(new_limit)` at time
`now` returns; it sets `size_limit` to `new_limit` and removes exactly the
first `n` keys of the LRU list, where `n` is the least number of removals after
which the size is at most `new_limit`, or the list is empty, or the head entry
has `now ≤ min_expiration_time`.  The LRU list afterwards is the old one
without its first `n` keys (order kept), the map is the old one without those
keys, the size has decreased by the sizes of the removed entries, and every
entry with `now ≤ min_expiration_time` is still there. -/
theorem resize_evicts_shortest_lru_prefix (L : Layout) (now : Timestamp) (c : Cache)
    (new_limit : Nat) (h : Cache.Inv L c) :
    ∃ n c1, Cache.Resize L now c new_limit = some c1 ∧
      c1.size_limit = new_limit ∧
      n ≤ c.lru_list.length ∧
      Cache.evictionStops L now new_limit c n ∧
      (∀ m, m < n → ¬ Cache.evictionStops L now new_limit c m) ∧
      c1.lru_list = c.lru_list.drop n ∧
      c1.map = c.map.filter (fun p => decide (p.1 ∉ c.lru_list.take n)) ∧
      c1.size + ((c.lru_list.take n).map (Cache.EntrySizeForKey L)).sum = c.size ∧
      (∀ key e, umFind c.map key = some e → now ≤ e.min_expiration_time →
        key ∉ c.lru_list.take n ∧ umFind c1.map key = some e) := by
  have h0 : Cache.Inv L { c with size_limit := new_limit } := Inv_of_same_keys h rfl rfl rfl
  obtain ⟨n, c1, h1, -, h3, h4, h5, h6, h7, h8, h9, h10⟩ :=
    shrinkLoop_spec L now new_limit _ { c with size_limit := new_limit } h0 (Nat.lt_succ_self _)
  have h3 : c1.size_limit = new_limit := h3
  have h4 : n ≤ c.lru_list.length := h4
  have h5 : c1.lru_list = c.lru_list.drop n := h5
  have h6 : c1.map = c.map.filter (fun p => decide (p.1 ∉ c.lru_list.take n)) := h6
  have h7 : c1.size + ((c.lru_list.take n).map (Cache.EntrySizeForKey L)).sum = c.size := h7
  have h8 : ∀ k ∈ c.lru_list.take n, ∃ e, umFind c.map k = some e ∧
      e.min_expiration_time < now := h8
  have h9 : ∀ m, m < n →
      new_limit < c.size - ((c.lru_list.take m).map (Cache.EntrySizeForKey L)).sum := h9
  have h10 : c1.size ≤ new_limit ∨ c1.lru_list = [] ∨
      ∃ key e, c1.lru_list.head? = some key ∧ umFind c.map key = some e ∧
        now ≤ e.min_expiration_time := h10
  have hprot : ∀ key e, umFind c.map key = some e → now ≤ e.min_expiration_time →
      key ∉ c.lru_list.take n := by
    intro key e he hle hmem
    obtain ⟨e1, he1, hlt⟩ := h8 key hmem
    rw [he] at he1
    cases he1
    exact absurd hlt (not_lt.mpr hle)
  refine ⟨n, c1, h1, h3, h4, ?_, ?_, h5, h6, h7, ?_⟩
  · rcases h10 with h10 | h10 | ⟨key, e, hk, he, hle⟩
    · exact Or.inl (by omega)
    · exact Or.inr (Or.inl (h5 ▸ h10))
    · exact Or.inr (Or.inr ⟨key, e, h5 ▸ hk, he, hle⟩)
  · intro m hm hstop
    rcases hstop with hs | hs | ⟨key, e, hk, he, hle⟩
    · have := h9 m hm
      omega
    · rw [List.drop_eq_nil_iff] at hs
      omega
    · apply hprot key e he hle
      rw [List.head?_drop] at hk
      have : (c.lru_list.take n)[m]? = some key := by
        rw [List.getElem?_take_of_lt hm]; exact hk
      exact List.getElem?_mem this
  · intro key e he hle
    have hnot := hprot key e he hle
    refine ⟨hnot, ?_⟩
    rw [h6, umFind_filter_keys, if_neg hnot, he]

theorem Inv_of_run (L : Layout) (ops : List CacheOp) (c : Cache)
    (h : Cache.run L Cache.empty ops = some c) (hno : CacheOp.shutdown ∉ ops) :
    Cache.Inv L c := by
  obtain ⟨c1, h1, h2⟩ := run_Inv ops Cache.empty (Inv_empty L) hno
  rw [h] at h1
  cases h1
  exact h2

/-- C10 at `exCacheTwo`: at time 6000 a resize to 0 removes nothing, because the
entry at the head of the LRU list was created at 3000, although the entry behind
it could be evicted; at time 9000 a resize to 316 removes the head entry only. -/
theorem resize_evicts_shortest_lru_prefix_witness :
    Cache.Resize exLayout 6000 exCacheTwo 0 = some { exCacheTwo with size_limit := 0 } ∧
    Cache.Resize exLayout 9000 exCacheTwo 316 =
      some ⟨316, 316, [exKey], [(exKey, Entry.new 0)]⟩ ∧
    ∃ n c1, Cache.Resize exLayout 9000 exCacheTwo 316 = some c1 ∧
      c1.size_limit = 316 ∧
      n ≤ exCacheTwo.lru_list.length ∧
      Cache.evictionStops exLayout 9000 316 exCacheTwo n ∧
      (∀ m, m < n → ¬ Cache.evictionStops exLayout 9000 316 exCacheTwo m) ∧
      c1.lru_list = exCacheTwo.lru_list.drop n ∧
      c1.map = exCacheTwo.map.filter (fun p => decide (p.1 ∉ exCacheTwo.lru_list.take n)) ∧
      c1.size + ((exCacheTwo.lru_list.take n).map (Cache.EntrySizeForKey exLayout)).sum =
        exCacheTwo.size ∧
      (∀ key e, umFind exCacheTwo.map key = some e → 9000 ≤ e.min_expiration_time →
        key ∉ exCacheTwo.lru_list.take n ∧ umFind c1.map key = some e) :=
  ⟨by decide!, by decide!,
   resize_evicts_shortest_lru_prefix exLayout 9000 exCacheTwo 316
    (Inv_of_run exLayout
      [CacheOp.resize 1000 0, CacheOp.find_or_insert exKey 0,
        CacheOp.find_or_insert ⟨[("h", "b")]⟩ 3000, CacheOp.find exKey] exCacheTwo
      (by decide!) (by decide!))⟩

/-! ## Lemmas on picks and completions -/

theorem pick_miss_aux (p : Picker) (lb : RlsLb) (args : PickArgs) (now : Timestamp) (u : ℚ)
    (key : RequestKey) (ch : RlsChannel)
    (hkey : key = ⟨BuildKeyMap p.config.key_builder_map args.path lb.server_name
      args.initial_metadata⟩)
    (hs : lb.is_shutdown = false)
    (he : umFind lb.cache.map key = none)
    (hr : umFind lb.request_map key = none)
    (hc : lb.rls_channel = some ch)
    (ht : (ch.throttle.ShouldThrottle now u).1 = false) :
    Picker.Pick p lb args now u =
      some ({ lb with
              rls_channel := some { ch with throttle := (ch.throttle.ShouldThrottle now u).2 }
              request_map := (key, ⟨key, ch.id, none, Reason.REASON_MISS, ""⟩) :: lb.request_map },
            ⟨PickResult.Queue, args.initial_metadata⟩) := by
  subst hkey
  simp [Picker.Pick, hs, Cache.Find, he, hr, hc, ht, RlsChannel.StartRlsCall, umEmplace,
    Picker.pickFromEntry]

theorem pick_stale_aux (p : Picker) (lb : RlsLb) (args : PickArgs) (now : Timestamp) (u : ℚ)
    (key : RequestKey) (ch : RlsChannel) (e : Entry)
    (hkey : key = ⟨BuildKeyMap p.config.key_builder_map args.path lb.server_name
      args.initial_metadata⟩)
    (hs : lb.is_shutdown = false)
    (he : umFind lb.cache.map key = some e)
    (hstale : e.stale_time < now) (hdata : now ≤ e.data_expiration_time)
    (hback : e.backoff_time < now)
    (hr : umFind lb.request_map key = none)
    (hc : lb.rls_channel = some ch) :
    Picker.Pick p lb args now u =
      (Entry.Pick lb.child_policy_map e args).map (fun out =>
        ({ lb with
            cache := { (lb.cache.MarkUsed key) with
              map := umSet lb.cache.map key { e with backoff_state := none } }
            rls_channel := some { ch with throttle := (ch.throttle.ShouldThrottle now u).2 }
            request_map :=
              (key, ⟨key, ch.id, e.backoff_state, Reason.REASON_STALE, e.header_data⟩) ::
                lb.request_map }, out)) := by
  subst hkey
  have hnexp : ¬ e.data_expiration_time < now := not_lt.mpr hdata
  simp [Picker.Pick, hs, Cache.Find, he, hr, hc, RlsChannel.StartRlsCall, umEmplace,
    Picker.pickFromEntry, hstale, hback, hnexp, hdata, Cache.MarkUsed]

theorem pickFromEntry_frame (p : Picker) (lb lb1 : RlsLb) (entry : Option Entry) (args : PickArgs)
    (now : Timestamp) (h : lb1.child_policy_map = lb.child_policy_map) :
    Picker.pickFromEntry p lb1 entry args now = Picker.pickFromEntry p lb entry args now := by
  simp [Picker.pickFromEntry, h]

theorem pick_by_entry_aux (p : Picker) (lb : RlsLb) (args : PickArgs) (now : Timestamp) (u : ℚ)
    (key : RequestKey) (ch : RlsChannel)
    (hkey : key = ⟨BuildKeyMap p.config.key_builder_map args.path lb.server_name
      args.initial_metadata⟩)
    (hs : lb.is_shutdown = false) (hc : lb.rls_channel = some ch)
    (hnt : ¬ Picker.returnsThrottled p lb args now u) :
    (Picker.Pick p lb args now u).map Prod.snd =
      Picker.pickFromEntry p lb (umFind lb.cache.map key) args now := by
  subst hkey
  simp only [Picker.returnsThrottled] at hnt
  cases he : umFind lb.cache.map
      ⟨BuildKeyMap p.config.key_builder_map args.path lb.server_name args.initial_metadata⟩ with
  | none =>
    simp only [he, true_and, not_and, not_exists] at hnt
    cases hr : umFind lb.request_map
      ⟨BuildKeyMap p.config.key_builder_map args.path lb.server_name args.initial_metadata⟩ with
    | none =>
      have ht : (ch.throttle.ShouldThrottle now u).1 = false := by
        have := hnt hr ch hc
        simpa using this
      rw [pick_miss_aux p lb args now u _ ch rfl hs he hr hc ht]
      simp [Picker.pickFromEntry]
    | some req =>
      simp [Picker.Pick, hs, Cache.Find, he, hr, Picker.pickFromEntry]
  | some e =>
    simp only [he, not_and, not_exists] at hnt
    cases hr : umFind lb.request_map
      ⟨BuildKeyMap p.config.key_builder_map args.path lb.server_name args.initial_metadata⟩ with
    | some req =>
      simp [Picker.Pick, hs, Cache.Find, he, hr, Option.map_map, Function.comp_def]
      apply pickFromEntry_frame; rfl
    | none =>
      by_cases hel : e.stale_time < now ∧ e.backoff_time < now
      · by_cases hexp : e.data_expiration_time < now
        · have ht : (ch.throttle.ShouldThrottle now u).1 = false := by
            have := hnt ⟨hel.1, hel.2, hexp⟩ hr ch hc
            simpa using this
          simp [Picker.Pick, hs, Cache.Find, he, hr, hc, ht, hel.1, hel.2, hexp,
            RlsChannel.StartRlsCall, umEmplace, Option.map_map, Function.comp_def]
          apply pickFromEntry_frame; rfl
        · simp [Picker.Pick, hs, Cache.Find, he, hr, hc, hel.1, hel.2, hexp,
            RlsChannel.StartRlsCall, umEmplace, Option.map_map, Function.comp_def,
            Cache.MarkUsed]
          apply pickFromEntry_frame; rfl
      · have hel2 : (decide (e.stale_time < now) && decide (e.backoff_time < now)) = false := by
          simpa using hel
        simp [Picker.Pick, hs, Cache.Find, he, hr, hel2, Option.map_map, Function.comp_def]
        apply pickFromEntry_frame; rfl

theorem pick_throttled_aux (p : Picker) (lb : RlsLb) (args : PickArgs) (now : Timestamp) (u : ℚ)
    (key : RequestKey) (ch : RlsChannel)
    (hkey : key = ⟨BuildKeyMap p.config.key_builder_map args.path lb.server_name
      args.initial_metadata⟩)
    (hs : lb.is_shutdown = false)
    (hel : match umFind lb.cache.map key with
      | none => True
      | some e => e.stale_time < now ∧ e.backoff_time < now ∧ e.data_expiration_time < now)
    (hr : umFind lb.request_map key = none)
    (hc : lb.rls_channel = some ch)
    (ht : (ch.throttle.ShouldThrottle now u).1 = true) :
    Picker.Pick p lb args now u =
      (match p.default_child_policy with
       | some target =>
         (umFind lb.child_policy_map target).map (fun (w : ChildPolicyWrapper) =>
           (⟨w.Pick args, args.initial_metadata⟩ : PickOutcome))
       | none =>
         some ⟨PickResult.Fail (UnavailableError "RLS request throttled"),
           args.initial_metadata⟩).map
        (fun out =>
          ({ lb with
              cache := (lb.cache.Find key).1
              rls_channel := some { ch with throttle := (ch.throttle.ShouldThrottle now u).2 } },
           out)) := by
  subst hkey
  cases he : umFind lb.cache.map
      ⟨BuildKeyMap p.config.key_builder_map args.path lb.server_name args.initial_metadata⟩ with
  | none =>
    cases hd : p.default_child_policy with
    | none => simp [Picker.Pick, hs, Cache.Find, he, hr, hc, ht, hd]
    | some t =>
      cases hw : umFind lb.child_policy_map t <;>
        simp [Picker.Pick, hs, Cache.Find, he, hr, hc, ht, hd, hw]
  | some e =>
    rw [he] at hel
    cases hd : p.default_child_policy with
    | none => simp [Picker.Pick, hs, Cache.Find, he, hr, hc, ht, hd, hel.1, hel.2.1, hel.2.2]
    | some t =>
      cases hw : umFind lb.child_policy_map t <;>
        simp [Picker.Pick, hs, Cache.Find, he, hr, hc, ht, hd, hw, hel.1, hel.2.1, hel.2.2]

theorem pick_pending_aux (p : Picker) (lb : RlsLb) (args : PickArgs) (now : Timestamp) (u : ℚ)
    (key : RequestKey) (req : RlsRequest)
    (hkey : key = ⟨BuildKeyMap p.config.key_builder_map args.path lb.server_name
      args.initial_metadata⟩)
    (hs : lb.is_shutdown = false)
    (hr : umFind lb.request_map key = some req) :
    Picker.Pick p lb args now u =
      (Picker.pickFromEntry p lb (umFind lb.cache.map key) args now).map
        (fun out => ({ lb with cache := (lb.cache.Find key).1 }, out)) := by
  subst hkey
  cases he : umFind lb.cache.map
      ⟨BuildKeyMap p.config.key_builder_map args.path lb.server_name args.initial_metadata⟩ with
  | none => simp [Picker.Pick, hs, Cache.Find, he, hr, Picker.pickFromEntry]
  | some e =>
    simp [Picker.Pick, hs, Cache.Find, he, hr]
    congr 1

theorem pick_backoff_aux (p : Picker) (lb : RlsLb) (args : PickArgs) (now : Timestamp) (u : ℚ)
    (key : RequestKey) (e : Entry)
    (hkey : key = ⟨BuildKeyMap p.config.key_builder_map args.path lb.server_name
      args.initial_metadata⟩)
    (hs : lb.is_shutdown = false)
    (he : umFind lb.cache.map key = some e)
    (hback : now ≤ e.backoff_time) :
    Picker.Pick p lb args now u =
      (Picker.pickFromEntry p lb (some e) args now).map
        (fun out => ({ lb with cache := lb.cache.MarkUsed key }, out)) := by
  subst hkey
  have hnb : ¬ e.backoff_time < now := not_lt.mpr hback
  simp [Picker.Pick, hs, Cache.Find, he, hnb]
  congr 1

theorem keys_nodup_umEmplace {K V : Type} [DecidableEq K] (m : List (K × V)) (k : K) (v : V)
    (h : (m.map Prod.fst).Nodup) : ((umEmplace m k v).map Prod.fst).Nodup := by
  unfold umEmplace
  cases hf : umFind m k with
  | some _ => exact h
  | none =>
    simp only [List.map_cons, List.nodup_cons]
    exact ⟨(umFind_eq_none_iff m k).1 hf, h⟩

theorem keys_nodup_umErase {K V : Type} [DecidableEq K] (m : List (K × V)) (k : K)
    (h : (m.map Prod.fst).Nodup) : ((umErase m k).map Prod.fst).Nodup := by
  rw [keys_umErase]
  exact h.erase k

theorem StartRlsCall_request_map (lb lb1 : RlsLb) (key : RequestKey) (stale : Option RequestKey)
    (h : RlsChannel.StartRlsCall lb key stale = some lb1) :
    ∃ req, lb1.request_map = umEmplace lb.request_map key req := by
  unfold RlsChannel.StartRlsCall at h
  cases hc : lb.rls_channel with
  | none => simp [hc] at h
  | some ch =>
    cases stale with
    | none =>
      simp only [hc, Option.some.injEq] at h
      exact ⟨_, by rw [← h]⟩
    | some ek =>
      cases hf : umFind lb.cache.map ek with
      | none => simp [hc, hf] at h
      | some e =>
        simp only [hc, hf, Option.some.injEq] at h
        exact ⟨_, by rw [← h]⟩

/-- A pick leaves `request_map` as it is, or adds one request by `emplace`. -/
theorem Pick_request_map (p : Picker) (lb : RlsLb) (args : PickArgs) (now : Timestamp) (u : ℚ)
    (r : RlsLb × PickOutcome) (h : Picker.Pick p lb args now u = some r) :
    r.1.request_map = lb.request_map ∨
      ∃ req, r.1.request_map = umEmplace lb.request_map
        ⟨BuildKeyMap p.config.key_builder_map args.path lb.server_name args.initial_metadata⟩
        req := by
  unfold Picker.Pick at h
  simp only at h
  split at h
  · simp only [Option.some.injEq] at h
    exact Or.inl (by rw [← h])
  · split at h
    · split at h
      · simp at h
      · split at h
        · split at h
          · split at h
            · simp at h
            · simp only [Option.some.injEq] at h
              exact Or.inl (by rw [← h])
          · simp only [Option.some.injEq] at h
            exact Or.inl (by rw [← h])
        · split at h
          · simp at h
          · rename_i lb3 hstart
            obtain ⟨req, hreq⟩ := StartRlsCall_request_map _ _ _ _ hstart
            simp only [Option.map_eq_some'] at h
            obtain ⟨out, -, hout⟩ := h
            exact Or.inr ⟨req, by rw [← hout]; exact hreq⟩
    · simp only [Option.map_eq_some'] at h
      obtain ⟨out, -, hout⟩ := h
      exact Or.inl (by rw [← hout])

theorem reportResponse_request_map (req : RlsRequest) (lb : RlsLb) (now : Timestamp) (ok : Bool) :
    (req.reportResponse lb now ok).request_map = lb.request_map := by
  unfold RlsRequest.reportResponse
  cases lb.rls_channel with
  | none => rfl
  | some ch =>
    simp only
    split <;> rfl

theorem OnRlsResponseLocked_request_map (lb : RlsLb) (key : RequestKey) (response : ResponseInfo)
    (backoff_state : Option BackOff) (now : Timestamp) (jitter : Duration)
    (r : RlsLb × List String)
    (h : Entry.OnRlsResponseLocked lb key response backoff_state now jitter = some r) :
    r.1.request_map = lb.request_map := by
  unfold Entry.OnRlsResponseLocked at h
  cases hf : umFind lb.cache.map key with
  | none => simp [hf] at h
  | some entry =>
    simp only [hf] at h
    split at h
    · simp only [Option.some.injEq] at h
      rw [← h]
    · cases hcfg : lb.config with
      | none => simp [hcfg] at h
      | some config =>
        simp only [hcfg] at h
        split at h
        · simp only [Option.some.injEq] at h
          rw [← h]
        · simp only [Option.some.injEq] at h
          rw [← h]

/-- A completion leaves `request_map` as it is, or erases the request's key. -/
theorem OnRlsCallCompleteLocked_request_map (L : Layout) (req : RlsRequest) (lb : RlsLb)
    (result : RlsCallResult) (now : Timestamp) (jitter : Duration) (lb1 : RlsLb)
    (h : RlsRequest.OnRlsCallCompleteLocked L req lb result now jitter = some lb1) :
    lb1.request_map = lb.request_map ∨ lb1.request_map = umErase lb.request_map req.key := by
  unfold RlsRequest.OnRlsCallCompleteLocked at h
  simp only at h
  split at h
  · simp only [Option.some.injEq] at h
    exact Or.inl (by rw [← h])
  · split at h
    · simp at h
    · split at h
      · simp at h
      · rename_i lb3 fin hresp
        have h3 := OnRlsResponseLocked_request_map _ _ _ _ _ _ _ hresp
        simp only [Option.some.injEq] at h
        refine Or.inr ?_
        rw [← h]
        simp only at h3 ⊢
        rw [h3, reportResponse_request_map]

theorem step_request_keys_nodup (L : Layout) (lb lb1 : RlsLb) (ev : RlsEvent)
    (hu : (lb.request_map.map Prod.fst).Nodup) (h : RlsLb.step L lb ev = some lb1) :
    (lb1.request_map.map Prod.fst).Nodup := by
  cases ev with
  | pick p args now u =>
    simp only [RlsLb.step, Option.map_eq_some'] at h
    obtain ⟨r, hr, rfl⟩ := h
    rcases Pick_request_map p lb args now u r hr with h1 | ⟨req, h1⟩
    · rw [h1]; exact hu
    · rw [h1]; exact keys_nodup_umEmplace _ _ _ hu
  | complete key result now jitter =>
    simp only [RlsLb.step] at h
    cases hf : umFind lb.request_map key with
    | none =>
      simp only [hf, Option.some.injEq] at h
      rw [← h]; exact hu
    | some req =>
      simp only [hf] at h
      rcases OnRlsCallCompleteLocked_request_map L req lb result now jitter lb1 h with h1 | h1
      · rw [h1]; exact hu
      · rw [h1]; exact keys_nodup_umErase _ _ hu

theorem run_request_keys_nodup (L : Layout) : ∀ (evs : List RlsEvent) (lb lb1 : RlsLb),
    (lb.request_map.map Prod.fst).Nodup → RlsLb.run L lb evs = some lb1 →
    (lb1.request_map.map Prod.fst).Nodup := by
  intro evs
  induction evs with
  | nil =>
    intro lb lb1 hu h
    simp only [RlsLb.run, Option.some.injEq] at h
    rw [← h]; exact hu
  | cons ev evs ih =>
    intro lb lb1 hu h
    simp only [RlsLb.run, Option.bind_eq_some] at h
    obtain ⟨lb2, h2, h3⟩ := h
    exact ih lb2 lb1 (step_request_keys_nodup L lb lb2 ev hu h2) h3

theorem pickLoop_spec (cpm : List (String × ChildPolicyWrapper)) :
    ∀ (targets : List String) (ws : List ChildPolicyWrapper) (hne : ws ≠ []),
      targets.map (umFind cpm) = ws.map some →
      Entry.pickLoop cpm targets =
        some ((ws.find? (fun w =>
          decide (w.connectivity_state ≠ GRPC_CHANNEL_TRANSIENT_FAILURE))).getD
            (ws.getLast hne)) := by
  intro targets
  induction targets with
  | nil =>
    intro ws hne h
    cases ws with
    | nil => exact absurd rfl hne
    | cons w ws => simp at h
  | cons t rest ih =>
    intro ws hne h
    cases ws with
    | nil => exact absurd rfl hne
    | cons w ws1 =>
      simp only [List.map_cons, List.cons.injEq] at h
      obtain ⟨hw, hrest⟩ := h
      by_cases htf : w.connectivity_state = GRPC_CHANNEL_TRANSIENT_FAILURE
      · cases ws1 with
        | nil =>
          have hr : rest = [] := by simpa using hrest
          subst hr
          simp [Entry.pickLoop, hw, htf]
        | cons w2 ws2 =>
          have hr : rest ≠ [] := by
            intro hh; subst hh; simp at hrest
          have := ih (w2 :: ws2) (by simp) hrest
          simp only [Entry.pickLoop, hw, htf, hr, ne_eq, not_false_eq_true, and_self, if_true, this]
          simp [htf]
      · simp [Entry.pickLoop, hw, htf]

/-! ## C2: a pick on a cache miss -/

/-- C2: a pick on a policy that is not shut down, whose key (built from the
pick's path, the server name and the headers) has no cache entry and no
pending request, and which the throttle does not throttle, returns Queue;
afterwards `request_map` is the old map with one new request, stored under the
key, with reason MISS, empty `stale_header_data` and no backoff state; the
cache is unchanged. -/
theorem pick_miss_starts_request_and_queues (p : Picker) (lb : RlsLb) (args : PickArgs)
    (now : Timestamp) (u : ℚ) (key : RequestKey) (ch : RlsChannel)
    (hkey : key = ⟨BuildKeyMap p.config.key_builder_map args.path lb.server_name
      args.initial_metadata⟩)
    (hs : lb.is_shutdown = false)
    (he : umFind lb.cache.map key = none)
    (hr : umFind lb.request_map key = none)
    (hc : lb.rls_channel = some ch)
    (ht : (ch.throttle.ShouldThrottle now u).1 = false) :
    ∃ lb1, Picker.Pick p lb args now u = some (lb1, ⟨PickResult.Queue, args.initial_metadata⟩) ∧
      lb1.request_map = (key, ⟨key, ch.id, none, Reason.REASON_MISS, ""⟩) :: lb.request_map ∧
      lb1.cache = lb.cache :=
  ⟨_, pick_miss_aux p lb args now u key ch hkey hs he hr hc ht, rfl, rfl⟩

/-- C2 at the first end-to-end scenario: the pick for `/svc.S/M` is queued and a
request with key `h = a.example` is started. -/
theorem pick_miss_starts_request_and_queues_witness :
    ∃ lb1, Picker.Pick exPicker (exLb [] [] Throttle.new) exArgs 100 0 =
        some (lb1, ⟨PickResult.Queue, exArgs.initial_metadata⟩) ∧
      lb1.request_map =
        (exKey, ⟨exKey, (exChannel Throttle.new).id, none, Reason.REASON_MISS, ""⟩) ::
          (exLb [] [] Throttle.new).request_map ∧
      lb1.cache = (exLb [] [] Throttle.new).cache :=
  pick_miss_starts_request_and_queues exPicker (exLb [] [] Throttle.new) exArgs 100 0 exKey
    (exChannel Throttle.new) (by decide!) (by decide!) (by decide!) (by decide!) rfl (by decide!)

/-! ## C3: at most one pending request per key -/

/-- C3: a pick whose key already has a request in `request_map` leaves
`request_map` and the RLS channel (with its throttle) as they are, and its
outcome does not depend on the number the throttle would draw: it starts no
request and does not consult the throttle, whatever the entry's state.  And
across every sequence of picks and request completions, a `request_map` with at
most one request per key stays so. -/
theorem pending_request_blocks_new_request (L : Layout) (p : Picker) (lb : RlsLb)
    (args : PickArgs) (now : Timestamp) (u : ℚ) (key : RequestKey) (evs : List RlsEvent)
    (hkey : key = ⟨BuildKeyMap p.config.key_builder_map args.path lb.server_name
      args.initial_metadata⟩)
    (huniq : (lb.request_map.map Prod.fst).Nodup) :
    (∀ req, umFind lb.request_map key = some req →
      (∀ r, Picker.Pick p lb args now u = some r →
        r.1.request_map = lb.request_map ∧ r.1.rls_channel = lb.rls_channel) ∧
      (∀ u1, Picker.Pick p lb args now u1 = Picker.Pick p lb args now u)) ∧
    (∀ lb1, RlsLb.run L lb evs = some lb1 → (lb1.request_map.map Prod.fst).Nodup) := by
  refine ⟨?_, fun lb1 h => run_request_keys_nodup L evs lb lb1 huniq h⟩
  intro req hreq
  by_cases hs : lb.is_shutdown = true
  · refine ⟨?_, ?_⟩
    · intro r hr
      simp only [Picker.Pick, hs, if_true, Option.some.injEq] at hr
      rw [← hr]
      exact ⟨rfl, rfl⟩
    · intro u1
      simp only [Picker.Pick, hs, if_true]
  · have hs1 : lb.is_shutdown = false := by simpa using hs
    refine ⟨?_, ?_⟩
    · intro r hr
      rw [pick_pending_aux p lb args now u key req hkey hs1 hreq] at hr
      simp only [Option.map_eq_some'] at hr
      obtain ⟨out, -, hout⟩ := hr
      rw [← hout]
      exact ⟨rfl, rfl⟩
    · intro u1
      rw [pick_pending_aux p lb args now u key req hkey hs1 hreq,
        pick_pending_aux p lb args now u1 key req hkey hs1 hreq]

/-- C3 at a policy with a pending request for `exKey` and a throttle that would
throttle: a pick, the completion of the request and another pick. -/
theorem pending_request_blocks_new_request_witness :
    (RlsLb.run exLayout
        (exLb [] [(exKey, ⟨exKey, 0, none, Reason.REASON_MISS, ""⟩)] exThrottling)
        [RlsEvent.pick exPicker exArgs 100 0,
         RlsEvent.complete exKey ⟨OkStatus, StatusCode.kOk, "", some ⟨["t1"], "hd"⟩⟩ 200 0,
         RlsEvent.pick exPicker exArgs 300 0]).map (fun lb => lb.request_map) = some [] ∧
    (∀ req, umFind (exLb [] [(exKey, ⟨exKey, 0, none, Reason.REASON_MISS, ""⟩)]
        exThrottling).request_map exKey = some req →
      (∀ r, Picker.Pick exPicker
          (exLb [] [(exKey, ⟨exKey, 0, none, Reason.REASON_MISS, ""⟩)] exThrottling)
          exArgs 100 0 = some r →
        r.1.request_map =
          (exLb [] [(exKey, ⟨exKey, 0, none, Reason.REASON_MISS, ""⟩)] exThrottling).request_map ∧
        r.1.rls_channel =
          (exLb [] [(exKey, ⟨exKey, 0, none, Reason.REASON_MISS, ""⟩)] exThrottling).rls_channel) ∧
      (∀ u1, Picker.Pick exPicker
          (exLb [] [(exKey, ⟨exKey, 0, none, Reason.REASON_MISS, ""⟩)] exThrottling)
          exArgs 100 u1 =
        Picker.Pick exPicker
          (exLb [] [(exKey, ⟨exKey, 0, none, Reason.REASON_MISS, ""⟩)] exThrottling)
          exArgs 100 0)) ∧
    (∀ lb1, RlsLb.run exLayout
        (exLb [] [(exKey, ⟨exKey, 0, none, Reason.REASON_MISS, ""⟩)] exThrottling)
        [RlsEvent.pick exPicker exArgs 100 0,
         RlsEvent.complete exKey ⟨OkStatus, StatusCode.kOk, "", some ⟨["t1"], "hd"⟩⟩ 200 0,
         RlsEvent.pick exPicker exArgs 300 0] = some lb1 →
      (lb1.request_map.map Prod.fst).Nodup) :=
  ⟨by decide!,
   pending_request_blocks_new_request exLayout exPicker
    (exLb [] [(exKey, ⟨exKey, 0, none, Reason.REASON_MISS, ""⟩)] exThrottling) exArgs 100 0 exKey
    [RlsEvent.pick exPicker exArgs 100 0,
     RlsEvent.complete exKey ⟨OkStatus, StatusCode.kOk, "", some ⟨["t1"], "hd"⟩⟩ 200 0,
     RlsEvent.pick exPicker exArgs 300 0]
    (by decide!) (by decide!)⟩

/-! ## C4: the result of a pick that does not return from the throttle branch -/

theorem not_returnsThrottled_of_entry (p : Picker) (lb : RlsLb) (args : PickArgs)
    (now : Timestamp) (u : ℚ) (e : Entry)
    (he : umFind lb.cache.map ⟨BuildKeyMap p.config.key_builder_map args.path lb.server_name
      args.initial_metadata⟩ = some e)
    (h : ¬ (e.stale_time < now ∧ e.backoff_time < now ∧ e.data_expiration_time < now)) :
    ¬ Picker.returnsThrottled p lb args now u := by
  intro hrt
  simp only [Picker.returnsThrottled, he] at hrt
  exact h hrt.1

theorem not_returnsThrottled_of_throttle (p : Picker) (lb : RlsLb) (args : PickArgs)
    (now : Timestamp) (u : ℚ) (ch : RlsChannel) (hc : lb.rls_channel = some ch)
    (ht : (ch.throttle.ShouldThrottle now u).1 = false) :
    ¬ Picker.returnsThrottled p lb args now u := by
  intro hrt
  obtain ⟨-, -, ch1, hc1, ht1⟩ := hrt
  rw [hc] at hc1
  cases hc1
  rw [ht] at ht1
  cases ht1


/-- C4: for a pick on a policy that is not shut down (and has its RLS channel)
that does not return from the throttle branch, the outcome is determined by the
entry stored under the key: with an entry whose `data_expiration_time ≥ now` it
is that of `Entry::Pick`; otherwise, with an entry whose `backoff_time ≥ now`,
it is the pick of the default wrapper when the picker has one and
Fail(Unavailable("RLS request failed: " + status)) when it has none; otherwise
(no entry, or data expired and not in backoff) it is Queue. -/
theorem pick_result_determined_by_entry (p : Picker) (lb : RlsLb) (args : PickArgs)
    (now : Timestamp) (u : ℚ) (key : RequestKey) (ch : RlsChannel)
    (hkey : key = ⟨BuildKeyMap p.config.key_builder_map args.path lb.server_name
      args.initial_metadata⟩)
    (hs : lb.is_shutdown = false) (hc : lb.rls_channel = some ch)
    (hnt : ¬ Picker.returnsThrottled p lb args now u) :
    (∀ e, umFind lb.cache.map key = some e → now ≤ e.data_expiration_time →
      (Picker.Pick p lb args now u).map Prod.snd = Entry.Pick lb.child_policy_map e args) ∧
    (∀ e, umFind lb.cache.map key = some e → e.data_expiration_time < now →
      now ≤ e.backoff_time →
      (∀ target w, p.default_child_policy = some target →
        umFind lb.child_policy_map target = some w →
        (Picker.Pick p lb args now u).map Prod.snd =
          some ⟨w.Pick args, args.initial_metadata⟩) ∧
      (p.default_child_policy = none →
        (Picker.Pick p lb args now u).map Prod.snd =
          some ⟨PickResult.Fail
            (UnavailableError ("RLS request failed: " ++ e.status.ToString)),
            args.initial_metadata⟩)) ∧
    ((umFind lb.cache.map key = none ∨
        ∃ e, umFind lb.cache.map key = some e ∧ e.data_expiration_time < now ∧
          e.backoff_time < now) →
      (Picker.Pick p lb args now u).map Prod.snd =
        some ⟨PickResult.Queue, args.initial_metadata⟩) := by
  have h := pick_by_entry_aux p lb args now u key ch hkey hs hc hnt
  refine ⟨?_, ?_, ?_⟩
  · intro e he hd
    rw [h, he]
    simp [Picker.pickFromEntry, hd]
  · intro e he hd hb
    have hnd : ¬ now ≤ e.data_expiration_time := not_le.mpr hd
    refine ⟨?_, ?_⟩
    · intro target w ht hw
      rw [h, he]
      simp [Picker.pickFromEntry, hnd, hb, ht, hw]
    · intro ht
      rw [h, he]
      simp [Picker.pickFromEntry, hnd, hb, ht]
  · rintro (he | ⟨e, he, hd, hb⟩)
    · rw [h, he]
      simp [Picker.pickFromEntry]
    · have hnd : ¬ now ≤ e.data_expiration_time := not_le.mpr hd
      have hnb : ¬ now ≤ e.backoff_time := not_le.mpr hb
      rw [h, he]
      simp [Picker.pickFromEntry, hnd, hnb]

/-- C4 at an entry in backoff, with no default target: the pick at time 500
fails with the entry's status. -/
theorem pick_result_determined_by_entry_witness :
    ¬ Picker.returnsThrottled exPicker (exLb [(exKey, exEntryFailed)] [] exThrottling)
        exArgs 500 0 ∧
      (Picker.Pick exPicker (exLb [(exKey, exEntryFailed)] [] exThrottling)
          exArgs 500 0).map Prod.snd =
        some ⟨PickResult.Fail
          (UnavailableError ("RLS request failed: " ++ exEntryFailed.status.ToString)),
          exArgs.initial_metadata⟩ :=
  ⟨not_returnsThrottled_of_entry _ _ _ _ _ exEntryFailed (by decide!) (by decide!),
   ((pick_result_determined_by_entry exPicker (exLb [(exKey, exEntryFailed)] [] exThrottling)
      exArgs 500 0 exKey (exChannel exThrottling) (by decide!) rfl rfl
      (not_returnsThrottled_of_entry _ _ _ _ _ exEntryFailed (by decide!) (by decide!))).2.1
      exEntryFailed (by decide!) (by decide!) (by decide!)).2 rfl⟩

/-! ## C5: a throttled pick with no usable data -/

/-- C5: for a pick (on a policy that is not shut down) with no pending request
for its key that is about to start a lookup (no entry, or an entry past
`stale_time` and not in backoff), when the throttle says throttle and there is
no entry with `data_expiration_time ≥ now`: the pick returns the pick of the
default wrapper when the picker has one, and Fail(Unavailable("RLS request
throttled")) when it has none; in both cases `request_map` is unchanged. -/
theorem pick_throttled_uses_default_or_fails (p : Picker) (lb : RlsLb) (args : PickArgs)
    (now : Timestamp) (u : ℚ) (key : RequestKey) (ch : RlsChannel)
    (hkey : key = ⟨BuildKeyMap p.config.key_builder_map args.path lb.server_name
      args.initial_metadata⟩)
    (hs : lb.is_shutdown = false)
    (hr : umFind lb.request_map key = none)
    (hel : umFind lb.cache.map key = none ∨
      ∃ e, umFind lb.cache.map key = some e ∧ e.stale_time < now ∧ e.backoff_time < now)
    (hexp : ∀ e, umFind lb.cache.map key = some e → e.data_expiration_time < now)
    (hc : lb.rls_channel = some ch)
    (ht : (ch.throttle.ShouldThrottle now u).1 = true) :
    ∃ lb1, lb1.request_map = lb.request_map ∧
      (∀ target w, p.default_child_policy = some target →
        umFind lb.child_policy_map target = some w →
        Picker.Pick p lb args now u = some (lb1, ⟨w.Pick args, args.initial_metadata⟩)) ∧
      (p.default_child_policy = none →
        Picker.Pick p lb args now u =
          some (lb1, ⟨PickResult.Fail (UnavailableError "RLS request throttled"),
            args.initial_metadata⟩)) := by
  have hel1 : match umFind lb.cache.map key with
      | none => True
      | some e => e.stale_time < now ∧ e.backoff_time < now ∧ e.data_expiration_time < now := by
    rcases hel with he | ⟨e, he, h1, h2⟩
    · rw [he]; trivial
    · rw [he]; exact ⟨h1, h2, hexp e he⟩
  have h := pick_throttled_aux p lb args now u key ch hkey hs hel1 hr hc ht
  refine ⟨{ lb with
      cache := (lb.cache.Find key).1
      rls_channel := some { ch with throttle := (ch.throttle.ShouldThrottle now u).2 } },
    rfl, ?_, ?_⟩
  · intro target w hd hw
    rw [h, hd]
    simp only [hw, Option.map_some']
  · intro hd
    rw [h, hd]
    simp only [Option.map_some']

/-- C5 at an empty cache, a throttle that throttles and the default target `dflt`. -/
theorem pick_throttled_uses_default_or_fails_witness :
    ∃ lb1, lb1.request_map = (exLb [] [] exThrottling).request_map ∧
      (∀ target w, exPickerDefault.default_child_policy = some target →
        umFind (exLb [] [] exThrottling).child_policy_map target = some w →
        Picker.Pick exPickerDefault (exLb [] [] exThrottling) exArgs 100 0 =
          some (lb1, ⟨w.Pick exArgs, exArgs.initial_metadata⟩)) ∧
      (exPickerDefault.default_child_policy = none →
        Picker.Pick exPickerDefault (exLb [] [] exThrottling) exArgs 100 0 =
          some (lb1, ⟨PickResult.Fail (UnavailableError "RLS request throttled"),
            exArgs.initial_metadata⟩)) :=
  pick_throttled_uses_default_or_fails exPickerDefault (exLb [] [] exThrottling) exArgs 100 0
    exKey (exChannel exThrottling) (by decide!) rfl (by decide!) (Or.inl (by decide!))
    (fun e he => by simp [exLb, umFind] at he) rfl (by decide!)

/-! ## C6: a pick on a stale entry -/

/-- C6: for an entry with `stale_time < now ≤ data_expiration_time` that is not
in backoff (`backoff_time < now`), with no pending request for its key and the
throttle not throttling, the pick returns what `Entry::Pick` returns (it is not
queued), and `request_map` gains one request for the key, with reason STALE and
`stale_header_data` equal to the entry's `header_data`. -/
theorem pick_stale_delegates_and_refreshes (p : Picker) (lb : RlsLb) (args : PickArgs)
    (now : Timestamp) (u : ℚ) (key : RequestKey) (ch : RlsChannel) (e : Entry)
    (hkey : key = ⟨BuildKeyMap p.config.key_builder_map args.path lb.server_name
      args.initial_metadata⟩)
    (hs : lb.is_shutdown = false)
    (he : umFind lb.cache.map key = some e)
    (hstale : e.stale_time < now) (hdata : now ≤ e.data_expiration_time)
    (hback : e.backoff_time < now)
    (hr : umFind lb.request_map key = none)
    (hc : lb.rls_channel = some ch)
    (_ht : (ch.throttle.ShouldThrottle now u).1 = false) :
    ∃ lb1,
      lb1.request_map =
        (key, ⟨key, ch.id, e.backoff_state, Reason.REASON_STALE, e.header_data⟩) ::
          lb.request_map ∧
      Picker.Pick p lb args now u =
        (Entry.Pick lb.child_policy_map e args).map (fun out => (lb1, out)) :=
  ⟨_, rfl, pick_stale_aux p lb args now u key ch e hkey hs he hstale hdata hback hr hc⟩

/-- C6 at `exEntryData` at time 40000: the pick is delegated to `t1` (`t2` is in
TRANSIENT_FAILURE) with the header data added, and a STALE request is started. -/
theorem pick_stale_delegates_and_refreshes_witness :
    Entry.Pick (exLb [(exKey, exEntryData)] [] Throttle.new).child_policy_map exEntryData exArgs =
        some ⟨PickResult.Complete 1, [("X-Google-RLS-Data", "hd")]⟩ ∧
    ∃ lb1,
      lb1.request_map =
        (exKey, ⟨exKey, (exChannel Throttle.new).id, exEntryData.backoff_state,
            Reason.REASON_STALE, exEntryData.header_data⟩) ::
          (exLb [(exKey, exEntryData)] [] Throttle.new).request_map ∧
      Picker.Pick exPicker (exLb [(exKey, exEntryData)] [] Throttle.new) exArgs 40000 0 =
        (Entry.Pick (exLb [(exKey, exEntryData)] [] Throttle.new).child_policy_map
          exEntryData exArgs).map (fun out => (lb1, out)) :=
  ⟨by decide!,
   pick_stale_delegates_and_refreshes exPicker (exLb [(exKey, exEntryData)] [] Throttle.new)
    exArgs 40000 0 exKey (exChannel Throttle.new) exEntryData (by decide!) rfl (by decide!)
    (by decide!) (by decide!) (by decide!) (by decide!) rfl (by decide!)⟩

/-! ## C7: a pick whose path no key builder matches -/

theorem BuildKeyMap_no_key_builder (key_builder_map : List (String × KeyBuilder))
    (path host : String) (initial_metadata : Metadata)
    (h : findKeyBuilder key_builder_map path = none) :
    BuildKeyMap key_builder_map path host initial_metadata = [] := by
  simp [BuildKeyMap, h]

/-- C7, as stated, fails: for the path `/other.S/M`, which no key builder
matches, on a policy with no default target, an empty cache and no pending
request, the pick is queued (it does not fail), and it starts an RLS request
for the empty key. -/
theorem pick_without_key_builder_counterexample :
    findKeyBuilder exPicker.config.key_builder_map exArgsOther.path = none ∧
    exPicker.default_child_policy = none ∧
    (Picker.Pick exPicker (exLb [] [] Throttle.new) exArgsOther 100 0).map
        (fun r => (r.2.result, r.1.request_map)) =
      some (PickResult.Queue, [(⟨[]⟩, ⟨⟨[]⟩, 0, none, Reason.REASON_MISS, ""⟩)]) := by
  decide!

/-- C7, amended: when no key builder matches the pick's path (neither the exact
path nor its prefix through the last `/`), the built key is empty, and the pick
handles the empty key like any other key: on a policy that is not shut down,
with no cache entry and no pending request for the empty key and the throttle
not throttling, it starts an RLS request for the empty key (reason MISS) and is
queued, whether or not the picker has a default target. -/
theorem pick_without_key_builder_uses_empty_key (p : Picker) (lb : RlsLb) (args : PickArgs)
    (now : Timestamp) (u : ℚ) (ch : RlsChannel)
    (hkb : findKeyBuilder p.config.key_builder_map args.path = none)
    (hs : lb.is_shutdown = false)
    (he : umFind lb.cache.map ⟨[]⟩ = none)
    (hr : umFind lb.request_map ⟨[]⟩ = none)
    (hc : lb.rls_channel = some ch)
    (ht : (ch.throttle.ShouldThrottle now u).1 = false) :
    BuildKeyMap p.config.key_builder_map args.path lb.server_name args.initial_metadata = [] ∧
    ∃ lb1, Picker.Pick p lb args now u = some (lb1, ⟨PickResult.Queue, args.initial_metadata⟩) ∧
      lb1.request_map = (⟨[]⟩, ⟨⟨[]⟩, ch.id, none, Reason.REASON_MISS, ""⟩) :: lb.request_map := by
  have hk := BuildKeyMap_no_key_builder p.config.key_builder_map args.path lb.server_name
    args.initial_metadata hkb
  exact ⟨hk, _, pick_miss_aux p lb args now u ⟨[]⟩ ch (by rw [hk]) hs he hr hc ht, rfl⟩

/-- C7, amended, at the path `/other.S/M` and a picker with a default target. -/
theorem pick_without_key_builder_uses_empty_key_witness :
    BuildKeyMap exPickerDefault.config.key_builder_map exArgsOther.path
        (exLb [] [] Throttle.new).server_name exArgsOther.initial_metadata = [] ∧
    ∃ lb1, Picker.Pick exPickerDefault (exLb [] [] Throttle.new) exArgsOther 100 0 =
        some (lb1, ⟨PickResult.Queue, exArgsOther.initial_metadata⟩) ∧
      lb1.request_map =
        (⟨[]⟩, ⟨⟨[]⟩, (exChannel Throttle.new).id, none, Reason.REASON_MISS, ""⟩) ::
          (exLb [] [] Throttle.new).request_map :=
  pick_without_key_builder_uses_empty_key exPickerDefault (exLb [] [] Throttle.new) exArgsOther
    100 0 (exChannel Throttle.new) (by decide!) rfl (by decide!) (by decide!) rfl (by decide!)

/-! ## C8: picks around the backoff time -/

theorem pick_expired_retry_aux (p : Picker) (lb : RlsLb) (args : PickArgs) (now : Timestamp)
    (u : ℚ) (key : RequestKey) (ch : RlsChannel) (e : Entry)
    (hkey : key = ⟨BuildKeyMap p.config.key_builder_map args.path lb.server_name
      args.initial_metadata⟩)
    (hs : lb.is_shutdown = false)
    (he : umFind lb.cache.map key = some e)
    (hexp : e.data_expiration_time < now) (hstale : e.stale_time < now)
    (hb : e.backoff_time < now)
    (hr : umFind lb.request_map key = none)
    (hc : lb.rls_channel = some ch)
    (ht : (ch.throttle.ShouldThrottle now u).1 = false) :
    Picker.Pick p lb args now u =
      some ({ lb with
              cache := lb.cache.MarkUsed key
              rls_channel := some { ch with throttle := (ch.throttle.ShouldThrottle now u).2 }
              request_map := (key, ⟨key, ch.id, none, Reason.REASON_MISS, ""⟩) :: lb.request_map },
            ⟨PickResult.Queue, args.initial_metadata⟩) := by
  subst hkey
  have hnd : ¬ now ≤ e.data_expiration_time := not_le.mpr hexp
  have hnb : ¬ now ≤ e.backoff_time := not_le.mpr hb
  simp [Picker.Pick, hs, Cache.Find, he, hr, hc, ht, hstale, hb, hexp, hnd, hnb,
    RlsChannel.StartRlsCall, umEmplace, Picker.pickFromEntry]

/-- C8, as stated, fails at `now = backoff_time`: for an entry with expired
data whose lookup failed and whose `backoff_time` is 1000, with no pending
request, no default target and a throttle that does not throttle, the pick at
time 1000 still fails with Unavailable("RLS request failed: ...") and starts no
request. -/
theorem pick_at_backoff_time_counterexample :
    exEntryFailed.backoff_time = 1000 ∧
    (Throttle.new.ShouldThrottle 1000 0).1 = false ∧
    (Picker.Pick exPicker (exLb [(exKey, exEntryFailed)] [] Throttle.new) exArgs 1000 0).map
        (fun r => (r.2.result, r.1.request_map)) =
      some (PickResult.Fail (UnavailableError "RLS request failed: UNAVAILABLE: down"), []) := by
  decide!

/-- C8, amended: for an entry whose data has expired (`data_expiration_time <
now`, with `stale_time ≤ data_expiration_time` as for every entry the policy
writes), with no pending request, no default target and the throttle not
throttling: a pick at a time `now ≤ backoff_time` fails with
Unavailable("RLS request failed: " + status) and starts no request, while a
pick at a time `now > backoff_time` starts a fresh RLS request (reason MISS, no
backoff state carried) and is queued. -/
theorem pick_backoff_boundary (p : Picker) (lb : RlsLb) (args : PickArgs)
    (now : Timestamp) (u : ℚ) (key : RequestKey) (ch : RlsChannel) (e : Entry)
    (hkey : key = ⟨BuildKeyMap p.config.key_builder_map args.path lb.server_name
      args.initial_metadata⟩)
    (hs : lb.is_shutdown = false)
    (he : umFind lb.cache.map key = some e)
    (hexp : e.data_expiration_time < now)
    (hst : e.stale_time ≤ e.data_expiration_time)
    (hr : umFind lb.request_map key = none)
    (hd : p.default_child_policy = none)
    (hc : lb.rls_channel = some ch)
    (ht : (ch.throttle.ShouldThrottle now u).1 = false) :
    (now ≤ e.backoff_time →
      ∃ lb1, Picker.Pick p lb args now u =
          some (lb1, ⟨PickResult.Fail
            (UnavailableError ("RLS request failed: " ++ e.status.ToString)),
            args.initial_metadata⟩) ∧
        lb1.request_map = lb.request_map) ∧
    (e.backoff_time < now →
      ∃ lb1, Picker.Pick p lb args now u =
          some (lb1, ⟨PickResult.Queue, args.initial_metadata⟩) ∧
        lb1.request_map =
          (key, ⟨key, ch.id, none, Reason.REASON_MISS, ""⟩) :: lb.request_map) := by
  have hnd : ¬ now ≤ e.data_expiration_time := not_le.mpr hexp
  refine ⟨?_, ?_⟩
  · intro hb
    refine ⟨{ lb with cache := lb.cache.MarkUsed key }, ?_, rfl⟩
    rw [pick_backoff_aux p lb args now u key e hkey hs he hb]
    simp [Picker.pickFromEntry, hnd, hb, hd]
  · intro hb
    exact ⟨_, pick_expired_retry_aux p lb args now u key ch e hkey hs he hexp
      (lt_of_le_of_lt hst hexp) hb hr hc ht, rfl⟩

/-- C8, amended, at `exEntryFailed` one millisecond after its backoff time. -/
theorem pick_backoff_boundary_witness :
    (1001 ≤ exEntryFailed.backoff_time →
      ∃ lb1, Picker.Pick exPicker (exLb [(exKey, exEntryFailed)] [] Throttle.new) exArgs 1001 0 =
          some (lb1, ⟨PickResult.Fail
            (UnavailableError ("RLS request failed: " ++ exEntryFailed.status.ToString)),
            exArgs.initial_metadata⟩) ∧
        lb1.request_map = (exLb [(exKey, exEntryFailed)] [] Throttle.new).request_map) ∧
    (exEntryFailed.backoff_time < 1001 →
      ∃ lb1, Picker.Pick exPicker (exLb [(exKey, exEntryFailed)] [] Throttle.new) exArgs 1001 0 =
          some (lb1, ⟨PickResult.Queue, exArgs.initial_metadata⟩) ∧
        lb1.request_map =
          (exKey, ⟨exKey, (exChannel Throttle.new).id, none, Reason.REASON_MISS, ""⟩) ::
            (exLb [(exKey, exEntryFailed)] [] Throttle.new).request_map) :=
  pick_backoff_boundary exPicker (exLb [(exKey, exEntryFailed)] [] Throttle.new) exArgs 1001 0
    exKey (exChannel Throttle.new) exEntryFailed (by decide!) rfl (by decide!) (by decide!)
    (by decide!) (by decide!) rfl rfl (by decide!)

/-! ## C9: the pick of an entry -/

/-- A string without NUL character is copied whole. -/
theorem strcpy_of_no_nul (s : String) (h : Char.ofNat 0 ∉ s.data) : strcpy s = s := by
  unfold strcpy
  have : s.data.takeWhile (fun c => decide (c ≠ Char.ofNat 0)) = s.data := by
    rw [List.takeWhile_eq_self_iff]
    intro c hc
    simp only [ne_eq, decide_not, Bool.not_eq_true', decide_eq_false_iff_not]
    intro h0
    exact h (h0 ▸ hc)
  rw [this]

/-- For an entry with a non-empty wrapper list (`ws`, the wrappers its targets
name in `child_policy_map`), `Entry::Pick` delegates to the first wrapper in
list order whose connectivity state is not TRANSIENT_FAILURE, or to the last
wrapper when all are in TRANSIENT_FAILURE; the arguments the wrapper is given,
and the metadata the caller sees afterwards, have a value added under
`X-Google-RLS-Data` exactly when `header_data` is non-empty, and are the
original ones otherwise; the value added is `header_data` up to its first NUL
character. -/
theorem entry_pick_first_usable_wrapper (child_policy_map : List (String × ChildPolicyWrapper))
    (e : Entry) (args : PickArgs) (ws : List ChildPolicyWrapper) (hne : ws ≠ [])
    (hws : e.child_policy_wrappers.map (umFind child_policy_map) = ws.map some) :
    Entry.Pick child_policy_map e args =
      some ⟨((ws.find? (fun w =>
          decide (w.connectivity_state ≠ GRPC_CHANNEL_TRANSIENT_FAILURE))).getD
            (ws.getLast hne)).picker
          ⟨args.path,
            if e.header_data = "" then args.initial_metadata
            else args.initial_metadata ++ [("X-Google-RLS-Data", strcpy e.header_data)]⟩,
        if e.header_data = "" then args.initial_metadata
        else args.initial_metadata ++ [("X-Google-RLS-Data", strcpy e.header_data)]⟩ := by
  unfold Entry.Pick
  rw [pickLoop_spec child_policy_map e.child_policy_wrappers ws hne hws]
  by_cases hh : e.header_data = ""
  · simp [hh, ChildPolicyWrapper.Pick]
  · simp [hh, ChildPolicyWrapper.Pick, Metadata.Add, kRlsHeaderKey]

/-- The pick of `exEntryData`, whose wrappers are `t2` (TRANSIENT_FAILURE) and
`t1` (READY) and whose header data `hd` holds no NUL: `t1` is delegated to and
`hd` is added whole. -/
theorem entry_pick_first_usable_wrapper_example :
    Entry.Pick (exLb [] [] Throttle.new).child_policy_map exEntryData exArgs =
      some ⟨(exWrapper "t1" GRPC_CHANNEL_READY 1).picker
          ⟨exArgs.path, [("X-Google-RLS-Data", "hd")]⟩,
        [("X-Google-RLS-Data", "hd")]⟩ := by
  rw [entry_pick_first_usable_wrapper (exLb [] [] Throttle.new).child_policy_map exEntryData
    exArgs [exWrapper "t2" GRPC_CHANNEL_TRANSIENT_FAILURE 2, exWrapper "t1" GRPC_CHANNEL_READY 1]
    (by simp) (by simp [exLb, exEntryData, umFind])]
  rfl

/-- **C9.** Failing input: header data with a NUL character.  A lookup started
by a pick at 1000 completes at 2000 with the target `t1` and the header data
`ab`, NUL, `cd`; the entry stores the five characters, and the pick at 2500,
answered by the entry, adds the value `ab` under `X-Google-RLS-Data`, not the
header data of the entry.  For the header data NUL, `cd`, which is not empty,
the empty value is added.  The wrapper delegated to is `t1` in both cases, the
only wrapper of the first entry and the first wrapper of `exEntryData` that is
not in TRANSIENT_FAILURE. -/
theorem entry_pick_cuts_header_data_at_nul :
    (RlsLb.run exLayout (exLb [] [] Throttle.new)
        [.pick exPicker exArgs 1000 (1/2),
         .complete exKey (exResultTargets ["t1"] "ab\x00cd") 2000 0]).bind
      (fun lb => (umFind lb.cache.map exKey).map (fun e =>
        (e.header_data, e.header_data.length, e.child_policy_wrappers))) =
      some ("ab\x00cd", 5, ["t1"]) ∧
    (RlsLb.run exLayout (exLb [] [] Throttle.new)
        [.pick exPicker exArgs 1000 (1/2),
         .complete exKey (exResultTargets ["t1"] "ab\x00cd") 2000 0]).bind
      (fun lb => (Picker.Pick exPicker lb exArgs 2500 (1/2)).map (fun r =>
        (r.2.result, r.2.initial_metadata))) =
      some (PickResult.Complete 1, [("X-Google-RLS-Data", "ab")]) ∧
    (Entry.Pick (exLb [] [] Throttle.new).child_policy_map
        { exEntryData with header_data := "\x00cd" } exArgs).map
      (fun out => (out.result, out.initial_metadata)) =
      some (PickResult.Complete 1, [("X-Google-RLS-Data", "")]) := by
  decide!

/-! ## C11: find_or_insert of a new key -/

theorem FindOrInsert_absent_aux (L : Layout) (now : Timestamp) (c : Cache) (key : RequestKey)
    (h : Cache.Inv L c) (habs : umFind c.map key = none) :
    ∃ n c1, Cache.FindOrInsert L now c key = some (c1, Entry.new now) ∧
      c1.size_limit = c.size_limit ∧
      n ≤ c.lru_list.length ∧
      Cache.evictionStops L now
        (c.size_limit - min c.size_limit (Cache.EntrySizeForKey L key)) c n ∧
      (∀ m, m < n → ¬ Cache.evictionStops L now
        (c.size_limit - min c.size_limit (Cache.EntrySizeForKey L key)) c m) ∧
      (∀ k ∈ c.lru_list.take n, ∃ e, umFind c.map k = some e ∧ e.min_expiration_time < now) ∧
      c1.lru_list = c.lru_list.drop n ++ [key] ∧
      c1.map = (key, Entry.new now) ::
        c.map.filter (fun p => decide (p.1 ∉ c.lru_list.take n)) ∧
      c1.size + ((c.lru_list.take n).map (Cache.EntrySizeForKey L)).sum =
        c.size + Cache.EntrySizeForKey L key := by
  obtain ⟨n, c1, h1, -, h3, h4, h5, h6, h7, h8, h9, h10⟩ :=
    shrinkLoop_spec L now (c.size_limit - min c.size_limit (Cache.EntrySizeForKey L key)) _ c h
      (Nat.lt_succ_self _)
  have hnone : umFind c1.map key = none := by
    rw [h6, umFind_filter_keys]
    split
    · rfl
    · exact habs
  have hprot : ∀ key e, umFind c.map key = some e → now ≤ e.min_expiration_time →
      key ∉ c.lru_list.take n := by
    intro key e he hle hmem
    obtain ⟨e1, he1, hlt⟩ := h8 key hmem
    rw [he] at he1
    cases he1
    exact absurd hlt (not_lt.mpr hle)
  refine ⟨n, { c1 with
      lru_list := c1.lru_list ++ [key]
      map := umEmplace c1.map key (Entry.new now)
      size := c1.size + Cache.EntrySizeForKey L key }, ?_, ?_, h4, ?_, ?_, h8, ?_, ?_, ?_⟩
  · unfold Cache.FindOrInsert
    simp only [habs]
    unfold Cache.MaybeShrinkSize
    rw [h1]
  · simpa using h3
  · rcases h10 with h10 | h10 | ⟨k, e, hk, he, hle⟩
    · exact Or.inl (by omega)
    · exact Or.inr (Or.inl (h5 ▸ h10))
    · exact Or.inr (Or.inr ⟨k, e, h5 ▸ hk, he, hle⟩)
  · intro m hm hstop
    rcases hstop with hs | hs | ⟨k, e, hk, he, hle⟩
    · have := h9 m hm
      omega
    · rw [List.drop_eq_nil_iff] at hs
      omega
    · apply hprot k e he hle
      rw [List.head?_drop] at hk
      have : (c.lru_list.take n)[m]? = some k := by
        rw [List.getElem?_take_of_lt hm]; exact hk
      exact List.getElem?_mem this
  · simp [h5]
  · show umEmplace c1.map key (Entry.new now) = _
    rw [umFind_umEmplace_same _ hnone, h6]
  · simp only
    omega
theorem lru_scenario_aux (L : Layout) (k1 k2 k3 k4 : RequestKey) (t0 resize_time : Timestamp)
    (h12 : k1 ≠ k2) (h13 : k1 ≠ k3) (h14 : k1 ≠ k4) (h23 : k2 ≠ k3) (h24 : k2 ≠ k4)
    (h34 : k3 ≠ k4)
    (s1 : Cache.EntrySizeForKey L k1 = 100) (s2 : Cache.EntrySizeForKey L k2 = 100)
    (s3 : Cache.EntrySizeForKey L k3 = 100) (s4 : Cache.EntrySizeForKey L k4 = 100) :
    Cache.run L Cache.empty
        [CacheOp.resize 200 resize_time, CacheOp.find_or_insert k1 t0,
         CacheOp.find_or_insert k2 (t0 + 1000), CacheOp.find_or_insert k3 (t0 + 2000)] =
      some ⟨200, 300, [k1, k2, k3],
        [(k3, Entry.new (t0 + 2000)), (k2, Entry.new (t0 + 1000)), (k1, Entry.new t0)]⟩ ∧
    Cache.FindOrInsert L (t0 + 6000)
        ⟨200, 300, [k1, k2, k3],
          [(k3, Entry.new (t0 + 2000)), (k2, Entry.new (t0 + 1000)), (k1, Entry.new t0)]⟩ k4 =
      some (⟨200, 300, [k2, k3, k4],
        [(k4, Entry.new (t0 + 6000)), (k3, Entry.new (t0 + 2000)),
         (k2, Entry.new (t0 + 1000))]⟩, Entry.new (t0 + 6000)) := by
  have e3 : ¬ (t0 + 1000 + 5000 < t0 + 6000) := by
    intro h
    linarith
  constructor
  · simp [Cache.run, Cache.step, Cache.Resize, Cache.MaybeShrinkSize, Cache.shrinkLoop,
      Cache.empty, Cache.FindOrInsert, umFind, umEmplace, s1, s2, s3, h12, h13, h23,
      h12.symm, h13.symm, h23.symm, Entry.CanEvict, Entry.new, kMinExpirationTime]
  · simp [Cache.MaybeShrinkSize, Cache.shrinkLoop, Cache.eraseEntry, umErase,
      Cache.FindOrInsert, umFind, umEmplace, s1, s2, s3, s4, h12, h13, h23, h14, h24, h34,
      h12.symm, h13.symm, h23.symm, h14.symm, h24.symm, h34.symm, Entry.CanEvict, Entry.new,
      kMinExpirationTime, e3]
/-- C11: on a cache that satisfies the invariant, `find_or_insert` of a key
that is not in the cache, at time `now`, returns; it first removes the least
number `n` of keys from the head of the LRU list after which the size is at
most `size_limit - min(size_limit, new entry size)`, or the list is empty, or
the head entry has `now ≤ min_expiration_time` (so every removed entry has
`min_expiration_time < now`); then the new entry, with `min_expiration_time =
now + 5s`, is at the most-recently-used end, and the size has grown by its
entry size.  In particular, with `size_limit` 200 and entries of size 100
inserted at `t0`, `t0 + 1s` and `t0 + 2s`, the cache holds all three (size 300),
and inserting a fourth at `t0 + 6s` removes entry 1 only. -/
theorem find_or_insert_evicts_then_appends (L : Layout) (now : Timestamp) (c : Cache)
    (key : RequestKey) (h : Cache.Inv L c) (habs : umFind c.map key = none) :
    (∃ n c1, Cache.FindOrInsert L now c key = some (c1, Entry.new now) ∧
      (Entry.new now).min_expiration_time = now + 5000 ∧
      c1.size_limit = c.size_limit ∧
      n ≤ c.lru_list.length ∧
      Cache.evictionStops L now
        (c.size_limit - min c.size_limit (Cache.EntrySizeForKey L key)) c n ∧
      (∀ m, m < n → ¬ Cache.evictionStops L now
        (c.size_limit - min c.size_limit (Cache.EntrySizeForKey L key)) c m) ∧
      (∀ k ∈ c.lru_list.take n, ∃ e, umFind c.map k = some e ∧ e.min_expiration_time < now) ∧
      c1.lru_list = c.lru_list.drop n ++ [key] ∧
      c1.map = (key, Entry.new now) ::
        c.map.filter (fun p => decide (p.1 ∉ c.lru_list.take n)) ∧
      c1.size + ((c.lru_list.take n).map (Cache.EntrySizeForKey L)).sum =
        c.size + Cache.EntrySizeForKey L key) ∧
    (∀ (k1 k2 k3 k4 : RequestKey) (t0 resize_time : Timestamp),
      k1 ≠ k2 → k1 ≠ k3 → k1 ≠ k4 → k2 ≠ k3 → k2 ≠ k4 → k3 ≠ k4 →
      Cache.EntrySizeForKey L k1 = 100 → Cache.EntrySizeForKey L k2 = 100 →
      Cache.EntrySizeForKey L k3 = 100 → Cache.EntrySizeForKey L k4 = 100 →
      Cache.run L Cache.empty
          [CacheOp.resize 200 resize_time, CacheOp.find_or_insert k1 t0,
           CacheOp.find_or_insert k2 (t0 + 1000), CacheOp.find_or_insert k3 (t0 + 2000)] =
        some ⟨200, 300, [k1, k2, k3],
          [(k3, Entry.new (t0 + 2000)), (k2, Entry.new (t0 + 1000)), (k1, Entry.new t0)]⟩ ∧
      Cache.FindOrInsert L (t0 + 6000)
          ⟨200, 300, [k1, k2, k3],
            [(k3, Entry.new (t0 + 2000)), (k2, Entry.new (t0 + 1000)), (k1, Entry.new t0)]⟩ k4 =
        some (⟨200, 300, [k2, k3, k4],
          [(k4, Entry.new (t0 + 6000)), (k3, Entry.new (t0 + 2000)),
           (k2, Entry.new (t0 + 1000))]⟩, Entry.new (t0 + 6000))) := by
  refine ⟨?_, ?_⟩
  · obtain ⟨n, c1, h1, h2, h3, h4, h5, h6, h7, h8, h9⟩ :=
      FindOrInsert_absent_aux L now c key h habs
    exact ⟨n, c1, h1, rfl, h2, h3, h4, h5, h6, h7, h8, h9⟩
  · intro k1 k2 k3 k4 t0 resize_time h12 h13 h14 h23 h24 h34 s1 s2 s3 s4
    exact lru_scenario_aux L k1 k2 k3 k4 t0 resize_time h12 h13 h14 h23 h24 h34 s1 s2 s3 s4

/-- C11 at the fifth end-to-end scenario: the fourth key is inserted at time
6000 into the cache that holds the entries created at 0, 1000 and 2000. -/
theorem find_or_insert_evicts_then_appends_witness :
    Cache.Inv exLayout100 exCacheThree ∧ umFind exCacheThree.map exKey4 = none ∧
    Cache.FindOrInsert exLayout100 (0 + 6000)
        ⟨200, 300, [exKey1, exKey2, exKey3],
          [(exKey3, Entry.new (0 + 2000)), (exKey2, Entry.new (0 + 1000)),
           (exKey1, Entry.new 0)]⟩ exKey4 =
      some (⟨200, 300, [exKey2, exKey3, exKey4],
        [(exKey4, Entry.new (0 + 6000)), (exKey3, Entry.new (0 + 2000)),
         (exKey2, Entry.new (0 + 1000))]⟩, Entry.new (0 + 6000)) :=
  ⟨Inv_of_run exLayout100
      [CacheOp.resize 200 0, CacheOp.find_or_insert exKey1 0,
       CacheOp.find_or_insert exKey2 1000, CacheOp.find_or_insert exKey3 2000] exCacheThree
      (by decide!) (by decide!),
   by decide!,
   ((find_or_insert_evicts_then_appends exLayout100 6000 exCacheThree exKey4
      (Inv_of_run exLayout100
        [CacheOp.resize 200 0, CacheOp.find_or_insert exKey1 0,
         CacheOp.find_or_insert exKey2 1000, CacheOp.find_or_insert exKey3 2000] exCacheThree
        (by decide!) (by decide!))
      (by decide!)).2 exKey1 exKey2 exKey3 exKey4 0 0 (by decide) (by decide) (by decide)
      (by decide) (by decide) (by decide) (by decide) (by decide) (by decide) (by decide)).2⟩

/-! ## C14: a response with no targets -/

theorem FindOrInsert_entry (L : Layout) (now : Timestamp) (c : Cache) (key : RequestKey)
    (h : Cache.Inv L c) :
    ∃ c1, Cache.FindOrInsert L now c key =
        some (c1, (umFind c.map key).getD (Entry.new now)) ∧
      umFind c1.map key = some ((umFind c.map key).getD (Entry.new now)) ∧
      Cache.Inv L c1 := by
  cases hf : umFind c.map key with
  | some e =>
    refine ⟨c.MarkUsed key, ?_, ?_, ?_⟩
    · simp [Cache.FindOrInsert, hf]
    · simpa [Cache.MarkUsed] using hf
    · exact Inv_MarkUsed h ((h.lru_mem key).2 (umFind_some_mem_keys hf))
  | none =>
    obtain ⟨n, c1, h1, -, -, -, -, -, -, h8, -⟩ := FindOrInsert_absent_aux L now c key h hf
    obtain ⟨r, hr, hinv⟩ := FindOrInsert_Inv L now h key
    rw [h1] at hr
    cases hr
    refine ⟨c1, by simpa using h1, ?_, hinv⟩
    rw [h8]
    simp [umFind]

theorem responseInfo_no_targets (result : RlsCallResult) (header_data : String)
    (herr : result.error.ok = true) (hst : result.status_recv = StatusCode.kOk)
    (hmsg : result.recv_message = some ⟨[], header_data⟩) :
    RlsRequest.responseInfo result =
      ⟨InvalidArgumentError "RLS response has no target entry", [], ""⟩ := by
  simp [RlsRequest.responseInfo, herr, hst, hmsg, RlsRequest.ParseResponseProto]

/-- What `OnRlsCallCompleteLocked` does with a failed response, on a policy
that is not shut down whose channel is the request's channel and whose cache
satisfies the invariant. -/
theorem OnRlsCallCompleteLocked_failure (L : Layout) (req : RlsRequest) (lb : RlsLb)
    (result : RlsCallResult) (now : Timestamp) (jitter : Duration) (ch : RlsChannel)
    (hs : lb.is_shutdown = false) (hinv : Cache.Inv L lb.cache)
    (hfail : (RlsRequest.responseInfo result).status.ok = false)
    (hc : lb.rls_channel = some ch) (hid : ch.id = req.rls_channel) :
    ∃ lb1, RlsRequest.OnRlsCallCompleteLocked L req lb result now jitter = some lb1 ∧
      lb1.rls_channel = some { ch with throttle := ch.throttle.RegisterResponse now false } ∧
      lb1.request_map = umErase lb.request_map req.key ∧
      umFind lb1.cache.map req.key =
        some { (umFind lb.cache.map req.key).getD (Entry.new now) with
          status := (RlsRequest.responseInfo result).status
          backoff_state := some
            ((req.backoff_state.getD MakeCacheEntryBackoff).NextAttemptTime now jitter).2
          backoff_time :=
            ((req.backoff_state.getD MakeCacheEntryBackoff).NextAttemptTime now jitter).1
          backoff_expiration_time := now +
            (((req.backoff_state.getD MakeCacheEntryBackoff).NextAttemptTime now jitter).1
              - now) * 2
          backoff_timer := some ⟨true,
            ((req.backoff_state.getD MakeCacheEntryBackoff).NextAttemptTime now jitter).1⟩ } := by
  obtain ⟨c1, h1, h2, -⟩ := FindOrInsert_entry L now lb.cache req.key hinv
  have hrep : req.reportResponse lb now false =
      { lb with
        rls_channel := some { ch with throttle := ch.throttle.RegisterResponse now false } } := by
    simp [RlsRequest.reportResponse, hc, hid]
  have hkeys : req.key ∈ (c1.MarkUsed req.key).map.map Prod.fst := by
    simpa [Cache.MarkUsed] using umFind_some_mem_keys h2
  have hbs : (match req.backoff_state with
      | some b => b
      | none => MakeCacheEntryBackoff) = req.backoff_state.getD MakeCacheEntryBackoff := by
    cases req.backoff_state <;> rfl
  unfold RlsRequest.OnRlsCallCompleteLocked
  simp only [hs, hfail, hrep, h1, Bool.false_eq_true, if_false]
  unfold Entry.OnRlsResponseLocked
  simp only [h2, hfail, hbs, Bool.not_false, if_true]
  refine ⟨_, rfl, ?_, ?_, ?_⟩
  · rfl
  · rfl
  · simp only
    rw [umFind_umSet_same _ hkeys]
/-- **C14.** A lookup call that completes without error, with status OK and a
response message that parses and lists no targets, is handled as a failure
with status InvalidArgument "RLS response has no target entry": on a policy
that is not shut down (cache invariant holding, the request's channel still
the policy's channel) the completion returns, the throttle records a failed
request at `now`, and the entry under the key (the one found, or the one just
created) gets that status, the next attempt time of the backoff state (the
one the request carries, else a new one) as its backoff time, twice that delay
as backoff expiration, an armed backoff timer, while its targets, header data,
data expiration time and stale time are the ones it had. -/
theorem no_target_response_is_failure (L : Layout) (req : RlsRequest) (lb : RlsLb)
    (result : RlsCallResult) (now : Timestamp) (jitter : Duration) (ch : RlsChannel)
    (header_data : String)
    (hs : lb.is_shutdown = false) (hinv : Cache.Inv L lb.cache)
    (herr : result.error.ok = true) (hst : result.status_recv = StatusCode.kOk)
    (hmsg : result.recv_message = some ⟨[], header_data⟩)
    (hc : lb.rls_channel = some ch) (hid : ch.id = req.rls_channel) :
    RlsRequest.responseInfo result =
      ⟨InvalidArgumentError "RLS response has no target entry", [], ""⟩ ∧
    ∃ lb1 e1, RlsRequest.OnRlsCallCompleteLocked L req lb result now jitter = some lb1 ∧
      lb1.rls_channel = some { ch with throttle :=
        { ch.throttle with requests := ch.throttle.requests ++ [now]
                           failures := ch.throttle.failures ++ [now] } } ∧
      umFind lb1.cache.map req.key = some e1 ∧
      e1.status = InvalidArgumentError "RLS response has no target entry" ∧
      e1.status.ok = false ∧
      e1.backoff_time =
        ((req.backoff_state.getD MakeCacheEntryBackoff).NextAttemptTime now jitter).1 ∧
      e1.backoff_expiration_time = now + (e1.backoff_time - now) * 2 ∧
      e1.backoff_timer = some ⟨true, e1.backoff_time⟩ ∧
      e1.child_policy_wrappers =
        ((umFind lb.cache.map req.key).getD (Entry.new now)).child_policy_wrappers ∧
      e1.header_data = ((umFind lb.cache.map req.key).getD (Entry.new now)).header_data ∧
      e1.data_expiration_time =
        ((umFind lb.cache.map req.key).getD (Entry.new now)).data_expiration_time ∧
      e1.stale_time = ((umFind lb.cache.map req.key).getD (Entry.new now)).stale_time := by
  have hri := responseInfo_no_targets result header_data herr hst hmsg
  have hfail : (RlsRequest.responseInfo result).status.ok = false := by
    rw [hri]; rfl
  obtain ⟨lb1, h1, h2, -, h5⟩ :=
    OnRlsCallCompleteLocked_failure L req lb result now jitter ch hs hinv hfail hc hid
  refine ⟨hri, lb1, _, h1, ?_, h5, ?_, ?_, rfl, rfl, rfl, rfl, rfl, rfl, rfl⟩
  · rw [h2]; rfl
  · simp only [hri]
  · simp only [hri]; rfl

/-- Witness for **C14**: the stale entry of `exKey` (targets `t2`, `t1`, data
valid until 60000) and a response without targets at 40000. -/
theorem no_target_response_is_failure_witness :
    RlsRequest.responseInfo exResultNoTargets =
      ⟨InvalidArgumentError "RLS response has no target entry", [], ""⟩ ∧
    ∃ lb1 e1, RlsRequest.OnRlsCallCompleteLocked exLayout (exRequestStale none)
        (exLb [(exKey, exEntryData)] [(exKey, exRequestStale none)] Throttle.new)
        exResultNoTargets 40000 0 = some lb1 ∧
      lb1.rls_channel = some { exChannel Throttle.new with throttle :=
        { (exChannel Throttle.new).throttle with
            requests := (exChannel Throttle.new).throttle.requests ++ [40000]
            failures := (exChannel Throttle.new).throttle.failures ++ [40000] } } ∧
      umFind lb1.cache.map (exRequestStale none).key = some e1 ∧
      e1.status = InvalidArgumentError "RLS response has no target entry" ∧
      e1.status.ok = false ∧
      e1.backoff_time =
        (((exRequestStale none).backoff_state.getD MakeCacheEntryBackoff).NextAttemptTime
          40000 0).1 ∧
      e1.backoff_expiration_time = 40000 + (e1.backoff_time - 40000) * 2 ∧
      e1.backoff_timer = some ⟨true, e1.backoff_time⟩ ∧
      e1.child_policy_wrappers =
        ((umFind (exLb [(exKey, exEntryData)] [(exKey, exRequestStale none)]
          Throttle.new).cache.map (exRequestStale none).key).getD
            (Entry.new 40000)).child_policy_wrappers ∧
      e1.header_data =
        ((umFind (exLb [(exKey, exEntryData)] [(exKey, exRequestStale none)]
          Throttle.new).cache.map (exRequestStale none).key).getD (Entry.new 40000)).header_data ∧
      e1.data_expiration_time =
        ((umFind (exLb [(exKey, exEntryData)] [(exKey, exRequestStale none)]
          Throttle.new).cache.map (exRequestStale none).key).getD
            (Entry.new 40000)).data_expiration_time ∧
      e1.stale_time =
        ((umFind (exLb [(exKey, exEntryData)] [(exKey, exRequestStale none)]
          Throttle.new).cache.map (exRequestStale none).key).getD (Entry.new 40000)).stale_time :=
  no_target_response_is_failure exLayout (exRequestStale none)
    (exLb [(exKey, exEntryData)] [(exKey, exRequestStale none)] Throttle.new)
    exResultNoTargets 40000 0 (exChannel Throttle.new) "new" rfl
    ⟨by decide!, by decide!, by decide!, by simp [exLb]⟩ rfl rfl rfl rfl rfl

/-! ## C12: backoff delays of successive failures -/

/-- **C12.** Failing input: lookups for one key that keep failing.
With no entry at first, the lookup started by the pick at 0 fails at 100 and
the entry gets the delay 1000; the pick at 2000 starts a request with reason
MISS that carries no backoff state, and its failure at 2050 gives the delay
1000 again, not 1600.  With an entry holding data (stale from 30000, expired
from 60000), the request of the pick at 40000 (reason STALE) fails at 40100
with delay 1000, that of the pick at 58900 (reason STALE, carrying the
entry's backoff state) fails at 59000 with delay 1600, and that of the pick at
61000 (reason MISS, carrying no state) fails at 61100 with delay 1000: the
delays 1000, 1600, 1000 of one entry are not non-decreasing. -/
theorem backoff_delay_restarts_for_miss_requests :
    (backoffDelayAfter exLayout (exLb [] [] Throttle.new)
        [.pick exPicker exArgs 0 (1/2), .complete exKey exResultDown 100 0] exKey 100
      = some 1000 ∧
     pendingRequestAfter exLayout (exLb [] [] Throttle.new)
        [.pick exPicker exArgs 0 (1/2), .complete exKey exResultDown 100 0,
         .pick exPicker exArgs 2000 (1/2)] exKey
      = some (Reason.REASON_MISS, none) ∧
     backoffDelayAfter exLayout (exLb [] [] Throttle.new)
        [.pick exPicker exArgs 0 (1/2), .complete exKey exResultDown 100 0,
         .pick exPicker exArgs 2000 (1/2), .complete exKey exResultDown 2050 0] exKey 2050
      = some 1000) ∧
    (backoffDelayAfter exLayout (exLb [(exKey, exEntryData)] [] Throttle.new)
        [.pick exPicker exArgs 40000 (1/2), .complete exKey exResultDown 40100 0] exKey 40100
      = some 1000 ∧
     pendingRequestAfter exLayout (exLb [(exKey, exEntryData)] [] Throttle.new)
        [.pick exPicker exArgs 40000 (1/2), .complete exKey exResultDown 40100 0,
         .pick exPicker exArgs 58900 (1/2)] exKey
      = some (Reason.REASON_STALE, some ⟨false, 1000⟩) ∧
     backoffDelayAfter exLayout (exLb [(exKey, exEntryData)] [] Throttle.new)
        [.pick exPicker exArgs 40000 (1/2), .complete exKey exResultDown 40100 0,
         .pick exPicker exArgs 58900 (1/2), .complete exKey exResultDown 59000 0] exKey 59000
      = some 1600 ∧
     pendingRequestAfter exLayout (exLb [(exKey, exEntryData)] [] Throttle.new)
        [.pick exPicker exArgs 40000 (1/2), .complete exKey exResultDown 40100 0,
         .pick exPicker exArgs 58900 (1/2), .complete exKey exResultDown 59000 0,
         .pick exPicker exArgs 61000 (1/2)] exKey
      = some (Reason.REASON_MISS, none) ∧
     backoffDelayAfter exLayout (exLb [(exKey, exEntryData)] [] Throttle.new)
        [.pick exPicker exArgs 40000 (1/2), .complete exKey exResultDown 40100 0,
         .pick exPicker exArgs 58900 (1/2), .complete exKey exResultDown 59000 0,
         .pick exPicker exArgs 61000 (1/2), .complete exKey exResultDown 61100 0] exKey 61100
      = some 1000) := by
  decide!

/-! ## C13: picker refresh after a response -/

/-- **C13.** Failing input: the entry of `exKey` holds the targets `t2`, `t1`
and its data expired at 60000; the wrappers of both targets exist.  The pick at
60500 is queued and starts a lookup; the response at 60600 succeeds with the
targets `t1`, `t2`.  The entry takes the new target list, but
`OnRlsResponseLocked` neither schedules a picker update (`picker_updates`
stays 0) nor returns a wrapper to finish updating, and the whole completion
leaves `picker_updates` at 0. -/
theorem reordered_targets_response_refreshes_no_picker :
    (Picker.Pick exPicker (exLb [(exKey, exEntryData)] [] Throttle.new) exArgs 60500
        (1/2)).map (fun r => (r.2.result, r.1.picker_updates)) = some (PickResult.Queue, 0) ∧
    (RlsLb.run exLayout (exLb [(exKey, exEntryData)] [] Throttle.new)
        [.pick exPicker exArgs 60500 (1/2)]).bind (fun lb1 =>
      (Entry.OnRlsResponseLocked lb1 exKey ⟨OkStatus, ["t1", "t2"], "hd"⟩ none 60600 0).map
        (fun r => (r.1.picker_updates, r.2,
          (umFind r.1.cache.map exKey).map (fun e => e.child_policy_wrappers)))) =
      some (0, [], some ["t1", "t2"]) ∧
    (RlsLb.run exLayout (exLb [(exKey, exEntryData)] [] Throttle.new)
        [.pick exPicker exArgs 60500 (1/2),
         .complete exKey (exResultTargets ["t1", "t2"] "hd") 60600 0]).map
      (fun lb1 => (lb1.picker_updates, lb1.request_map,
        (umFind lb1.cache.map exKey).map (fun e => e.child_policy_wrappers))) =
      some (0, [], some ["t1", "t2"]) := by
  decide!

/-! ## C15: TRANSIENT_FAILURE is kept until READY -/

theorem UpdateState_sticky (w : ChildPolicyWrapper) (state : grpc_connectivity_state)
    (picker : Option (PickArgs → PickResult))
    (htf : w.connectivity_state = GRPC_CHANNEL_TRANSIENT_FAILURE)
    (hst : state ≠ GRPC_CHANNEL_READY) :
    ChildPolicyHelper.UpdateState w state picker = (w, false) := by
  unfold ChildPolicyHelper.UpdateState
  split
  · rfl
  · rw [if_pos ⟨htf, hst⟩]

theorem reports_sticky (w : ChildPolicyWrapper)
    (rs : List (grpc_connectivity_state × Option (PickArgs → PickResult)))
    (htf : w.connectivity_state = GRPC_CHANNEL_TRANSIENT_FAILURE)
    (hrs : ∀ r ∈ rs, r.1 ≠ GRPC_CHANNEL_READY) :
    ChildPolicyHelper.reports w rs = w := by
  induction rs with
  | nil => rfl
  | cons r rs ih =>
    simp only [ChildPolicyHelper.reports]
    rw [UpdateState_sticky w r.1 r.2 htf (hrs r (List.mem_cons_self _ _))]
    exact ih (fun r1 h1 => hrs r1 (List.mem_cons_of_mem _ h1))

/-- **C15.** On a wrapper that is not shut down: a report whose state is not
READY, arriving while `connectivity_state` is TRANSIENT_FAILURE, leaves the
whole wrapper (state and picker included) unchanged, and so does every
sequence of such reports; a READY report arriving in TRANSIENT_FAILURE, and
every report arriving in another state, sets `connectivity_state` to the
reported state (and the picker to the reported picker). -/
theorem transient_failure_kept_until_ready (w : ChildPolicyWrapper)
    (hs : w.is_shutdown = false) :
    (∀ state picker, w.connectivity_state = GRPC_CHANNEL_TRANSIENT_FAILURE →
      state ≠ GRPC_CHANNEL_READY →
      (ChildPolicyHelper.UpdateState w state picker).1 = w) ∧
    (∀ rs, w.connectivity_state = GRPC_CHANNEL_TRANSIENT_FAILURE →
      (∀ r ∈ rs, r.1 ≠ GRPC_CHANNEL_READY) →
      ChildPolicyHelper.reports w rs = w ∧
      (ChildPolicyHelper.reports w rs).connectivity_state = GRPC_CHANNEL_TRANSIENT_FAILURE ∧
      ∀ picker, (ChildPolicyHelper.reports w (rs ++ [(GRPC_CHANNEL_READY, picker)])
        ).connectivity_state = GRPC_CHANNEL_READY) ∧
    (∀ state picker,
      ¬ (w.connectivity_state = GRPC_CHANNEL_TRANSIENT_FAILURE ∧ state ≠ GRPC_CHANNEL_READY) →
      (ChildPolicyHelper.UpdateState w state picker).1.connectivity_state = state ∧
      (ChildPolicyHelper.UpdateState w state picker).1.is_shutdown = false ∧
      ∀ p, picker = some p → (ChildPolicyHelper.UpdateState w state picker).1.picker = p) := by
  refine ⟨?_, ?_, ?_⟩
  · intro state picker htf hst
    rw [UpdateState_sticky w state picker htf hst]
  · intro rs htf hrs
    have h := reports_sticky w rs htf hrs
    refine ⟨h, by rw [h]; exact htf, ?_⟩
    intro picker
    have happ : ∀ (w0 : ChildPolicyWrapper) (l1 l2 :
        List (grpc_connectivity_state × Option (PickArgs → PickResult))),
        ChildPolicyHelper.reports w0 (l1 ++ l2) =
          ChildPolicyHelper.reports (ChildPolicyHelper.reports w0 l1) l2 := by
      intro w0 l1
      induction l1 generalizing w0 with
      | nil => intro l2; rfl
      | cons r l1 ih => intro l2; exact ih _ l2
    rw [happ, h]
    simp [ChildPolicyHelper.reports, ChildPolicyHelper.UpdateState, hs]
  · intro state picker hn
    have hu : ChildPolicyHelper.UpdateState w state picker =
        ({ w with
           connectivity_state := state
           picker := match picker with
                     | some p => p
                     | none => w.picker }, true) := by
      unfold ChildPolicyHelper.UpdateState
      rw [hs, if_neg hn]
      rfl
    rw [hu]
    refine ⟨rfl, hs, ?_⟩
    intro p hp
    rw [hp]

/-- Witness for **C15**: the wrapper of `t2`, in TRANSIENT_FAILURE. -/
theorem transient_failure_kept_until_ready_witness :
    (exWrapper "t2" GRPC_CHANNEL_TRANSIENT_FAILURE 2).is_shutdown = false ∧
    (ChildPolicyHelper.reports (exWrapper "t2" GRPC_CHANNEL_TRANSIENT_FAILURE 2)
      [(GRPC_CHANNEL_CONNECTING, some QueuePicker),
       (GRPC_CHANNEL_IDLE, some QueuePicker)]).connectivity_state =
      GRPC_CHANNEL_TRANSIENT_FAILURE ∧
    (ChildPolicyHelper.reports (exWrapper "t2" GRPC_CHANNEL_TRANSIENT_FAILURE 2)
      ([(GRPC_CHANNEL_CONNECTING, some QueuePicker), (GRPC_CHANNEL_IDLE, some QueuePicker)] ++
        [(GRPC_CHANNEL_READY, some QueuePicker)])).connectivity_state = GRPC_CHANNEL_READY :=
  ⟨rfl,
   ((transient_failure_kept_until_ready (exWrapper "t2" GRPC_CHANNEL_TRANSIENT_FAILURE 2)
      rfl).2.1 [(GRPC_CHANNEL_CONNECTING, some QueuePicker),
        (GRPC_CHANNEL_IDLE, some QueuePicker)] rfl (by decide)).2.1,
   ((transient_failure_kept_until_ready (exWrapper "t2" GRPC_CHANNEL_TRANSIENT_FAILURE 2)
      rfl).2.1 [(GRPC_CHANNEL_CONNECTING, some QueuePicker),
        (GRPC_CHANNEL_IDLE, some QueuePicker)] rfl (by decide)).2.2 (some QueuePicker)⟩

/-! ## C16: the aggregated connectivity state -/

theorem UpdatePickerLocked_loop_spec (m : List (String × ChildPolicyWrapper)) (acc : StateCount)
    (hacc : acc.state ≠ GRPC_CHANNEL_READY) :
    ((∃ p ∈ m, p.2.connectivity_state = GRPC_CHANNEL_READY) →
      (RlsLb.UpdatePickerLocked.loop m acc).state = GRPC_CHANNEL_READY) ∧
    ((∀ p ∈ m, p.2.connectivity_state ≠ GRPC_CHANNEL_READY) →
      (RlsLb.UpdatePickerLocked.loop m acc).state = acc.state ∧
      (RlsLb.UpdatePickerLocked.loop m acc).num_connecting = acc.num_connecting +
        (m.filter (fun p => decide (p.2.connectivity_state = GRPC_CHANNEL_CONNECTING))).length ∧
      (RlsLb.UpdatePickerLocked.loop m acc).num_idle = acc.num_idle +
        (m.filter (fun p => decide (p.2.connectivity_state = GRPC_CHANNEL_IDLE))).length) := by
  induction m generalizing acc with
  | nil => simp [RlsLb.UpdatePickerLocked.loop]
  | cons p rest ih =>
    by_cases hr : p.2.connectivity_state = GRPC_CHANNEL_READY
    · simp [RlsLb.UpdatePickerLocked.loop, hr]
    · by_cases hc : p.2.connectivity_state = GRPC_CHANNEL_CONNECTING
      · have h := ih { acc with num_connecting := acc.num_connecting + 1 } hacc
        simp only [RlsLb.UpdatePickerLocked.loop, hr, hc, if_true, if_false, List.mem_cons,
          exists_eq_or_imp, false_or, forall_eq_or_imp, List.filter_cons, decide_True,
          List.length_cons, reduceCtorEq, decide_False, Bool.false_eq_true, not_false_eq_true,
          true_and, ne_eq]
        refine ⟨h.1, fun hall => ?_⟩
        obtain ⟨h1, h2, h3⟩ := h.2 hall
        exact ⟨h1, by rw [h2]; simp only; omega, h3⟩
      · by_cases hi : p.2.connectivity_state = GRPC_CHANNEL_IDLE
        · have h := ih { acc with num_idle := acc.num_idle + 1 } hacc
          simp only [RlsLb.UpdatePickerLocked.loop, hr, hi, if_true, if_false, List.mem_cons,
            exists_eq_or_imp, false_or, forall_eq_or_imp, List.filter_cons, decide_True,
            List.length_cons, reduceCtorEq, decide_False, Bool.false_eq_true,
            not_false_eq_true, true_and, ne_eq]
          refine ⟨h.1, fun hall => ?_⟩
          obtain ⟨h1, h2, h3⟩ := h.2 hall
          exact ⟨h1, h2, by rw [h3]; simp only; omega⟩
        · have h := ih acc hacc
          simp only [RlsLb.UpdatePickerLocked.loop, hr, hc, hi, if_false, List.mem_cons,
            exists_eq_or_imp, false_or, forall_eq_or_imp, List.filter_cons, decide_False,
            Bool.false_eq_true, not_false_eq_true, true_and, ne_eq]
          exact h

theorem filter_length_pos_iff {α : Type} (l : List α) (q : α → Prop) [DecidablePred q] :
    0 < (l.filter (fun a => decide (q a))).length ↔ ∃ a ∈ l, q a := by
  rw [List.length_pos, ne_eq, List.filter_eq_nil_iff]
  simp

/-- **C16** (counterexample). With no wrapper in `child_policy_map` the policy
publishes IDLE with an OK status, not TRANSIENT_FAILURE. -/
theorem no_children_publishes_idle :
    exLbNoChildren.child_policy_map.length = 0 ∧
    (RlsLb.UpdatePickerLocked exLbNoChildren).map (fun p => (p.state, p.status)) =
      some (GRPC_CHANNEL_IDLE, OkStatus) ∧
    (RlsLb.UpdatePickerLocked exLbNoChildren).map (fun p => (p.state, p.status)) ≠
      some (GRPC_CHANNEL_TRANSIENT_FAILURE, UnavailableError "no children available") := by
  decide

/-- **C16** (amended). With no update in progress, and the policy not shut down
when it has wrappers, `UpdatePickerLocked` publishes: READY if some wrapper is
READY; else CONNECTING if some wrapper is CONNECTING; else IDLE if some wrapper
is IDLE or there is no wrapper at all; else TRANSIENT_FAILURE.  The status is
Unavailable "no children available" exactly when the state is
TRANSIENT_FAILURE, and OK otherwise. -/
theorem published_state_aggregates_wrappers (lb : RlsLb)
    (hu : lb.update_in_progress = false)
    (hs : lb.child_policy_map ≠ [] → lb.is_shutdown = false) :
    ∃ pub, RlsLb.UpdatePickerLocked lb = some pub ∧
      ((∃ p ∈ lb.child_policy_map, p.2.connectivity_state = GRPC_CHANNEL_READY) →
        pub.state = GRPC_CHANNEL_READY) ∧
      ((∀ p ∈ lb.child_policy_map, p.2.connectivity_state ≠ GRPC_CHANNEL_READY) →
        (∃ p ∈ lb.child_policy_map, p.2.connectivity_state = GRPC_CHANNEL_CONNECTING) →
        pub.state = GRPC_CHANNEL_CONNECTING) ∧
      ((∀ p ∈ lb.child_policy_map, p.2.connectivity_state ≠ GRPC_CHANNEL_READY) →
        (∀ p ∈ lb.child_policy_map, p.2.connectivity_state ≠ GRPC_CHANNEL_CONNECTING) →
        ((∃ p ∈ lb.child_policy_map, p.2.connectivity_state = GRPC_CHANNEL_IDLE) ∨
          lb.child_policy_map = []) →
        pub.state = GRPC_CHANNEL_IDLE) ∧
      ((∀ p ∈ lb.child_policy_map, p.2.connectivity_state ≠ GRPC_CHANNEL_READY) →
        (∀ p ∈ lb.child_policy_map, p.2.connectivity_state ≠ GRPC_CHANNEL_CONNECTING) →
        (∀ p ∈ lb.child_policy_map, p.2.connectivity_state ≠ GRPC_CHANNEL_IDLE) →
        lb.child_policy_map ≠ [] →
        pub.state = GRPC_CHANNEL_TRANSIENT_FAILURE) ∧
      (pub.status = UnavailableError "no children available" ↔
        pub.state = GRPC_CHANNEL_TRANSIENT_FAILURE) ∧
      (pub.state ≠ GRPC_CHANNEL_TRANSIENT_FAILURE → pub.status = OkStatus) := by
  have hstatus : ∀ s : grpc_connectivity_state,
      ((if s = GRPC_CHANNEL_TRANSIENT_FAILURE then UnavailableError "no children available"
        else OkStatus) = UnavailableError "no children available" ↔
        s = GRPC_CHANNEL_TRANSIENT_FAILURE) ∧
      (s ≠ GRPC_CHANNEL_TRANSIENT_FAILURE →
        (if s = GRPC_CHANNEL_TRANSIENT_FAILURE then UnavailableError "no children available"
         else OkStatus) = OkStatus) := by
    intro s
    by_cases h : s = GRPC_CHANNEL_TRANSIENT_FAILURE
    · simp [h]
    · simp [h, OkStatus, UnavailableError]
  by_cases hm : lb.child_policy_map = []
  · refine ⟨⟨GRPC_CHANNEL_IDLE, OkStatus,
      lb.config.map (fun config => ⟨config, lb.default_child_policy⟩)⟩, ?_, ?_, ?_, ?_, ?_, ?_, ?_⟩
    · simp [RlsLb.UpdatePickerLocked, hu, hm]
    · simp [hm]
    · simp [hm]
    · simp
    · intro _ _ _ h; exact absurd hm h
    · simp [OkStatus, UnavailableError]
    · simp
  · have hsd := hs hm
    have hloop := UpdatePickerLocked_loop_spec lb.child_policy_map
      ⟨GRPC_CHANNEL_TRANSIENT_FAILURE, 0, 0⟩ (by decide)
    have hne : lb.child_policy_map.isEmpty = false := by
      cases h : lb.child_policy_map with
      | nil => exact absurd h hm
      | cons _ _ => rfl
    by_cases hr : ∃ p ∈ lb.child_policy_map, p.2.connectivity_state = GRPC_CHANNEL_READY
    · have h1 := hloop.1 hr
      refine ⟨⟨GRPC_CHANNEL_READY, OkStatus,
        lb.config.map (fun config => ⟨config, lb.default_child_policy⟩)⟩, ?_, ?_, ?_, ?_, ?_, ?_, ?_⟩
      · simp [RlsLb.UpdatePickerLocked, hu, hne, hsd, h1]
      · simp
      · intro hall; obtain ⟨p, hp, hp1⟩ := hr; exact absurd hp1 (hall p hp)
      · intro hall; obtain ⟨p, hp, hp1⟩ := hr; exact absurd hp1 (hall p hp)
      · intro hall; obtain ⟨p, hp, hp1⟩ := hr; exact absurd hp1 (hall p hp)
      · simp [OkStatus, UnavailableError]
      · simp
    · have hall : ∀ p ∈ lb.child_policy_map, p.2.connectivity_state ≠ GRPC_CHANNEL_READY := by
        intro p hp h; exact hr ⟨p, hp, h⟩
      obtain ⟨h1, h2, h3⟩ := hloop.2 hall
      simp only [Nat.zero_add] at h2 h3
      have hc := filter_length_pos_iff lb.child_policy_map
        (fun p => p.2.connectivity_state = GRPC_CHANNEL_CONNECTING)
      have hi := filter_length_pos_iff lb.child_policy_map
        (fun p => p.2.connectivity_state = GRPC_CHANNEL_IDLE)
      rw [← h2] at hc
      rw [← h3] at hi
      by_cases hcon : ∃ p ∈ lb.child_policy_map,
          p.2.connectivity_state = GRPC_CHANNEL_CONNECTING
      · refine ⟨⟨GRPC_CHANNEL_CONNECTING, OkStatus,
          lb.config.map (fun config => ⟨config, lb.default_child_policy⟩)⟩,
          ?_, ?_, ?_, ?_, ?_, ?_, ?_⟩
        · simp [RlsLb.UpdatePickerLocked, hu, hne, hsd, h1, hc.2 hcon]
        · intro h; exact absurd h hr
        · simp
        · intro _ h; obtain ⟨p, hp, hp1⟩ := hcon; exact absurd hp1 (h p hp)
        · intro _ h; obtain ⟨p, hp, hp1⟩ := hcon; exact absurd hp1 (h p hp)
        · simp [OkStatus, UnavailableError]
        · simp
      · have hc0 : ¬ 0 < (RlsLb.UpdatePickerLocked.loop lb.child_policy_map
            ⟨GRPC_CHANNEL_TRANSIENT_FAILURE, 0, 0⟩).num_connecting := fun h => hcon (hc.1 h)
        by_cases hid : ∃ p ∈ lb.child_policy_map, p.2.connectivity_state = GRPC_CHANNEL_IDLE
        · refine ⟨⟨GRPC_CHANNEL_IDLE, OkStatus,
            lb.config.map (fun config => ⟨config, lb.default_child_policy⟩)⟩,
            ?_, ?_, ?_, ?_, ?_, ?_, ?_⟩
          · simp [RlsLb.UpdatePickerLocked, hu, hne, hsd, h1, hc0, hi.2 hid]
          · intro h; exact absurd h hr
          · intro _ h; exact absurd h hcon
          · simp
          · intro _ _ h; obtain ⟨p, hp, hp1⟩ := hid; exact absurd hp1 (h p hp)
          · simp [OkStatus, UnavailableError]
          · simp
        · have hi0 : ¬ 0 < (RlsLb.UpdatePickerLocked.loop lb.child_policy_map
              ⟨GRPC_CHANNEL_TRANSIENT_FAILURE, 0, 0⟩).num_idle := fun h => hid (hi.1 h)
          refine ⟨⟨GRPC_CHANNEL_TRANSIENT_FAILURE, UnavailableError "no children available",
            lb.config.map (fun config => ⟨config, lb.default_child_policy⟩)⟩,
            ?_, ?_, ?_, ?_, ?_, ?_, ?_⟩
          · simp [RlsLb.UpdatePickerLocked, hu, hne, hsd, h1, hc0, hi0]
          · intro h; exact absurd h hr
          · intro _ h; exact absurd h hcon
          · intro _ _ h
            rcases h with h | h
            · exact absurd h hid
            · exact absurd h hm
          · simp
          · simp
          · simp

/-- Witness for **C16** (amended): the example policy, whose wrappers are
READY, TRANSIENT_FAILURE and READY, publishes READY with an OK status. -/
theorem published_state_aggregates_wrappers_witness :
    (exLb [] [] Throttle.new).update_in_progress = false ∧
    (RlsLb.UpdatePickerLocked (exLb [] [] Throttle.new)).map (fun p => (p.state, p.status)) =
      some (GRPC_CHANNEL_READY, OkStatus) := by
  obtain ⟨pub, h1, h2, -, -, -, -, h7⟩ :=
    published_state_aggregates_wrappers (exLb [] [] Throttle.new) rfl (fun _ => rfl)
  have hst : pub.state = GRPC_CHANNEL_READY :=
    h2 ⟨("t1", exWrapper "t1" GRPC_CHANNEL_READY 1), by simp [exLb], rfl⟩
  refine ⟨rfl, ?_⟩
  rw [h1, Option.map_some', hst, h7 (by rw [hst]; decide)]

/-! ## Lemmas on `BuildKeyMap` -/

theorem umFind_smAssign (m : List (String × String)) (k v k1 : String) :
    umFind (smAssign m k v) k1 = if k = k1 then some v else umFind m k1 := by
  induction m with
  | nil => simp [smAssign, umFind]
  | cons p rest ih =>
    obtain ⟨k0, v0⟩ := p
    unfold smAssign
    by_cases h1 : k < k0
    · simp [h1, umFind]
    · by_cases h2 : k = k0
      · subst h2
        by_cases h : k = k1 <;> simp [umFind, h]
      · simp only [h1, h2, if_false, umFind, ih]
        by_cases h3 : k0 = k1
        · have : ¬ k = k1 := fun h => h2 (h.trans h3.symm)
          simp [h3, this]
        · simp [h3]

theorem umFind_smInsert_other (m : List (String × String)) (k v k1 : String) (h : k ≠ k1) :
    umFind (smInsert m k v) k1 = umFind m k1 := by
  induction m with
  | nil => simp [smInsert, umFind, h]
  | cons p rest ih =>
    obtain ⟨k0, v0⟩ := p
    unfold smInsert
    by_cases h1 : k < k0
    · simp [h1, umFind, h]
    · by_cases h2 : k = k0
      · simp [h1, h2]
      · simp only [h1, h2, if_false, umFind, ih]

theorem umFind_foldl_smInsert (cs : List (String × String)) (m : List (String × String))
    (k1 : String) (h : k1 ∉ cs.map Prod.fst) :
    umFind (cs.foldl (fun m kv => smInsert m kv.1 kv.2) m) k1 = umFind m k1 := by
  induction cs generalizing m with
  | nil => rfl
  | cons c cs ih =>
    simp only [List.map_cons, List.mem_cons, not_or] at h
    simp only [List.foldl_cons]
    rw [ih _ h.2, umFind_smInsert_other _ _ _ _ (fun e => h.1 e.symm)]

theorem umFind_addHeaderKeys_other (md : Metadata) (hk : List (String × List String))
    (m : List (String × String)) (k : String) (h : k ∉ hk.map Prod.fst) :
    umFind (addHeaderKeys md hk m) k = umFind m k := by
  induction hk generalizing m with
  | nil => rfl
  | cons p rest ih =>
    obtain ⟨k0, names⟩ := p
    simp only [List.map_cons, List.mem_cons, not_or] at h
    unfold addHeaderKeys
    cases hf : names.findSome? (fun header_name => md.Lookup header_name) with
    | none => simp only; exact ih _ h.2
    | some value =>
      simp only
      rw [ih _ h.2, umFind_smAssign, if_neg (fun e => h.1 e.symm)]

theorem umFind_addHeaderKeys_mem (md : Metadata) (hk : List (String × List String))
    (m : List (String × String)) (k : String) (names : List String)
    (hnd : (hk.map Prod.fst).Nodup) (hmem : (k, names) ∈ hk) (hm : umFind m k = none) :
    umFind (addHeaderKeys md hk m) k =
      names.findSome? (fun header_name => md.Lookup header_name) := by
  induction hk generalizing m with
  | nil => cases hmem
  | cons p rest ih =>
    obtain ⟨k0, names0⟩ := p
    simp only [List.map_cons, List.nodup_cons] at hnd
    rcases List.mem_cons.1 hmem with he | hin
    · cases he
      unfold addHeaderKeys
      cases hf : names.findSome? (fun header_name => md.Lookup header_name) with
      | none =>
        simp only
        rw [umFind_addHeaderKeys_other md rest m k hnd.1, hm]
      | some value =>
        simp only
        rw [umFind_addHeaderKeys_other md rest _ k hnd.1, umFind_smAssign, if_pos rfl]
    · have hne : k0 ≠ k := by
        intro e
        apply hnd.1
        rw [e]
        exact List.mem_map_of_mem Prod.fst hin
      unfold addHeaderKeys
      cases hf : names0.findSome? (fun header_name => md.Lookup header_name) with
      | none => simp only; exact ih _ hnd.2 hin hm
      | some value =>
        simp only
        refine ih _ hnd.2 hin ?_
        rw [umFind_smAssign, if_neg hne, hm]

theorem rfindFrom_not_mem (c : Char) (l : List Char) (i : Nat) (last : Option Nat)
    (h : c ∉ l) : rfindFrom c l i last = last := by
  induction l generalizing i last with
  | nil => rfl
  | cons x xs ih =>
    simp only [List.mem_cons, not_or] at h
    simp only [rfindFrom]
    rw [ih _ _ h.2, if_neg (fun e => h.1 e.symm)]

theorem rfindFrom_append (c : Char) (l1 l2 : List Char) (i : Nat) (last : Option Nat) :
    rfindFrom c (l1 ++ l2) i last = rfindFrom c l2 (i + l1.length) (rfindFrom c l1 i last) := by
  induction l1 generalizing i last with
  | nil => rfl
  | cons x xs ih =>
    have h := ih (i + 1) (if x = c then some i else last)
    have e : i + 1 + xs.length = i + (xs.length + 1) := by omega
    rw [e] at h
    simpa only [List.cons_append, rfindFrom, List.length_cons] using h

/-- The position `rfind` returns: that of the last `/`. -/
theorem rfindFrom_last (c : Char) (pre rest : List Char) (h : c ∉ rest) :
    rfindFrom c (pre ++ c :: rest) 0 none = some pre.length := by
  rw [rfindFrom_append]
  simp only [rfindFrom, if_true, Nat.zero_add]
  exact rfindFrom_not_mem c rest _ _ h

theorem exists_last_occurrence (c : Char) (l : List Char) (h : c ∈ l) :
    ∃ pre rest, l = pre ++ c :: rest ∧ c ∉ rest := by
  induction l with
  | nil => cases h
  | cons x xs ih =>
    by_cases hx : c ∈ xs
    · obtain ⟨pre, rest, h1, h2⟩ := ih hx
      exact ⟨x :: pre, rest, by rw [h1]; rfl, h2⟩
    · rcases List.mem_cons.1 h with he | hin
      · exact ⟨[], xs, by rw [he]; rfl, hx⟩
      · exact absurd hin hx

theorem rfindFrom_none (c : Char) (l : List Char) :
    rfindFrom c l 0 none = none ↔ c ∉ l := by
  constructor
  · intro h hin
    obtain ⟨pre, rest, h1, h2⟩ := exists_last_occurrence c l hin
    rw [h1, rfindFrom_last c pre rest h2] at h
    cases h
  · exact rfindFrom_not_mem c l 0 none

theorem substr_prefix (pre rest : List Char) :
    substr (pre ++ '/' :: rest) 0 (pre.length + 1) = pre ++ ['/'] := by
  unfold substr
  rw [List.drop_zero]
  have : pre ++ '/' :: rest = (pre ++ ['/']) ++ rest := by simp
  rw [this, List.take_left' (by simp)]

theorem substr_method (pre rest : List Char) :
    substr (pre ++ '/' :: rest) (pre.length + 1)
      ((pre ++ '/' :: rest).length - (pre.length + 1)) = rest := by
  unfold substr
  have : pre ++ '/' :: rest = (pre ++ ['/']) ++ rest := by simp
  rw [this, List.drop_left' (by simp)]
  apply List.take_of_length_le
  simp only [List.length_append, List.length_cons, List.length_nil]
  omega

theorem findKeyBuilder_exact (kbm : List (String × KeyBuilder)) (path : String) (kb : KeyBuilder)
    (h : umFind kbm path = some kb) : findKeyBuilder kbm path = some kb := by
  simp [findKeyBuilder, h]

theorem findKeyBuilder_prefix (kbm : List (String × KeyBuilder)) (path : String)
    (pre rest : List Char) (hp : path.data = pre ++ '/' :: rest) (hr : '/' ∉ rest)
    (h : umFind kbm path = none) :
    findKeyBuilder kbm path = umFind kbm (String.mk (pre ++ ['/'])) := by
  simp only [findKeyBuilder, h, hp, rfindFrom_last '/' pre rest hr, substr_prefix]

theorem findKeyBuilder_no_slash (kbm : List (String × KeyBuilder)) (path : String)
    (hp : '/' ∉ path.data) (h : umFind kbm path = none) : findKeyBuilder kbm path = none := by
  simp only [findKeyBuilder, h, (rfindFrom_none '/' path.data).2 hp]

/-- A path matched by a builder of a map whose names all contain `/` contains
a `/`. -/
theorem slash_of_findKeyBuilder (kbm : List (String × KeyBuilder)) (path : String)
    (kb : KeyBuilder) (hnames : ∀ name ∈ kbm.map Prod.fst, '/' ∈ name.data)
    (h : findKeyBuilder kbm path = some kb) : '/' ∈ path.data := by
  cases hf : umFind kbm path with
  | some kb1 => exact hnames path (umFind_some_mem_keys hf)
  | none =>
    by_contra hno
    rw [findKeyBuilder_no_slash kbm path hno hf] at h
    cases h

/-- The lookups in the key `BuildKeyMap` returns, for a path that contains `/`
(its last one after `pre`): header keys, then constant keys, host key, service
key and method key, each assignment hiding the earlier ones. -/
theorem BuildKeyMap_lookup (kbm : List (String × KeyBuilder)) (path host : String)
    (md : Metadata) (kb : KeyBuilder) (pre rest : List Char)
    (hkb : findKeyBuilder kbm path = some kb)
    (hp : path.data = pre ++ '/' :: rest) (hr : '/' ∉ rest) (k : String) :
    umFind (BuildKeyMap kbm path host md) k =
      if kb.method_key ≠ "" ∧ kb.method_key = k then some (String.mk rest)
      else if kb.service_key ≠ "" ∧ kb.service_key = k then
        some (String.mk (substr path.data 1 (posMinusOne pre.length)))
      else if kb.host_key ≠ "" ∧ kb.host_key = k then some host
      else umFind (kb.constant_keys.foldl (fun m kv => smInsert m kv.1 kv.2)
        (addHeaderKeys md kb.header_keys [])) k := by
  have hm := substr_method pre rest
  rw [← hp] at hm
  simp only [BuildKeyMap, hkb, hp, rfindFrom_last '/' pre rest hr]
  rw [← hp, hm]
  by_cases h1 : kb.method_key = ""
  · by_cases h2 : kb.service_key = ""
    · by_cases h3 : kb.host_key = ""
      · simp [h1, h2, h3]
      · simp [h1, h2, h3, umFind_smAssign]
    · by_cases h3 : kb.host_key = ""
      · simp [h1, h2, h3, umFind_smAssign]
      · simp [h1, h2, h3, umFind_smAssign]
  · by_cases h2 : kb.service_key = ""
    · by_cases h3 : kb.host_key = ""
      · simp [h1, h2, h3, umFind_smAssign]
      · simp [h1, h2, h3, umFind_smAssign]
    · by_cases h3 : kb.host_key = ""
      · simp [h1, h2, h3, umFind_smAssign]
      · simp [h1, h2, h3, umFind_smAssign]

/-! ## C17: key builder selection and header keys -/

/-- **C17.** For a key builder map whose names contain `/` (config parsing
builds them as `/service/method`): `BuildKeyMap` uses the builder registered
under the exact path when there is one; otherwise the one registered under the
path up to and including its last `/`; with neither (or no `/` in the path) the
key is empty.  For the builder used, with distinct header output keys that
differ from the constant keys and from the host, service and method keys, and
each of its header entries `(output_key, header_names)`: the key maps
`output_key` to the value of the first name of `header_names` the metadata has
a value for, and has no entry for `output_key` when it has none. -/
theorem key_builder_selection_and_header_keys (kbm : List (String × KeyBuilder))
    (path host : String) (md : Metadata)
    (hnames : ∀ name ∈ kbm.map Prod.fst, '/' ∈ name.data) :
    (∀ kb, umFind kbm path = some kb → findKeyBuilder kbm path = some kb) ∧
    (∀ pre rest, path.data = pre ++ '/' :: rest → '/' ∉ rest → umFind kbm path = none →
      findKeyBuilder kbm path = umFind kbm (String.mk (pre ++ ['/']))) ∧
    ('/' ∉ path.data → umFind kbm path = none → findKeyBuilder kbm path = none) ∧
    (findKeyBuilder kbm path = none → BuildKeyMap kbm path host md = []) ∧
    (∀ kb, findKeyBuilder kbm path = some kb →
      (kb.header_keys.map Prod.fst).Nodup →
      ∀ output_key header_names, (output_key, header_names) ∈ kb.header_keys →
        output_key ∉ kb.constant_keys.map Prod.fst →
        output_key ≠ kb.host_key → output_key ≠ kb.service_key →
        output_key ≠ kb.method_key →
        umFind (BuildKeyMap kbm path host md) output_key =
          header_names.findSome? (fun header_name => md.Lookup header_name) ∧
        (∀ before name after value, header_names = before ++ name :: after →
          (∀ n ∈ before, md.Lookup n = none) → md.Lookup name = some value →
          umFind (BuildKeyMap kbm path host md) output_key = some value) ∧
        ((∀ n ∈ header_names, md.Lookup n = none) →
          umFind (BuildKeyMap kbm path host md) output_key = none)) := by
  refine ⟨findKeyBuilder_exact kbm path, findKeyBuilder_prefix kbm path,
    findKeyBuilder_no_slash kbm path, ?_, ?_⟩
  · intro h
    simp [BuildKeyMap, h]
  · intro kb hkb hnd output_key header_names hmem hc hh hs hm
    obtain ⟨pre, rest, hp, hr⟩ :=
      exists_last_occurrence '/' path.data (slash_of_findKeyBuilder kbm path kb hnames hkb)
    have hval : umFind (BuildKeyMap kbm path host md) output_key =
        header_names.findSome? (fun header_name => md.Lookup header_name) := by
      rw [BuildKeyMap_lookup kbm path host md kb pre rest hkb hp hr output_key,
        if_neg (fun h => hm h.2.symm), if_neg (fun h => hs h.2.symm),
        if_neg (fun h => hh h.2.symm), umFind_foldl_smInsert _ _ _ hc]
      exact umFind_addHeaderKeys_mem md kb.header_keys [] output_key header_names hnd hmem rfl
    refine ⟨hval, ?_, ?_⟩
    · intro before name after value hsplit hbefore hname
      rw [hval, hsplit, List.findSome?_append]
      have hb : before.findSome? (fun header_name => md.Lookup header_name) = none := by
        rw [List.findSome?_eq_none_iff]
        exact hbefore
      rw [hb]
      simp [List.findSome?, hname]
    · intro hall
      rw [hval, List.findSome?_eq_none_iff]
      exact hall

/-- Witness for **C17**: the call `/svc.S/M` with the header `x-alt` only;
the builder registered for `/svc.S/` is used and `user` gets the value of
`x-alt`. -/
theorem key_builder_selection_and_header_keys_witness :
    (∀ name ∈ exKeyBuilderMapHeaders.map Prod.fst, '/' ∈ name.data) ∧
    umFind (BuildKeyMap exKeyBuilderMapHeaders "/svc.S/M" "a.example" [("x-alt", "bob")])
      "user" = some "bob" :=
  ⟨by decide,
   ((key_builder_selection_and_header_keys exKeyBuilderMapHeaders "/svc.S/M" "a.example"
      [("x-alt", "bob")] (by decide)).2.2.2.2
      ⟨[("user", ["x-user", "x-alt"])], "h", "s", "m", [("c", "v")]⟩ (by decide) (by decide)
      "user" ["x-user", "x-alt"] (by decide) (by decide) (by decide) (by decide)
      (by decide)).2.1 ["x-user"] "x-alt" [] "bob" rfl (by decide) (by decide)⟩

/-! ## C18: service and method keys -/

/-- **C18.** For a key builder map whose names are `/`, a service name, `/`
and a method name (config parsing builds no other name,
`ParseGrpcKeybuilders_keys_form`), and a path of fewer than 2^64 characters
that begins with `/`, whose last `/` stands after `pre`, matched by a key
builder with distinct service and method keys: the path has a second `/`
(`pre` is `/` followed by some `mid`, so a path with a single `/` is matched
by no builder); when the service key is set, the key maps it to the
characters of the path strictly between its first and its last `/` (`pre`
without its first character); when the method key is set, the key maps it to
what follows the last `/`. -/
theorem service_and_method_keys (kbm : List (String × KeyBuilder)) (path host : String)
    (md : Metadata) (kb : KeyBuilder) (pre rest : List Char)
    (hnames : ∀ name ∈ kbm.map Prod.fst,
      ∃ service method : List Char, name.data = '/' :: (service ++ '/' :: method))
    (hkb : findKeyBuilder kbm path = some kb)
    (hp : path.data = pre ++ '/' :: rest) (hr : '/' ∉ rest)
    (hfirst : path.data.head? = some '/')
    (hlen : path.data.length < 2 ^ 64)
    (hdist : kb.service_key ≠ kb.method_key) :
    (∃ mid, pre = '/' :: mid) ∧
    (kb.service_key ≠ "" →
      umFind (BuildKeyMap kbm path host md) kb.service_key = some (String.mk (pre.drop 1))) ∧
    (kb.method_key ≠ "" →
      umFind (BuildKeyMap kbm path host md) kb.method_key = some (String.mk rest)) := by
  have hlook := BuildKeyMap_lookup kbm path host md kb pre rest hkb hp hr
  have hpre : ∃ mid, pre = '/' :: mid := by
    cases pre with
    | nil =>
      exfalso
      cases hf : umFind kbm path with
      | some kb1 =>
        obtain ⟨s, m, hsm⟩ := hnames path (umFind_some_mem_keys hf)
        rw [hp] at hsm
        simp only [List.nil_append, List.cons.injEq, true_and] at hsm
        apply hr
        rw [hsm]
        simp
      | none =>
        rw [ findKeyBuilder_prefix kbm path [] rest hp hr hf] at hkb
        obtain ⟨s, m, hsm⟩ := hnames _ (umFind_some_mem_keys hkb)
        simp at hsm
    | cons x xs =>
      rw [hp] at hfirst
      simp only [List.cons_append, List.head?_cons, Option.some.injEq] at hfirst
      exact ⟨xs, by rw [hfirst]⟩
  refine ⟨hpre, ?_, ?_⟩
  · intro hs
    obtain ⟨mid, hpre⟩ := hpre
    rw [hlook, if_neg (fun h => hdist h.2.symm), if_pos ⟨hs, rfl⟩]
    subst hpre
    rw [hp]
    have hl : mid.length + 1 < 2 ^ 64 := by
      rw [hp] at hlen
      simp only [List.length_append, List.length_cons] at hlen
      omega
    have hpm : posMinusOne ('/' :: mid).length = mid.length := by
      unfold posMinusOne
      simp only [List.length_cons]
      omega
    rw [hpm]
    simp [substr]
  · intro hm
    rw [hlook, if_pos ⟨hm, rfl⟩]

/-- Witness for **C18**: the call `/svc.S/M` gets the service key `svc.S` and
the method key `M`. -/
theorem service_and_method_keys_witness :
    umFind (BuildKeyMap exKeyBuilderMapHeaders "/svc.S/M" "a.example" []) "s" = some "svc.S" ∧
    umFind (BuildKeyMap exKeyBuilderMapHeaders "/svc.S/M" "a.example" []) "m" = some "M" :=
  ⟨(service_and_method_keys exKeyBuilderMapHeaders "/svc.S/M" "a.example" []
      ⟨[("user", ["x-user", "x-alt"])], "h", "s", "m", [("c", "v")]⟩
      ['/', 's', 'v', 'c', '.', 'S'] ['M']
      (by
        intro name hn
        simp only [exKeyBuilderMapHeaders, List.map_cons, List.map_nil,
          List.mem_singleton] at hn
        subst hn
        exact ⟨['s', 'v', 'c', '.', 'S'], [], rfl⟩)
      (by decide!) rfl (by decide) rfl (by decide) (by decide)).2.1 (by decide),
   (service_and_method_keys exKeyBuilderMapHeaders "/svc.S/M" "a.example" []
      ⟨[("user", ["x-user", "x-alt"])], "h", "s", "m", [("c", "v")]⟩
      ['/', 's', 'v', 'c', '.', 'S'] ['M']
      (by
        intro name hn
        simp only [exKeyBuilderMapHeaders, List.map_cons, List.map_nil,
          List.mem_singleton] at hn
        subst hn
        exact ⟨['s', 'v', 'c', '.', 'S'], [], rfl⟩)
      (by decide!) rfl (by decide) rfl (by decide) (by decide)).2.2 (by decide)⟩


/-! ## C19: clamps of the route lookup configuration -/

theorem GRPC_ERROR_CREATE_FROM_VECTOR_mem (desc : String) (error_list : List ConfigError)
    (e : ConfigError) (h : e ∈ error_list) :
    ∃ err, GRPC_ERROR_CREATE_FROM_VECTOR desc error_list = some err ∧ e ∈ err.children := by
  cases error_list with
  | nil => cases h
  | cons x xs => exact ⟨_, rfl, h⟩

/-- **C19.** For every route lookup configuration object and whatever the
field helpers do with it.  With `cache` the value of `cacheSizeBytes` as
parsed (0 when nothing is stored), `max` and `stale` the outcomes of the
duration helper for `maxAge` and `staleAge`: the parsed `cache_size_bytes` is
at most 5·1024·1024, is exactly that when `cache` is larger and is `cache`
otherwise, and `cache ≤ 0` is reported as an error; `max_age` is at most 5
minutes, is 5 minutes when `maxAge` stores nothing, and is the smaller of the
stored value and 5 minutes otherwise; `stale_age` is `max_age` when `staleAge`
stores nothing or stores a value that is at least `max_age` (in particular
one that is at least the stored `maxAge`), is the stored value when that is
smaller, and never exceeds `max_age`; and `staleAge` set with `maxAge` not set
is reported as an error. -/
theorem route_lookup_config_clamps (util : JsonUtil) (json : List (String × Json)) :
    (ParseRouteLookupConfig util json).1.cache_size_bytes ≤ 5 * 1024 * 1024 ∧
    (5 * 1024 * 1024 < (util.ParseJsonObjectField_int64 json "cacheSizeBytes" true).stored.getD 0 →
      (ParseRouteLookupConfig util json).1.cache_size_bytes = 5 * 1024 * 1024) ∧
    ((util.ParseJsonObjectField_int64 json "cacheSizeBytes" true).stored.getD 0 ≤ 5 * 1024 * 1024 →
      (ParseRouteLookupConfig util json).1.cache_size_bytes =
        (util.ParseJsonObjectField_int64 json "cacheSizeBytes" true).stored.getD 0) ∧
    ((util.ParseJsonObjectField_int64 json "cacheSizeBytes" true).stored.getD 0 ≤ 0 →
      ∃ err, (ParseRouteLookupConfig util json).2 = some err ∧
        ConfigError.mk "field:cacheSizeBytes error:must be greater than 0" [] ∈ err.children) ∧
    (ParseRouteLookupConfig util json).1.max_age ≤ 300000 ∧
    ((util.ParseJsonObjectFieldAsDuration json "maxAge" false).stored = none →
      (ParseRouteLookupConfig util json).1.max_age = 300000) ∧
    (∀ m, (util.ParseJsonObjectFieldAsDuration json "maxAge" false).stored = some m →
      (ParseRouteLookupConfig util json).1.max_age = min m 300000) ∧
    ((util.ParseJsonObjectFieldAsDuration json "staleAge" false).stored = none →
      (ParseRouteLookupConfig util json).1.stale_age =
        (ParseRouteLookupConfig util json).1.max_age) ∧
    (∀ s, (util.ParseJsonObjectFieldAsDuration json "staleAge" false).stored = some s →
      (ParseRouteLookupConfig util json).1.max_age ≤ s →
      (ParseRouteLookupConfig util json).1.stale_age =
        (ParseRouteLookupConfig util json).1.max_age) ∧
    (∀ s m, (util.ParseJsonObjectFieldAsDuration json "staleAge" false).stored = some s →
      (util.ParseJsonObjectFieldAsDuration json "maxAge" false).stored = some m → m ≤ s →
      (ParseRouteLookupConfig util json).1.stale_age =
        (ParseRouteLookupConfig util json).1.max_age) ∧
    (∀ s, (util.ParseJsonObjectFieldAsDuration json "staleAge" false).stored = some s →
      s < (ParseRouteLookupConfig util json).1.max_age →
      (ParseRouteLookupConfig util json).1.stale_age = s) ∧
    (ParseRouteLookupConfig util json).1.stale_age ≤
      (ParseRouteLookupConfig util json).1.max_age ∧
    ((util.ParseJsonObjectFieldAsDuration json "staleAge" false).returned = true →
      (util.ParseJsonObjectFieldAsDuration json "maxAge" false).returned = false →
      ∃ err, (ParseRouteLookupConfig util json).2 = some err ∧
        ConfigError.mk "field:maxAge error:must be set if staleAge is set" [] ∈ err.children) := by
  have hmax : (ParseRouteLookupConfig util json).1.max_age =
      min ((util.ParseJsonObjectFieldAsDuration json "maxAge" false).stored.getD 300000)
        300000 := by
    simp only [ParseRouteLookupConfig, kMaxMaxAge]
    split_ifs with h
    · exact (min_eq_right (le_of_lt h)).symm
    · exact (min_eq_left (not_lt.1 h)).symm
  have hstale : (ParseRouteLookupConfig util json).1.stale_age =
      min ((util.ParseJsonObjectFieldAsDuration json "staleAge" false).stored.getD 300000)
        (ParseRouteLookupConfig util json).1.max_age := by
    simp only [ParseRouteLookupConfig, kMaxMaxAge]
    split_ifs with h1 h2 h2
    · exact (min_eq_right h2).symm
    · exact (min_eq_left (le_of_lt (not_le.1 h2))).symm
    · exact (min_eq_right h2).symm
    · exact (min_eq_left (le_of_lt (not_le.1 h2))).symm
  have hcache : (ParseRouteLookupConfig util json).1.cache_size_bytes =
      min ((util.ParseJsonObjectField_int64 json "cacheSizeBytes" true).stored.getD 0)
        (5 * 1024 * 1024) := by
    simp only [ParseRouteLookupConfig, kMaxCacheSizeBytes]
    split_ifs with h
    · exact (min_eq_right (le_of_lt h)).symm
    · exact (min_eq_left (not_lt.1 h)).symm
  have hmax_le : (ParseRouteLookupConfig util json).1.max_age ≤ 300000 := by
    rw [hmax]; exact min_le_right _ _
  refine ⟨?_, ?_, ?_, ?_, hmax_le, ?_, ?_, ?_, ?_, ?_, ?_, ?_, ?_⟩
  · rw [hcache]; exact min_le_right _ _
  · intro h; rw [hcache]; exact min_eq_right (le_of_lt h)
  · intro h; rw [hcache]; exact min_eq_left h
  · intro h
    apply GRPC_ERROR_CREATE_FROM_VECTOR_mem
    simp only [h, if_true, List.mem_append, List.mem_singleton]
    split_ifs <;> simp
  · intro h; rw [hmax, h]; rfl
  · intro m h; rw [hmax, h]; rfl
  · intro h
    rw [hstale, h]
    exact min_eq_right hmax_le
  · intro s h hle
    rw [hstale, h]
    exact min_eq_right hle
  · intro s m h1 h2 hle
    rw [hstale, h1]
    apply min_eq_right
    rw [hmax, h2]
    exact le_trans (min_le_left _ _) hle
  · intro s h hlt
    rw [hstale, h]
    exact min_eq_left (le_of_lt hlt)
  · rw [hstale]; exact min_le_right _ _
  · intro h1 h2
    apply GRPC_ERROR_CREATE_FROM_VECTOR_mem
    simp only [h1, h2, Bool.not_false, Bool.and_self, if_true, List.mem_append,
      List.mem_singleton]
    split_ifs <;> simp
/-- Witness for **C19**: `cacheSizeBytes` of 10 MiB, `maxAge` of 600 s and
`staleAge` of 700 s are parsed as 5 MiB, 5 minutes and 5 minutes. -/
theorem route_lookup_config_clamps_witness :
    (ParseRouteLookupConfig exJsonUtil (exRouteLookupJson [("cacheSizeBytes", .number "10485760"),
      ("maxAge", .string "600s"), ("staleAge", .string "700s")])).1.cache_size_bytes =
      5 * 1024 * 1024 ∧
    (ParseRouteLookupConfig exJsonUtil (exRouteLookupJson [("cacheSizeBytes", .number "10485760"),
      ("maxAge", .string "600s"), ("staleAge", .string "700s")])).1.max_age =
      min 600000 300000 ∧
    (ParseRouteLookupConfig exJsonUtil (exRouteLookupJson [("cacheSizeBytes", .number "10485760"),
      ("maxAge", .string "600s"), ("staleAge", .string "700s")])).1.stale_age =
      (ParseRouteLookupConfig exJsonUtil (exRouteLookupJson
        [("cacheSizeBytes", .number "10485760"), ("maxAge", .string "600s"),
         ("staleAge", .string "700s")])).1.max_age :=
  ⟨(route_lookup_config_clamps exJsonUtil (exRouteLookupJson
      [("cacheSizeBytes", .number "10485760"), ("maxAge", .string "600s"),
       ("staleAge", .string "700s")])).2.1 (by decide!),
   (route_lookup_config_clamps exJsonUtil (exRouteLookupJson
      [("cacheSizeBytes", .number "10485760"), ("maxAge", .string "600s"),
       ("staleAge", .string "700s")])).2.2.2.2.2.2.1 600000 (by decide!),
   (route_lookup_config_clamps exJsonUtil (exRouteLookupJson
      [("cacheSizeBytes", .number "10485760"), ("maxAge", .string "600s"),
       ("staleAge", .string "700s")])).2.2.2.2.2.2.2.2.2.1 700000 600000 (by decide!)
      (by decide!) (by decide)⟩

/-! ## C20: the names of a key builder -/

/-- **C20** (counterexample). The names item `{service: "", method: "m"}` is
accepted: `ParseJsonMethodName` reports no error for it and returns the path
`//m`, and a key builder with this one name is parsed without error and
registered under `//m`. -/
theorem empty_service_name_is_accepted :
    (ParseJsonMethodName exJsonUtil 0 exNameEmptyService).1.isNone = true ∧
    (ParseJsonMethodName exJsonUtil 0 exNameEmptyService).2 = "//m" ∧
    (ParseGrpcKeybuilder exJsonUtil 0 (.object [("names", .array [exNameEmptyService])])
      []).1.isNone = true ∧
    (ParseGrpcKeybuilder exJsonUtil 0 (.object [("names", .array [exNameEmptyService])])
      []).2 = [("//m", ⟨[], "", "", "", []⟩)] := by
  decide!

/-- **C20** (amended). `ParseJsonMethodName` rejects an item that is not an
object (returning the empty path); for an object it reports an error exactly
when the field helper appends one for `service` (required) or for `method`
(optional), and the path it returns is `/`, the service stored, `/`, the
method stored (nothing when none is stored): the service is not tested for
emptiness.  With the field helpers of the examples that is: an object is
accepted exactly when its `service` is a string, the empty one included, and
its `method`, when there is one, is a string; with service `s` and method `m`
the path is `/s/m`, with no method `/s/`. -/
theorem names_item_accepted_without_emptiness_test (util : JsonUtil) (idx : Nat) :
    (∀ json, (∀ members, json ≠ .object members) →
      (ParseJsonMethodName util idx json).1.isSome = true ∧
      (ParseJsonMethodName util idx json).2 = "") ∧
    (∀ members,
      ((ParseJsonMethodName util idx (.object members)).1 = none ↔
        (util.ParseJsonObjectField_string members "service" true).errors = [] ∧
        (util.ParseJsonObjectField_string members "method" false).errors = []) ∧
      (ParseJsonMethodName util idx (.object members)).2 =
        "/" ++ (util.ParseJsonObjectField_string members "service" true).stored.getD "" ++ "/" ++
          (util.ParseJsonObjectField_string members "method" false).stored.getD "") ∧
    (∀ members,
      ((ParseJsonMethodName exJsonUtil idx (.object members)).1 = none ↔
        (∃ s, umFind members "service" = some (.string s)) ∧
        (umFind members "method" = none ∨ ∃ m, umFind members "method" = some (.string m))) ∧
      (∀ s m, umFind members "service" = some (.string s) →
        umFind members "method" = some (.string m) →
        (ParseJsonMethodName exJsonUtil idx (.object members)).2 = "/" ++ s ++ "/" ++ m) ∧
      (∀ s, umFind members "service" = some (.string s) → umFind members "method" = none →
        (ParseJsonMethodName exJsonUtil idx (.object members)).2 = "/" ++ s ++ "/")) := by
  refine ⟨?_, ?_, ?_⟩
  · intro json hno
    cases json with
    | object members => exact absurd rfl (hno members)
    | null => exact ⟨rfl, rfl⟩
    | boolean b => exact ⟨rfl, rfl⟩
    | number s => exact ⟨rfl, rfl⟩
    | string s => exact ⟨rfl, rfl⟩
    | array items => exact ⟨rfl, rfl⟩
  · intro members
    refine ⟨?_, rfl⟩
    simp only [ParseJsonMethodName, GRPC_ERROR_CREATE_FROM_VECTOR]
    cases h : (util.ParseJsonObjectField_string members "service" true).errors ++
        (util.ParseJsonObjectField_string members "method" false).errors with
    | nil =>
      have h1 := List.append_eq_nil.1 h
      simp [h1.1, h1.2]
    | cons x xs =>
      simp only [List.isEmpty_cons, Bool.false_eq_true, if_false, reduceCtorEq, false_iff,
        not_and]
      intro h1 h2
      rw [h1, h2] at h
      cases h
  · intro members
    refine ⟨?_, ?_, ?_⟩
    · simp only [ParseJsonMethodName, GRPC_ERROR_CREATE_FROM_VECTOR, exJsonUtil, exParseField]
      cases hs : umFind members "service" with
      | none => simp
      | some js =>
        cases hm : umFind members "method" with
        | none => cases js <;> simp [exExtractJsonString]
        | some jm => cases js <;> cases jm <;> simp [exExtractJsonString]
    · intro s m hs hm
      simp [ParseJsonMethodName, exJsonUtil, exParseField, hs, hm, exExtractJsonString]
    · intro s hs hm
      simp [ParseJsonMethodName, exJsonUtil, exParseField, hs, hm, exExtractJsonString]

/-! ## The names of a parsed key builder map contain `/` -/

theorem ParseJsonMethodName_slash (util : JsonUtil) (idx : Nat) (json : Json)
    (h : (ParseJsonMethodName util idx json).1 = none) :
    '/' ∈ (ParseJsonMethodName util idx json).2.data := by
  cases json with
  | object members => simp [ParseJsonMethodName, String.data_append]
  | null => simp [ParseJsonMethodName] at h
  | boolean b => simp [ParseJsonMethodName] at h
  | number s => simp [ParseJsonMethodName] at h
  | string s => simp [ParseJsonMethodName] at h
  | array items => simp [ParseJsonMethodName] at h

theorem mem_setInsert (l : List String) (k x : String) (h : x ∈ (setInsert l k).1) :
    x = k ∨ x ∈ l := by
  induction l with
  | nil => simpa [setInsert] using h
  | cons k1 rest ih =>
    unfold setInsert at h
    split_ifs at h with h1 h2
    · simpa using h
    · exact Or.inr h
    · rcases List.mem_cons.1 h with h3 | h3
      · exact Or.inr (by rw [h3]; exact List.mem_cons_self _ _)
      · rcases ih h3 with h4 | h4
        · exact Or.inl h4
        · exact Or.inr (List.mem_cons_of_mem _ h4)

theorem ParseGrpcKeybuilder_names_slash (util : JsonUtil) (items : List Json) (name_idx : Nat)
    (names : List String) (error_list : List ConfigError)
    (h : ∀ n ∈ names, '/' ∈ n.data) :
    ∀ n ∈ (ParseGrpcKeybuilder.names util name_idx items names error_list).1,
      '/' ∈ n.data := by
  induction items generalizing name_idx names error_list with
  | nil => exact h
  | cons item rest ih =>
    simp only [ParseGrpcKeybuilder.names]
    split
    · exact ih _ _ _ h
    · rename_i hr
      have hins : ∀ n ∈ (setInsert names (ParseJsonMethodName util name_idx item).2).1,
          '/' ∈ n.data := by
        intro n hn
        rcases mem_setInsert _ _ _ hn with h1 | h1
        · rw [h1]; exact ParseJsonMethodName_slash util name_idx item hr
        · exact h n h1
      split_ifs
      · exact ih _ _ _ hins
      · exact ih _ _ _ hins

theorem ParseGrpcKeybuilder_insert_keys (key_builder : KeyBuilder) (names : List String)
    (m : List (String × KeyBuilder)) (error_list : List ConfigError) :
    ∀ n ∈ (ParseGrpcKeybuilder.insert key_builder names m error_list).1.map Prod.fst,
      n ∈ names ∨ n ∈ m.map Prod.fst := by
  induction names generalizing m error_list with
  | nil => intro n hn; exact Or.inr hn
  | cons name rest ih =>
    intro n hn
    unfold ParseGrpcKeybuilder.insert at hn
    cases hf : umFind m name with
    | none =>
      simp only [hf] at hn
      rcases ih _ _ n hn with h1 | h1
      · exact Or.inl (List.mem_cons_of_mem _ h1)
      · simp only [umEmplace, hf, List.map_cons, List.mem_cons] at h1
        rcases h1 with h2 | h2
        · exact Or.inl (by rw [h2]; exact List.mem_cons_self _ _)
        · exact Or.inr h2
    | some kb =>
      simp only [hf] at hn
      rcases ih _ _ n hn with h1 | h1
      · exact Or.inl (List.mem_cons_of_mem _ h1)
      · exact Or.inr h1

theorem ParseGrpcKeybuilder_keys_slash (util : JsonUtil) (idx : Nat) (json : Json)
    (m : List (String × KeyBuilder)) (h : ∀ n ∈ m.map Prod.fst, '/' ∈ n.data) :
    ∀ n ∈ (ParseGrpcKeybuilder util idx json m).2.map Prod.fst, '/' ∈ n.data := by
  cases json with
  | object members =>
    intro n hn
    simp only [ParseGrpcKeybuilder] at hn
    rcases ParseGrpcKeybuilder_insert_keys _ _ _ _ n hn with h1 | h1
    · revert h1
      cases (util.ParseJsonObjectField_array members "names" true).output with
      | none => intro h1; cases h1
      | some items =>
        simp only
        split_ifs
        · intro h1; cases h1
        · intro h1
          exact ParseGrpcKeybuilder_names_slash util items 0 [] _ (by intro _ hx; cases hx) n h1
    · exact h n h1
  | null => exact h
  | boolean b => exact h
  | number s => exact h
  | string s => exact h
  | array items => exact h

theorem ParseGrpcKeybuilders_loop_keys_slash (util : JsonUtil) (list : List Json) (idx : Nat)
    (m : List (String × KeyBuilder)) (error_list : List ConfigError)
    (h : ∀ n ∈ m.map Prod.fst, '/' ∈ n.data) :
    ∀ n ∈ (ParseGrpcKeybuilders.loop util idx list m error_list).1.map Prod.fst,
      '/' ∈ n.data := by
  induction list generalizing idx m error_list with
  | nil => exact h
  | cons item rest ih =>
    simp only [ParseGrpcKeybuilders.loop]
    have h1 := ParseGrpcKeybuilder_keys_slash util idx item m h
    split
    · exact ih _ _ _ h1
    · exact ih _ _ _ h1

/-- Every name of a key builder map that `ParseGrpcKeybuilders` returns
contains `/`, whatever the field helpers do. -/
theorem ParseGrpcKeybuilders_keys_slash (util : JsonUtil) (key_builder_list : List Json) :
    ∀ n ∈ (ParseGrpcKeybuilders util key_builder_list).1.map Prod.fst, '/' ∈ n.data := by
  unfold ParseGrpcKeybuilders
  split_ifs
  · intro n hn; cases hn
  · exact ParseGrpcKeybuilders_loop_keys_slash util key_builder_list 0 [] []
      (by intro _ hx; cases hx)

/-! ## The names of a parsed key builder map have the form `/service/method` -/

theorem ParseJsonMethodName_form (util : JsonUtil) (idx : Nat) (json : Json)
    (h : (ParseJsonMethodName util idx json).1 = none) :
    ∃ service method : List Char,
      (ParseJsonMethodName util idx json).2.data = '/' :: (service ++ '/' :: method) := by
  cases json with
  | object members =>
    refine ⟨((util.ParseJsonObjectField_string members "service" true).stored.getD "").data,
      ((util.ParseJsonObjectField_string members "method" false).stored.getD "").data, ?_⟩
    simp [ParseJsonMethodName, String.data_append]
  | null => simp [ParseJsonMethodName] at h
  | boolean b => simp [ParseJsonMethodName] at h
  | number s => simp [ParseJsonMethodName] at h
  | string s => simp [ParseJsonMethodName] at h
  | array items => simp [ParseJsonMethodName] at h

theorem ParseGrpcKeybuilder_names_form (util : JsonUtil) (items : List Json) (name_idx : Nat)
    (names : List String) (error_list : List ConfigError)
    (h : ∀ n ∈ names, ∃ service method : List Char, n.data = '/' :: (service ++ '/' :: method)) :
    ∀ n ∈ (ParseGrpcKeybuilder.names util name_idx items names error_list).1,
      ∃ service method : List Char, n.data = '/' :: (service ++ '/' :: method) := by
  induction items generalizing name_idx names error_list with
  | nil => exact h
  | cons item rest ih =>
    simp only [ParseGrpcKeybuilder.names]
    split
    · exact ih _ _ _ h
    · rename_i hr
      have hins : ∀ n ∈ (setInsert names (ParseJsonMethodName util name_idx item).2).1,
          ∃ service method : List Char, n.data = '/' :: (service ++ '/' :: method) := by
        intro n hn
        rcases mem_setInsert _ _ _ hn with h1 | h1
        · rw [h1]; exact ParseJsonMethodName_form util name_idx item hr
        · exact h n h1
      split_ifs
      · exact ih _ _ _ hins
      · exact ih _ _ _ hins

theorem ParseGrpcKeybuilder_keys_form (util : JsonUtil) (idx : Nat) (json : Json)
    (m : List (String × KeyBuilder))
    (h : ∀ n ∈ m.map Prod.fst,
      ∃ service method : List Char, n.data = '/' :: (service ++ '/' :: method)) :
    ∀ n ∈ (ParseGrpcKeybuilder util idx json m).2.map Prod.fst,
      ∃ service method : List Char, n.data = '/' :: (service ++ '/' :: method) := by
  cases json with
  | object members =>
    intro n hn
    simp only [ParseGrpcKeybuilder] at hn
    rcases ParseGrpcKeybuilder_insert_keys _ _ _ _ n hn with h1 | h1
    · revert h1
      cases (util.ParseJsonObjectField_array members "names" true).output with
      | none => intro h1; cases h1
      | some items =>
        simp only
        split_ifs
        · intro h1; cases h1
        · intro h1
          exact ParseGrpcKeybuilder_names_form util items 0 [] _ (by intro _ hx; cases hx) n h1
    · exact h n h1
  | null => exact h
  | boolean b => exact h
  | number s => exact h
  | string s => exact h
  | array items => exact h

theorem ParseGrpcKeybuilders_loop_keys_form (util : JsonUtil) (list : List Json) (idx : Nat)
    (m : List (String × KeyBuilder)) (error_list : List ConfigError)
    (h : ∀ n ∈ m.map Prod.fst,
      ∃ service method : List Char, n.data = '/' :: (service ++ '/' :: method)) :
    ∀ n ∈ (ParseGrpcKeybuilders.loop util idx list m error_list).1.map Prod.fst,
      ∃ service method : List Char, n.data = '/' :: (service ++ '/' :: method) := by
  induction list generalizing idx m error_list with
  | nil => exact h
  | cons item rest ih =>
    simp only [ParseGrpcKeybuilders.loop]
    have h1 := ParseGrpcKeybuilder_keys_form util idx item m h
    split
    · exact ih _ _ _ h1
    · exact ih _ _ _ h1

/-- Every name of a key builder map that `ParseGrpcKeybuilders` returns is
`/`, a service name, `/` and a method name, whatever the field helpers do: a
path with a single `/` is matched by no builder of a parsed map. -/
theorem ParseGrpcKeybuilders_keys_form (util : JsonUtil) (key_builder_list : List Json) :
    ∀ n ∈ (ParseGrpcKeybuilders util key_builder_list).1.map Prod.fst,
      ∃ service method : List Char, n.data = '/' :: (service ++ '/' :: method) := by
  unfold ParseGrpcKeybuilders
  split_ifs
  · intro n hn; cases hn
  · exact ParseGrpcKeybuilders_loop_keys_form util key_builder_list 0 [] []
      (by intro _ hx; cases hx)

/-! ## C27: the throttle decision -/

theorem dropWhile_front_spec {α : Type} (q : α → Bool) (l : List α) :
    ∃ n, l.dropWhile q = l.drop n ∧ (∀ a ∈ l.take n, q a = true) ∧
      (∀ a, (l.dropWhile q).head? = some a → q a = false) := by
  induction l with
  | nil => exact ⟨0, rfl, by simp, by simp⟩
  | cons x xs ih =>
    obtain ⟨n, h1, h2, h3⟩ := ih
    by_cases hx : q x = true
    · refine ⟨n + 1, ?_, ?_, ?_⟩
      · simp [List.dropWhile_cons, hx, h1]
      · intro a ha
        simp only [List.take_succ_cons, List.mem_cons] at ha
        rcases ha with ha | ha
        · rw [ha]; exact hx
        · exact h2 a ha
      · intro a ha
        simp only [List.dropWhile_cons, hx, if_true] at ha
        exact h3 a ha
    · refine ⟨0, ?_, by simp, ?_⟩
      · simp [List.dropWhile_cons, hx]
      · intro a ha
        simp only [List.dropWhile_cons, hx, Bool.false_eq_true, if_false, List.head?_cons,
          Option.some.injEq] at ha
        rw [← ha]
        simpa using hx

/-- On a deque whose timestamps do not decrease, dropping from the front while
the front is too old removes every timestamp that is too old. -/
theorem dropWhile_older_eq_filter (bound : Timestamp) (l : List Timestamp)
    (hs : l.Pairwise (fun a b => a ≤ b)) :
    l.dropWhile (fun front => decide (front < bound)) =
      l.filter (fun ts => decide (¬ ts < bound)) := by
  induction l with
  | nil => rfl
  | cons x xs ih =>
    rw [List.pairwise_cons] at hs
    by_cases hx : x < bound
    · simp only [List.dropWhile_cons, hx, decide_True, if_true, List.filter_cons,
        not_true_eq_false, decide_False, Bool.false_eq_true, if_false]
      exact ih hs.2
    · simp only [List.dropWhile_cons, hx, decide_False, Bool.false_eq_true, if_false,
        List.filter_cons, not_false_eq_true, decide_True, if_true]
      congr 1
      symm
      rw [List.filter_eq_self]
      intro a ha
      have := hs.1 a ha
      simp only [decide_eq_true_eq, not_lt]
      exact le_trans (not_lt.1 hx) this

theorem ShouldThrottle_prune (t : Throttle) (now : Timestamp) (l : List Timestamp) :
    l.dropWhile (fun front => decide (now - front > t.window_size)) =
      l.dropWhile (fun front => decide (front < now - t.window_size)) := by
  congr 1
  funext front
  congr 1
  apply propext
  constructor <;> intro h <;> linarith

/-! ### Rounding to `float` and `double` -/

theorem floorLog2_loop_spec : ∀ (fuel n : Nat), 1 ≤ n → n ≤ fuel →
    2 ^ floorLog2.loop fuel n ≤ n ∧ n < 2 ^ (floorLog2.loop fuel n + 1) := by
  intro fuel
  induction fuel with
  | zero => intro n h1 h2; omega
  | succ fuel ih =>
    intro n h1 h2
    unfold floorLog2.loop
    split_ifs with h
    · have : n = 1 := by omega
      subst this
      exact ⟨by norm_num, by norm_num⟩
    · obtain ⟨a, b⟩ := ih (n / 2) (by omega) (by omega)
      have e1 : 2 ^ (floorLog2.loop fuel (n / 2) + 1) = 2 * 2 ^ floorLog2.loop fuel (n / 2) := by
        rw [pow_succ]; ring
      have e2 : 2 ^ (floorLog2.loop fuel (n / 2) + 1 + 1) =
          4 * 2 ^ floorLog2.loop fuel (n / 2) := by
        rw [pow_succ, pow_succ]; ring
      rw [e1] at b
      rw [e1, e2]
      constructor <;> omega

theorem floorLog2_spec (n : Nat) (h : 1 ≤ n) :
    2 ^ floorLog2 n ≤ n ∧ n < 2 ^ (floorLog2 n + 1) :=
  floorLog2_loop_spec n n h (le_refl n)

theorem floorLog2_lt (n k : Nat) (h : 1 ≤ n) (hk : n < 2 ^ k) : floorLog2 n < k := by
  by_contra hc
  have h1 := (floorLog2_spec n h).1
  have h2 : 2 ^ k ≤ 2 ^ floorLog2 n := Nat.pow_le_pow_right (by norm_num) (by omega)
  omega

theorem pow2_eq_zpow (k : Int) : pow2 k = (2 : ℚ) ^ k := by
  unfold pow2
  split_ifs with h
  · obtain ⟨n, rfl⟩ := Int.eq_ofNat_of_zero_le h
    simp
  · obtain ⟨n, hn⟩ : ∃ n : Nat, k = -(n : Int) := ⟨(-k).toNat, by omega⟩
    subst hn
    simp

/-- The binary exponent of a value that is not zero brackets it between two
successive powers of 2. -/
theorem binaryExponent_spec (q : ℚ) (hq : q ≠ 0) :
    pow2 (binaryExponent q) ≤ |q| ∧ |q| < pow2 (binaryExponent q + 1) := by
  have hN : 1 ≤ q.num.natAbs :=
    Nat.one_le_iff_ne_zero.2 (Int.natAbs_ne_zero.2 (Rat.num_ne_zero.2 hq))
  have hD : 1 ≤ q.den := q.den_pos
  obtain ⟨a1, a2⟩ := floorLog2_spec q.num.natAbs hN
  obtain ⟨b1, b2⟩ := floorLog2_spec q.den hD
  have habs : |q| = (q.num.natAbs : ℚ) / (q.den : ℚ) := by
    conv_lhs => rw [← Rat.num_div_den q]
    rw [abs_div, Nat.abs_cast, Nat.cast_natAbs, Int.cast_abs]
  have hDpos : (0 : ℚ) < (q.den : ℚ) := by exact_mod_cast hD
  have a1q : (2 : ℚ) ^ (floorLog2 q.num.natAbs : Int) ≤ (q.num.natAbs : ℚ) := by
    rw [zpow_natCast]; exact_mod_cast a1
  have a2q : (q.num.natAbs : ℚ) < (2 : ℚ) ^ ((floorLog2 q.num.natAbs : Int) + 1) := by
    have : (q.num.natAbs : ℚ) < (2 : ℚ) ^ (floorLog2 q.num.natAbs + 1) := by exact_mod_cast a2
    rw [← zpow_natCast] at this
    exact_mod_cast this
  have b1q : (2 : ℚ) ^ (floorLog2 q.den : Int) ≤ (q.den : ℚ) := by
    rw [zpow_natCast]; exact_mod_cast b1
  have b2q : (q.den : ℚ) < (2 : ℚ) ^ ((floorLog2 q.den : Int) + 1) := by
    have : (q.den : ℚ) < (2 : ℚ) ^ (floorLog2 q.den + 1) := by exact_mod_cast b2
    rw [← zpow_natCast] at this
    exact_mod_cast this
  have h2 : (0 : ℚ) < 2 := by norm_num
  have hlow : (2 : ℚ) ^ ((floorLog2 q.num.natAbs : Int) - (floorLog2 q.den : Int) - 1) ≤ |q| := by
    rw [habs, le_div_iff₀ hDpos]
    have e : (2 : ℚ) ^ ((floorLog2 q.num.natAbs : Int) - (floorLog2 q.den : Int) - 1) *
        (2 : ℚ) ^ ((floorLog2 q.den : Int) + 1) = (2 : ℚ) ^ (floorLog2 q.num.natAbs : Int) := by
      rw [← zpow_add₀ (ne_of_gt h2)]
      congr 1
      ring
    calc (2 : ℚ) ^ ((floorLog2 q.num.natAbs : Int) - (floorLog2 q.den : Int) - 1) * (q.den : ℚ)
        ≤ (2 : ℚ) ^ ((floorLog2 q.num.natAbs : Int) - (floorLog2 q.den : Int) - 1) *
          (2 : ℚ) ^ ((floorLog2 q.den : Int) + 1) :=
          mul_le_mul_of_nonneg_left (le_of_lt b2q) (le_of_lt (zpow_pos h2 _))
      _ = (2 : ℚ) ^ (floorLog2 q.num.natAbs : Int) := e
      _ ≤ (q.num.natAbs : ℚ) := a1q
  have hhigh : |q| < (2 : ℚ) ^ ((floorLog2 q.num.natAbs : Int) - (floorLog2 q.den : Int) + 1) := by
    rw [habs, div_lt_iff₀ hDpos]
    have e : (2 : ℚ) ^ ((floorLog2 q.num.natAbs : Int) - (floorLog2 q.den : Int) + 1) *
        (2 : ℚ) ^ (floorLog2 q.den : Int) = (2 : ℚ) ^ ((floorLog2 q.num.natAbs : Int) + 1) := by
      rw [← zpow_add₀ (ne_of_gt h2)]
      congr 1
      ring
    calc (q.num.natAbs : ℚ) < (2 : ℚ) ^ ((floorLog2 q.num.natAbs : Int) + 1) := a2q
      _ = (2 : ℚ) ^ ((floorLog2 q.num.natAbs : Int) - (floorLog2 q.den : Int) + 1) *
          (2 : ℚ) ^ (floorLog2 q.den : Int) := e.symm
      _ ≤ (2 : ℚ) ^ ((floorLog2 q.num.natAbs : Int) - (floorLog2 q.den : Int) + 1) *
          (q.den : ℚ) :=
          mul_le_mul_of_nonneg_left b1q (le_of_lt (zpow_pos h2 _))
  unfold binaryExponent
  simp only [pow2_eq_zpow]
  split_ifs with h
  · refine ⟨hlow, ?_⟩
    rw [sub_add_cancel]
    exact h
  · exact ⟨not_lt.1 h, hhigh⟩

theorem pow2_pos (k : Int) : 0 < pow2 k := by
  rw [pow2_eq_zpow]
  exact zpow_pos (by norm_num) k

/-- The integer `roundHalfEven` returns is within a half of the value. -/
theorem roundHalfEven_spec (x : ℚ) : |(roundHalfEven x : ℚ) - x| ≤ 1 / 2 := by
  have h1 : (⌊x⌋ : ℚ) ≤ x := Int.floor_le x
  have h2 : x < (⌊x⌋ : ℚ) + 1 := Int.lt_floor_add_one x
  unfold roundHalfEven
  rw [abs_le]
  split_ifs with a b c
  · constructor <;> linarith
  · push_cast
    constructor <;> linarith
  · constructor <;> linarith
  · push_cast
    constructor <;> linarith

/-- The value `roundToBinary` returns for `q ≠ 0` is a multiple of the unit in
the last place of `q`, at most half a unit away from `q`. -/
theorem roundToBinary_nearest (prec : Nat) (emin : Int) (q : ℚ) (hq : q ≠ 0) :
    roundToBinary prec emin q =
      (roundHalfEven (q / pow2 (max (binaryExponent q) emin - ((prec : Int) - 1))) : ℚ) *
        pow2 (max (binaryExponent q) emin - ((prec : Int) - 1)) ∧
    |roundToBinary prec emin q - q| ≤
      pow2 (max (binaryExponent q) emin - ((prec : Int) - 1)) / 2 := by
  have hpos := pow2_pos (max (binaryExponent q) emin - ((prec : Int) - 1))
  have hr := roundHalfEven_spec (q / pow2 (max (binaryExponent q) emin - ((prec : Int) - 1)))
  have hval : roundToBinary prec emin q =
      (roundHalfEven (q / pow2 (max (binaryExponent q) emin - ((prec : Int) - 1))) : ℚ) *
        pow2 (max (binaryExponent q) emin - ((prec : Int) - 1)) := by
    unfold roundToBinary
    rw [if_neg hq]
  refine ⟨hval, ?_⟩
  rw [hval]
  have e : (roundHalfEven (q / pow2 (max (binaryExponent q) emin - ((prec : Int) - 1))) : ℚ) *
      pow2 (max (binaryExponent q) emin - ((prec : Int) - 1)) - q =
      ((roundHalfEven (q / pow2 (max (binaryExponent q) emin - ((prec : Int) - 1))) : ℚ) -
        q / pow2 (max (binaryExponent q) emin - ((prec : Int) - 1))) *
        pow2 (max (binaryExponent q) emin - ((prec : Int) - 1)) := by
    field_simp
  rw [e, abs_mul, abs_of_pos hpos]
  calc |(roundHalfEven (q / pow2 (max (binaryExponent q) emin - ((prec : Int) - 1))) : ℚ) -
        q / pow2 (max (binaryExponent q) emin - ((prec : Int) - 1))| *
        pow2 (max (binaryExponent q) emin - ((prec : Int) - 1))
      ≤ 1 / 2 * pow2 (max (binaryExponent q) emin - ((prec : Int) - 1)) :=
        mul_le_mul_of_nonneg_right hr (le_of_lt hpos)
    _ = pow2 (max (binaryExponent q) emin - ((prec : Int) - 1)) / 2 := by ring

theorem roundHalfEven_intCast (n : Int) : roundHalfEven (n : ℚ) = n := by
  simp [roundHalfEven]

theorem binaryExponent_intCast (n : Int) (hn : n ≠ 0) :
    binaryExponent (n : ℚ) = (floorLog2 n.natAbs : Int) := by
  have h1 : 1 ≤ n.natAbs := Nat.one_le_iff_ne_zero.2 (Int.natAbs_ne_zero.2 hn)
  have hs := (floorLog2_spec n.natAbs h1).1
  have hone : floorLog2 1 = 0 := rfl
  unfold binaryExponent
  simp only [Rat.num_intCast, Rat.den_intCast, hone, Nat.cast_zero, sub_zero]
  rw [if_neg]
  unfold pow2
  rw [if_pos (Int.natCast_nonneg _), Int.toNat_natCast, not_lt]
  have habs : |(n : ℚ)| = ((n.natAbs : Nat) : ℚ) := by
    rw [Nat.cast_natAbs, Int.cast_abs]
  rw [habs]
  exact_mod_cast hs

theorem roundToBinary_intCast (prec : Nat) (emin : Int) (n : Int)
    (hemin : emin ≤ 0) (hn : n.natAbs < 2 ^ prec) : roundToBinary prec emin (n : ℚ) = n := by
  by_cases h0 : n = 0
  · subst h0
    simp [roundToBinary]
  · have h1 : 1 ≤ n.natAbs := Nat.one_le_iff_ne_zero.2 (Int.natAbs_ne_zero.2 h0)
    have hlt := floorLog2_lt n.natAbs prec h1 hn
    have hq : (n : ℚ) ≠ 0 := by exact_mod_cast h0
    unfold roundToBinary
    rw [if_neg hq, binaryExponent_intCast n h0]
    have hmax : max (floorLog2 n.natAbs : Int) emin = (floorLog2 n.natAbs : Int) :=
      max_eq_left (le_trans hemin (Int.natCast_nonneg _))
    simp only [hmax]
    obtain ⟨k, hk⟩ : ∃ k : Nat, (floorLog2 n.natAbs : Int) - ((prec : Int) - 1) = -(k : Int) :=
      ⟨prec - 1 - floorLog2 n.natAbs, by omega⟩
    rw [hk]
    have hp : pow2 (-(k : Int)) = 1 / ((2 ^ k : Nat) : ℚ) := by
      unfold pow2
      by_cases hk0 : k = 0
      · subst hk0
        simp
      · rw [if_neg (by omega)]
        simp
    rw [hp]
    have hpos : ((2 ^ k : Nat) : ℚ) ≠ 0 := by positivity
    have hdiv : (n : ℚ) / (1 / ((2 ^ k : Nat) : ℚ)) = ((n * (2 ^ k : Nat) : Int) : ℚ) := by
      push_cast
      field_simp
    rw [hdiv, roundHalfEven_intCast]
    push_cast
    field_simp

theorem toFloat_intCast (n : Int) (hn : n.natAbs < 2 ^ 24) : toFloat (n : ℚ) = n :=
  roundToBinary_intCast 24 (-126) n (by norm_num) hn

theorem toDouble_intCast (n : Int) (hn : n.natAbs < 2 ^ 53) : toDouble (n : ℚ) = n :=
  roundToBinary_intCast 53 (-1022) n (by norm_num) hn

/-- The arithmetic of `ShouldThrottle` on `R` requests and `F` failures, with
the ratio 2 and the padding 8, is exact up to the quotient when `R + 8` and
`F` are below 2^24. -/
theorem throttle_operands_exact (R F : Nat) (hR : R + 8 < 2 ^ 24) (hF : F < 2 ^ 24) :
    toFloat (R : ℚ) = R ∧ toFloat (F : ℚ) = F ∧
    toFloat ((R : ℚ) - (F : ℚ)) = (R : ℚ) - F ∧
    toDouble (((R : ℚ) - F) * 2) = ((R : ℚ) - F) * 2 ∧
    toDouble ((R : ℚ) - ((R : ℚ) - F) * 2) = (R : ℚ) - ((R : ℚ) - F) * 2 ∧
    toFloat (((8 : Int) : ℚ)) = 8 ∧
    toFloat ((R : ℚ) + 8) = (R : ℚ) + 8 := by
  have h1 := toFloat_intCast (R : Int) (by simp only [Int.natAbs_ofNat]; omega)
  have h2 := toFloat_intCast (F : Int) (by simp only [Int.natAbs_ofNat]; omega)
  have h3 := toFloat_intCast ((R : Int) - F) (by omega)
  have h4 := toDouble_intCast (((R : Int) - F) * 2) (by omega)
  have h5 := toDouble_intCast ((R : Int) - ((R : Int) - F) * 2) (by omega)
  have h6 := toFloat_intCast 8 (by norm_num)
  have h7 := toFloat_intCast ((R : Int) + 8) (by omega)
  push_cast at h1 h2 h3 h4 h5 h6 h7
  exact ⟨h1, h2, h3, h4, h5, by simpa using h6, h7⟩

/-- **C27** (counterexample). A throttle whose last eleven requests, all
within the window, all failed, asked at 1000 with the draw
`9713125 / 2 ^ 24`: `R = 11`, `S = 0`, the draw is a `float` in `[0, 1)`, below
`(R - 2 S) / (R + 8) = 11 / 19`, yet the call does not throttle and appends
nothing: `throttle_probability` is the `float` nearest to `11 / 19`, which is
the draw itself. -/
theorem throttle_probability_is_rounded :
    (([0, 100, 200, 300, 400, 500, 600, 700, 800, 900, 1000] : List Timestamp).dropWhile
      (fun front => decide (front < 1000 - 30000))).length = 11 ∧
    (0 : ℚ) ≤ 9713125 / 16777216 ∧ (9713125 : ℚ) / 16777216 < 1 ∧
    toFloat (9713125 / 16777216) = 9713125 / 16777216 ∧
    (9713125 : ℚ) / 16777216 < (11 - 2 * (11 - 11)) / (11 + 8) ∧
    toFloat (toDouble ((11 - 2 * (11 - 11)) / (11 + 8))) = 9713125 / 16777216 ∧
    ({ Throttle.new with
        requests := [0, 100, 200, 300, 400, 500, 600, 700, 800, 900, 1000]
        failures := [0, 100, 200, 300, 400, 500, 600, 700, 800, 900, 1000] }
      : Throttle).ShouldThrottle 1000 (9713125 / 16777216) =
      (false, { Throttle.new with
        requests := [0, 100, 200, 300, 400, 500, 600, 700, 800, 900, 1000]
        failures := [0, 100, 200, 300, 400, 500, 600, 700, 800, 900, 1000] }) := by
  decide!

/-- **C27** (amended). `ShouldThrottle` at time `now`, on a throttle with the
window of 30 s, the ratio 2 and the padding 8, for a draw `u`.  Both deques
first lose, from the front, the timestamps older than `now - 30000`, up to the
first that is not (all of the older ones when the timestamps do not decrease).
With `R` the number of requests left, `F` the number of failures left and
`S = R - F`, and deques of fewer than `2 ^ 24 - 8` timestamps (so that the
counts and their sums are exact in `float`), the call throttles exactly when
`u` is below `throttle_probability`, the quotient `(R - 2 S) / (R + 8)`
rounded to `double` and then to `float`; when it throttles `now` is appended
to both deques, and otherwise nothing is appended. -/
theorem should_throttle_decision (t : Throttle) (now : Timestamp) (u : ℚ)
    (hw : t.window_size = 30000) (hratio : t.ratio_for_successes = 2) (hp : t.padding = 8) :
    (∃ n m,
      t.requests.dropWhile (fun front => decide (front < now - 30000)) = t.requests.drop n ∧
      (∀ ts ∈ t.requests.take n, ts < now - 30000) ∧
      (∀ ts, (t.requests.drop n).head? = some ts → ¬ ts < now - 30000) ∧
      t.failures.dropWhile (fun front => decide (front < now - 30000)) = t.failures.drop m ∧
      (∀ ts ∈ t.failures.take m, ts < now - 30000) ∧
      (∀ ts, (t.failures.drop m).head? = some ts → ¬ ts < now - 30000)) ∧
    (t.requests.Pairwise (fun a b => a ≤ b) →
      t.requests.dropWhile (fun front => decide (front < now - 30000)) =
        t.requests.filter (fun ts => decide (¬ ts < now - 30000))) ∧
    (t.failures.Pairwise (fun a b => a ≤ b) →
      t.failures.dropWhile (fun front => decide (front < now - 30000)) =
        t.failures.filter (fun ts => decide (¬ ts < now - 30000))) ∧
    (t.requests.length + 8 < 2 ^ 24 → t.failures.length < 2 ^ 24 →
      ((t.ShouldThrottle now u).1 = true ↔
        u < toFloat (toDouble
          ((((t.requests.dropWhile (fun front => decide (front < now - 30000))).length : ℚ) -
            2 * (((t.requests.dropWhile (fun front => decide (front < now - 30000))).length : ℚ) -
              ((t.failures.dropWhile (fun front => decide (front < now - 30000))).length : ℚ))) /
          (((t.requests.dropWhile (fun front => decide (front < now - 30000))).length : ℚ)
            + 8))))) ∧
    ((t.ShouldThrottle now u).1 = true →
      (t.ShouldThrottle now u).2 =
        { t with
          requests := t.requests.dropWhile (fun front => decide (front < now - 30000)) ++ [now]
          failures :=
            t.failures.dropWhile (fun front => decide (front < now - 30000)) ++ [now] }) ∧
    ((t.ShouldThrottle now u).1 = false →
      (t.ShouldThrottle now u).2 =
        { t with
          requests := t.requests.dropWhile (fun front => decide (front < now - 30000))
          failures := t.failures.dropWhile (fun front => decide (front < now - 30000)) }) := by
  have hr := ShouldThrottle_prune t now t.requests
  have hf := ShouldThrottle_prune t now t.failures
  rw [hw] at hr hf
  refine ⟨?_, dropWhile_older_eq_filter _ _, dropWhile_older_eq_filter _ _, ?_, ?_, ?_⟩
  · obtain ⟨n, h1, h2, h3⟩ :=
      dropWhile_front_spec (fun front => decide (front < now - 30000)) t.requests
    obtain ⟨m, h4, h5, h6⟩ :=
      dropWhile_front_spec (fun front => decide (front < now - 30000)) t.failures
    refine ⟨n, m, h1, ?_, ?_, h4, ?_, ?_⟩
    · intro ts hts; simpa using h2 ts hts
    · intro ts hts; rw [← h1] at hts; simpa using h3 ts hts
    · intro ts hts; simpa using h5 ts hts
    · intro ts hts; rw [← h4] at hts; simpa using h6 ts hts
  · intro hR hF
    have hR1 : (t.requests.dropWhile (fun front => decide (front < now - 30000))).length + 8
        < 2 ^ 24 :=
      lt_of_le_of_lt (Nat.add_le_add_right (List.dropWhile_sublist _).length_le 8) hR
    have hF1 : (t.failures.dropWhile (fun front => decide (front < now - 30000))).length
        < 2 ^ 24 :=
      lt_of_le_of_lt (List.dropWhile_sublist _).length_le hF
    obtain ⟨e1, e2, e3, e4, e5, e6, e7⟩ := throttle_operands_exact _ _ hR1 hF1
    have hne : ((t.requests.dropWhile (fun front => decide (front < now - 30000))).length : ℚ)
        + 8 ≠ 0 := by positivity
    simp only [Throttle.ShouldThrottle, hw, hratio, hp, hr, hf, e1, e2, e3, e4, e5, e6, e7,
      if_neg hne]
    split_ifs with h
    · simp only [decide_eq_true_eq] at h
      simp only [true_iff]
      convert h using 4
      ring
    · simp only [decide_eq_true_eq] at h
      simp only [Bool.false_eq_true, false_iff]
      intro h1
      apply h
      convert h1 using 4
      ring
  · intro h
    simp only [Throttle.ShouldThrottle, hw, hr, hf] at h ⊢
    split_ifs at h ⊢
    all_goals rfl
  · intro h
    simp only [Throttle.ShouldThrottle, hw, hr, hf] at h ⊢
    split_ifs at h ⊢
    all_goals rfl

/-- Witness for **C27** (amended): a throttle that saw requests at 1000 and
40000, the first of which failed, asked at 45000 with the draw 0: the request
and the failure at 1000 are dropped, `R = 1`, `F = 0`, the quotient is `-1/9`,
and the call does not throttle. -/
theorem should_throttle_decision_witness :
    ({ Throttle.new with requests := [1000, 40000], failures := [1000] }
      : Throttle).ShouldThrottle 45000 0 =
      (false, { Throttle.new with requests := [40000], failures := [] }) := by
  have h := should_throttle_decision
    { Throttle.new with requests := [1000, 40000], failures := [1000] } 45000 0 rfl rfl rfl
  have hno : (({ Throttle.new with requests := [1000, 40000], failures := [1000] }
      : Throttle).ShouldThrottle 45000 0).1 = false := by
    have hiff := h.2.2.2.1 (by decide) (by decide)
    cases hb : (({ Throttle.new with requests := [1000, 40000], failures := [1000] }
      : Throttle).ShouldThrottle 45000 0).1 with
    | false => rfl
    | true =>
      exfalso
      have hlt := hiff.1 hb
      revert hlt
      decide!
  rw [Prod.ext_iff]
  exact ⟨hno, by rw [h.2.2.2.2.2 hno]; decide!⟩

/-! ## C28: a throttled pick on an entry with unexpired data -/

/-- **C28.** A pick at `now` whose entry has data that is stale and not
expired (`stale_time < now ≤ data_expiration_time`), is not in backoff
(`backoff_time < now`) and has no pending request, while the throttle answers
"throttle" for the draw `u`: the pick is not answered from the throttle
branch.  It still starts a request for the key, with reason STALE, the
backoff state and the header data of the entry, and returns what
`Entry::Pick` returns; the throttle has recorded `now` as a request and as a
failure. -/
theorem throttled_pick_with_data_still_starts_request (p : Picker) (lb : RlsLb)
    (args : PickArgs) (now : Timestamp) (u : ℚ) (key : RequestKey) (ch : RlsChannel)
    (e : Entry) (out : PickOutcome)
    (hkey : key = ⟨BuildKeyMap p.config.key_builder_map args.path lb.server_name
      args.initial_metadata⟩)
    (hs : lb.is_shutdown = false)
    (he : umFind lb.cache.map key = some e)
    (hstale : e.stale_time < now) (hdata : now ≤ e.data_expiration_time)
    (hback : e.backoff_time < now)
    (hr : umFind lb.request_map key = none)
    (hc : lb.rls_channel = some ch)
    (hthrottle : (ch.throttle.ShouldThrottle now u).1 = true)
    (hpick : Entry.Pick lb.child_policy_map e args = some out) :
    ∃ lb1, Picker.Pick p lb args now u = some (lb1, out) ∧
      umFind lb1.request_map key =
        some ⟨key, ch.id, e.backoff_state, Reason.REASON_STALE, e.header_data⟩ ∧
      lb1.request_map =
        (key, ⟨key, ch.id, e.backoff_state, Reason.REASON_STALE, e.header_data⟩) ::
          lb.request_map ∧
      lb1.rls_channel = some { ch with throttle :=
        { ch.throttle with
          requests := ch.throttle.requests.dropWhile
            (fun front => decide (now - front > ch.throttle.window_size)) ++ [now]
          failures := ch.throttle.failures.dropWhile
            (fun front => decide (now - front > ch.throttle.window_size)) ++ [now] } } := by
  have h := pick_stale_aux p lb args now u key ch e hkey hs he hstale hdata hback hr hc
  rw [hpick] at h
  refine ⟨_, h, ?_, rfl, ?_⟩
  · simp [umFind]
  · have h2 : (ch.throttle.ShouldThrottle now u).2 =
        { ch.throttle with
          requests := ch.throttle.requests.dropWhile
            (fun front => decide (now - front > ch.throttle.window_size)) ++ [now]
          failures := ch.throttle.failures.dropWhile
            (fun front => decide (now - front > ch.throttle.window_size)) ++ [now] } := by
      simp only [Throttle.ShouldThrottle] at hthrottle ⊢
      split_ifs at hthrottle ⊢
      all_goals rfl
    simp only [h2]

/-- Witness for **C28**: the entry of `exKey` (stale from 30000, expired from
60000), a throttle that recorded a failed request at 39000, a pick at 40000
with the draw 0. -/
theorem throttled_pick_with_data_still_starts_request_witness :
    ∃ lb1, Picker.Pick exPicker
        (exLb [(exKey, exEntryData)] [] { Throttle.new with requests := [39000],
                                                              failures := [39000] })
        exArgs 40000 0 =
        some (lb1, ⟨PickResult.Complete 1, [("X-Google-RLS-Data", "hd")]⟩) ∧
      umFind lb1.request_map exKey =
        some ⟨exKey, 0, none, Reason.REASON_STALE, "hd"⟩ ∧
      lb1.rls_channel = some (exChannel
        { Throttle.new with requests := [39000, 40000], failures := [39000, 40000] }) := by
  obtain ⟨lb1, h1, h2, -, h4⟩ := throttled_pick_with_data_still_starts_request exPicker
    (exLb [(exKey, exEntryData)] [] { Throttle.new with requests := [39000],
                                                          failures := [39000] })
    exArgs 40000 0 exKey
    (exChannel { Throttle.new with requests := [39000], failures := [39000] }) exEntryData
    ⟨PickResult.Complete 1, [("X-Google-RLS-Data", "hd")]⟩
    (by decide!) rfl (by decide!) (by decide!) (by decide!) (by decide!) (by decide!) rfl
    (by decide!) (by decide!)
  exact ⟨lb1, h1, h2, by rw [h4]; decide!⟩

/-! ## C30: the length prefix of a child status -/

/-- **C30.** Failing input: the length 128.  `EncodeUInt32ToBytes` writes the
`char` values -128, 0, 0, 0, and `DecodeUInt32FromBytes` returns 4294967168 for
them, not 128: the first element is sign-extended.  The lengths 127 and
2147483648, whose three low bytes are below 0x80, are read back; 32768 and
8388608, with the byte 0x80 in the second and third place, are not.  So a
child whose serialized message has 128 bytes is written by `StatusAddChild`
and `ParseChildren` fails its assertion on it, while one of 127 bytes is
read back. -/
theorem length_prefix_does_not_round_trip :
    EncodeUInt32ToBytes 128 = [-128, 0, 0, 0] ∧
    DecodeUInt32FromBytes (EncodeUInt32ToBytes 128) = 4294967168 ∧
    DecodeUInt32FromBytes (EncodeUInt32ToBytes 127) = 127 ∧
    DecodeUInt32FromBytes (EncodeUInt32ToBytes 2147483648) = 2147483648 ∧
    DecodeUInt32FromBytes (EncodeUInt32ToBytes 32768) = 4294934528 ∧
    DecodeUInt32FromBytes (EncodeUInt32ToBytes 8388608) = 4286578688 ∧
    ParseChildren (StatusAddChild [] (List.replicate 128 65)) = none ∧
    ParseChildren (StatusAddChild [] (List.replicate 127 65)) =
      some [List.replicate 127 65] := by
  decide!

/-! ## C24: the cleanup sweep -/

theorem cleanupLoop_spec (L : Layout) (now : Timestamp) :
    ∀ (rest : List (RequestKey × Entry)) (c : Cache),
      (c.map.map Prod.fst).Nodup → c.lru_list.Nodup →
      (Cache.cleanupLoop L now rest c).map =
        c.map.filter (fun p => decide (p.1 ∉ Cache.sweptKeys now rest)) ∧
      (Cache.cleanupLoop L now rest c).lru_list =
        c.lru_list.filter (fun k => decide (k ∉ Cache.sweptKeys now rest)) ∧
      (Cache.cleanupLoop L now rest c).size =
        c.size - ((Cache.sweptKeys now rest).map (Cache.EntrySizeForKey L)).sum ∧
      (Cache.cleanupLoop L now rest c).size_limit = c.size_limit := by
  intro rest
  induction rest with
  | nil =>
    intro c _ _
    simp [Cache.cleanupLoop, Cache.sweptKeys]
  | cons p rest ih =>
    obtain ⟨key, e⟩ := p
    intro c hk hl
    unfold Cache.cleanupLoop
    by_cases hrm : (e.ShouldRemove now && e.CanEvict now) = true
    · have hsw : Cache.sweptKeys now ((key, e) :: rest) = key :: Cache.sweptKeys now rest := by
        simp [Cache.sweptKeys, List.filter_cons, hrm]
      simp only [hrm, if_true, hsw]
      obtain ⟨h1, h2, h3, h4⟩ :=
        ih { (c.eraseEntry key) with size := c.size - Cache.EntrySizeForKey L key }
          (by simpa [Cache.eraseEntry] using keys_nodup_umErase c.map key hk)
          (by simpa [Cache.eraseEntry] using hl.erase key)
      refine ⟨?_, ?_, ?_, ?_⟩
      · rw [h1]
        simp only [Cache.eraseEntry, umErase_eq_filter c.map key hk, List.filter_filter]
        congr 1
        funext q
        simp only [List.mem_cons, not_or, ne_eq, Bool.decide_and, Bool.and_comm]
      · rw [h2]
        simp only [Cache.eraseEntry, hl.erase_eq_filter, List.filter_filter]
        congr 1
        funext q
        simp only [List.mem_cons, not_or, ne_eq, Bool.decide_and, bne_iff_ne, Bool.and_comm]
        by_cases hq : q = key <;> simp [hq]
      · rw [h3]
        simp only [List.map_cons, List.sum_cons]
        omega
      · rw [h4]; rfl
    · have hsw : Cache.sweptKeys now ((key, e) :: rest) = Cache.sweptKeys now rest := by
        simp [Cache.sweptKeys, List.filter_cons, hrm]
      simp only [hrm, Bool.false_eq_true, if_false, hsw]
      exact ih c hk hl

theorem mem_umFind_of_nodup {K V : Type} [DecidableEq K] {m : List (K × V)} {k : K} {v : V}
    (hnd : (m.map Prod.fst).Nodup) (h : (k, v) ∈ m) : umFind m k = some v := by
  induction m with
  | nil => cases h
  | cons p rest ih =>
    obtain ⟨k1, v1⟩ := p
    simp only [List.map_cons, List.nodup_cons] at hnd
    rcases List.mem_cons.1 h with he | hin
    · cases he
      simp [umFind]
    · have hne : k1 ≠ k := by
        intro e
        apply hnd.1
        rw [e]
        exact List.mem_map_of_mem Prod.fst hin
      simp only [umFind, hne, if_false]
      exact ih hnd.2 hin

theorem mem_sweptKeys_iff (now : Timestamp) {m : List (RequestKey × Entry)} {key : RequestKey}
    {e : Entry} (hnd : (m.map Prod.fst).Nodup) (he : umFind m key = some e) :
    key ∈ Cache.sweptKeys now m ↔
      (e.data_expiration_time < now ∧ e.backoff_expiration_time < now ∧
        e.min_expiration_time < now) := by
  simp only [Cache.sweptKeys, List.mem_map, List.mem_filter, Prod.exists, exists_and_right,
    exists_eq_right]
  constructor
  · rintro ⟨e1, hmem, hrm⟩
    have := mem_umFind_of_nodup hnd hmem
    rw [he] at this
    cases this
    simpa [Entry.ShouldRemove, Entry.CanEvict, and_assoc] using hrm
  · intro h
    exact ⟨e, umFind_some_mem he, by simpa [Entry.ShouldRemove, Entry.CanEvict, and_assoc] using h⟩

/-- **C24** (counterexample). The entry made by a lookup that failed at time 0
has no data, `backoff_expiration_time = 2000` and `min_expiration_time =
5000`; a sweep at 3000, on the policy not shut down, keeps it, although its
data expiration time and its backoff expiration time are both before 3000. -/
theorem cleanup_keeps_young_entry :
    (RlsLb.run exLayout (exLb [] [] Throttle.new)
        [.pick exPicker exArgs 0 (1/2), .complete exKey exResultDown 0 0]).map
      (fun lb => (lb.is_shutdown, lb.cache.map.map (fun p =>
        (p.1, decide (p.2.data_expiration_time < 3000), p.2.backoff_expiration_time,
          p.2.min_expiration_time)))) =
      some (false, [(exKey, true, 2000, 5000)]) ∧
    (RlsLb.run exLayout (exLb [] [] Throttle.new)
        [.pick exPicker exArgs 0 (1/2), .complete exKey exResultDown 0 0]).map
      (fun lb => ((RlsLb.OnCleanupTimer exLayout lb 3000 false).cache.map.map Prod.fst,
        decide ((RlsLb.OnCleanupTimer exLayout lb 3000 false).cache.size = lb.cache.size))) =
      some ([exKey], true) := by
  decide!

/-- **C24** (amended). A sweep at `now` on a policy that is not shut down,
whose cache satisfies the invariant, removes exactly the entries with
`data_expiration_time < now`, `backoff_expiration_time < now` and
`min_expiration_time < now`: such an entry is gone from the map and from the
LRU list, every other entry is kept as it is, no entry appears, and the size
decreases by the sum of the sizes of the removed entries. -/
theorem cleanup_removes_expired_evictable_entries (L : Layout) (lb : RlsLb) (now : Timestamp)
    (hs : lb.is_shutdown = false) (hinv : Cache.Inv L lb.cache) :
    (∀ key e, umFind lb.cache.map key = some e →
      ((e.data_expiration_time < now ∧ e.backoff_expiration_time < now ∧
          e.min_expiration_time < now) →
        umFind (RlsLb.OnCleanupTimer L lb now false).cache.map key = none ∧
        key ∉ (RlsLb.OnCleanupTimer L lb now false).cache.lru_list) ∧
      (¬ (e.data_expiration_time < now ∧ e.backoff_expiration_time < now ∧
          e.min_expiration_time < now) →
        umFind (RlsLb.OnCleanupTimer L lb now false).cache.map key = some e ∧
        key ∈ (RlsLb.OnCleanupTimer L lb now false).cache.lru_list)) ∧
    (∀ key, umFind lb.cache.map key = none →
      umFind (RlsLb.OnCleanupTimer L lb now false).cache.map key = none) ∧
    (RlsLb.OnCleanupTimer L lb now false).cache.map =
      lb.cache.map.filter (fun p => decide (p.1 ∉ Cache.sweptKeys now lb.cache.map)) ∧
    (RlsLb.OnCleanupTimer L lb now false).cache.lru_list =
      lb.cache.lru_list.filter (fun k => decide (k ∉ Cache.sweptKeys now lb.cache.map)) ∧
    (RlsLb.OnCleanupTimer L lb now false).cache.size +
        ((Cache.sweptKeys now lb.cache.map).map (Cache.EntrySizeForKey L)).sum =
      lb.cache.size ∧
    Cache.Inv L (RlsLb.OnCleanupTimer L lb now false).cache ∧
    (RlsLb.OnCleanupTimer L lb now false).request_map = lb.request_map ∧
    (RlsLb.OnCleanupTimer L lb now false).rls_channel = lb.rls_channel := by
  obtain ⟨h1, h2, h3, -⟩ :=
    cleanupLoop_spec L now lb.cache.map lb.cache hinv.keys_nodup hinv.lru_nodup
  have hc : (RlsLb.OnCleanupTimer L lb now false).cache = Cache.OnCleanupTimer L now lb.cache := by
    simp [RlsLb.OnCleanupTimer, hs]
  have hinv1 := OnCleanupTimer_Inv now hinv
  rw [hc]
  unfold Cache.OnCleanupTimer at hinv1 ⊢
  refine ⟨?_, ?_, h1, h2, ?_, hinv1, by simp [RlsLb.OnCleanupTimer, hs],
    by simp [RlsLb.OnCleanupTimer, hs]⟩
  · intro key e he
    have hiff := mem_sweptKeys_iff now hinv.keys_nodup he
    constructor
    · intro hrm
      have hmem := hiff.2 hrm
      refine ⟨by rw [h1, umFind_filter_keys, if_pos hmem], ?_⟩
      rw [h2]
      simp [hmem]
    · intro hrm
      have hmem : key ∉ Cache.sweptKeys now lb.cache.map := fun h => hrm (hiff.1 h)
      refine ⟨by rw [h1, umFind_filter_keys, if_neg hmem, he], ?_⟩
      rw [h2]
      simp only [List.mem_filter, decide_eq_true_eq]
      exact ⟨(hinv.lru_mem key).2 (umFind_some_mem_keys he), hmem⟩
  · intro key hnone
    rw [h1, umFind_filter_keys]
    split_ifs
    · rfl
    · exact hnone
  · rw [h3]
    have hsub : ((Cache.sweptKeys now lb.cache.map).map (Cache.EntrySizeForKey L)).sum ≤
        lb.cache.size := by
      rw [hinv.size_eq, sumEntrySizes_keys]
      apply List.Sublist.sum_le_sum
      · exact ((List.filter_sublist _).map Prod.fst).map _
      · intro a _; exact Nat.zero_le a
    omega

/-- Witness for **C24** (amended): the entry of `exKey` with data expired at
60000, swept at 70000. -/
theorem cleanup_removes_expired_evictable_entries_witness :
    (exLb [(exKey, exEntryData)] [] Throttle.new).is_shutdown = false ∧
    Cache.Inv exLayout (exLb [(exKey, exEntryData)] [] Throttle.new).cache ∧
    umFind (RlsLb.OnCleanupTimer exLayout (exLb [(exKey, exEntryData)] [] Throttle.new) 70000
      false).cache.map exKey = none :=
  ⟨rfl, ⟨by decide!, by decide!, by decide!, by simp [exLb]⟩,
   (((cleanup_removes_expired_evictable_entries exLayout
      (exLb [(exKey, exEntryData)] [] Throttle.new) 70000 rfl
      ⟨by decide!, by decide!, by decide!, by simp [exLb]⟩).1 exKey exEntryData
      (by decide!)).1 (by decide!)).1⟩

/-! ## C26: a failed response -/

/-- **C26.** Applying a failed response at `now` to the entry stored under
`key` returns, with no wrapper to finish updating and one picker refresh
scheduled.  The entry gets the status of the response, the next attempt time
of the backoff state (that of the request when it carries one, else a new
one) as `backoff_time`, `now + 2 (backoff_time - now)` as
`backoff_expiration_time`, the advanced backoff state and a backoff timer
armed for `backoff_time`; its header data, data expiration time, stale time,
minimum expiration time and wrapper list are unchanged, as are the wrappers of
the policy and the other entries.  With a new backoff state `backoff_time =
now + 1000` and `backoff_expiration_time = now + 2000`. -/
theorem failed_response_sets_backoff (lb : RlsLb) (key : RequestKey) (response : ResponseInfo)
    (backoff_state : Option BackOff) (now : Timestamp) (jitter : Duration) (e : Entry)
    (he : umFind lb.cache.map key = some e) (hfail : response.status.ok = false) :
    ∃ lb1 e1, Entry.OnRlsResponseLocked lb key response backoff_state now jitter =
        some (lb1, []) ∧
      lb1.picker_updates = lb.picker_updates + 1 ∧
      lb1.child_policy_map = lb.child_policy_map ∧
      lb1.request_map = lb.request_map ∧
      umFind lb1.cache.map key = some e1 ∧
      (∀ k, k ≠ key → umFind lb1.cache.map k = umFind lb.cache.map k) ∧
      e1.status = response.status ∧
      e1.backoff_time =
        ((backoff_state.getD MakeCacheEntryBackoff).NextAttemptTime now jitter).1 ∧
      e1.backoff_state =
        some ((backoff_state.getD MakeCacheEntryBackoff).NextAttemptTime now jitter).2 ∧
      e1.backoff_expiration_time = now + 2 * (e1.backoff_time - now) ∧
      e1.backoff_timer = some ⟨true, e1.backoff_time⟩ ∧
      e1.header_data = e.header_data ∧
      e1.data_expiration_time = e.data_expiration_time ∧
      e1.stale_time = e.stale_time ∧
      e1.min_expiration_time = e.min_expiration_time ∧
      e1.child_policy_wrappers = e.child_policy_wrappers ∧
      (backoff_state = none →
        e1.backoff_time = now + 1000 ∧ e1.backoff_expiration_time = now + 2000) := by
  have hkeys : key ∈ (lb.cache.MarkUsed key).map.map Prod.fst := by
    simpa [Cache.MarkUsed] using umFind_some_mem_keys he
  unfold Entry.OnRlsResponseLocked
  simp only [he, hfail, Bool.not_false, if_true]
  refine ⟨_,
    { e with
      status := response.status
      backoff_state :=
        some ((backoff_state.getD MakeCacheEntryBackoff).NextAttemptTime now jitter).2
      backoff_time := ((backoff_state.getD MakeCacheEntryBackoff).NextAttemptTime now jitter).1
      backoff_expiration_time := now +
        (((backoff_state.getD MakeCacheEntryBackoff).NextAttemptTime now jitter).1 - now) * 2
      backoff_timer := some ⟨true,
        ((backoff_state.getD MakeCacheEntryBackoff).NextAttemptTime now jitter).1⟩ },
    rfl, rfl, rfl, rfl, ?_, ?_, rfl, rfl, rfl, ?_, rfl, rfl, rfl, rfl, rfl, rfl, ?_⟩
  · simp only
    rw [umFind_umSet_same _ hkeys]
    cases backoff_state <;> rfl
  · intro k hk
    simp only
    rw [umFind_umSet_other _ _ (Ne.symm hk)]
    rfl
  · simp only
    ring
  · intro hb
    subst hb
    constructor
    · rfl
    · show now + (now + 1000 - now) * 2 = now + 2000
      ring

/-- Witness for **C26**: a response with status UNAVAILABLE, from a request
that carries no backoff state, applied at 40000 to the entry of `exKey`. -/
theorem failed_response_sets_backoff_witness :
    ∃ lb1 e1, Entry.OnRlsResponseLocked (exLb [(exKey, exEntryData)] [] Throttle.new) exKey
        ⟨UnavailableError "down", [], ""⟩ none 40000 0 = some (lb1, []) ∧
      lb1.picker_updates = 1 ∧
      umFind lb1.cache.map exKey = some e1 ∧
      e1.status = UnavailableError "down" ∧
      e1.backoff_time = 40000 + 1000 ∧ e1.backoff_expiration_time = 40000 + 2000 ∧
      e1.header_data = "hd" ∧ e1.child_policy_wrappers = ["t2", "t1"] := by
  obtain ⟨lb1, e1, h1, h2, -, -, h5, -, h7, -, -, -, -, h12, -, -, -, h16, h17⟩ :=
    failed_response_sets_backoff (exLb [(exKey, exEntryData)] [] Throttle.new) exKey
      ⟨UnavailableError "down", [], ""⟩ none 40000 0 exEntryData (by decide!) (by decide!)
  exact ⟨lb1, e1, h1, h2, h5, h7, (h17 rfl).1, (h17 rfl).2, h12, h16⟩

/-! ## C22: the watcher resets the backoff on TRANSIENT_FAILURE → READY -/

theorem notifications_append (channel : RlsChannel) (w : StateWatcher) (lb : RlsLb)
    (l1 l2 : List grpc_connectivity_state) :
    StateWatcher.notifications channel w lb (l1 ++ l2) =
      ((StateWatcher.notifications channel
          (StateWatcher.notifications channel w lb l1).1
          (StateWatcher.notifications channel w lb l1).2.1 l2).1,
       (StateWatcher.notifications channel
          (StateWatcher.notifications channel w lb l1).1
          (StateWatcher.notifications channel w lb l1).2.1 l2).2.1,
       (StateWatcher.notifications channel w lb l1).2.2 ++
         (StateWatcher.notifications channel
          (StateWatcher.notifications channel w lb l1).1
          (StateWatcher.notifications channel w lb l1).2.1 l2).2.2) := by
  induction l1 generalizing w lb with
  | nil => rfl
  | cons s rest ih =>
    have h := ih (StateWatcher.OnConnectivityStateChange w channel lb s).1
      (StateWatcher.OnConnectivityStateChange w channel lb s).2.1
    show StateWatcher.notifications channel w lb (s :: (rest ++ l2)) = _
    simp only [StateWatcher.notifications]
    rw [h]
    rfl

theorem notifications_length (channel : RlsChannel) (w : StateWatcher) (lb : RlsLb)
    (l : List grpc_connectivity_state) :
    (StateWatcher.notifications channel w lb l).2.2.length = l.length := by
  induction l generalizing w lb with
  | nil => rfl
  | cons s rest ih => simp [StateWatcher.notifications, ih]

theorem transient_failure_flag_aux (T R W P N : Prop) :
    (P ∨ ((T ∨ (W ∧ ¬ R)) ∧ N)) ↔ (((T ∧ N) ∨ P) ∨ (W ∧ ¬ R ∧ N)) := by
  tauto

/-- The flag of the watcher after the notifications `l`: a TRANSIENT_FAILURE
was seen with no READY after it, or the flag was set and no READY was seen. -/
theorem was_transient_failure_after (channel : RlsChannel) (hc : channel.is_shutdown = false)
    (l : List grpc_connectivity_state) :
    ∀ (w : StateWatcher) (lb : RlsLb),
      ((StateWatcher.notifications channel w lb l).1.was_transient_failure = true ↔
        (∃ l1 l2, l = l1 ++ GRPC_CHANNEL_TRANSIENT_FAILURE :: l2 ∧ GRPC_CHANNEL_READY ∉ l2) ∨
        (w.was_transient_failure = true ∧ GRPC_CHANNEL_READY ∉ l)) := by
  induction l with
  | nil =>
    intro w lb
    simp [StateWatcher.notifications]
  | cons s rest ih =>
    intro w lb
    have hflag : (StateWatcher.OnConnectivityStateChange w channel lb s).1.was_transient_failure
          = true ↔
        (s = GRPC_CHANNEL_TRANSIENT_FAILURE ∨
          (w.was_transient_failure = true ∧ s ≠ GRPC_CHANNEL_READY)) := by
      unfold StateWatcher.OnConnectivityStateChange
      rw [hc]
      simp only [Bool.false_eq_true, if_false]
      by_cases hr : s = GRPC_CHANNEL_READY
      · subst hr
        by_cases hw : w.was_transient_failure = true <;> simp [hw]
      · by_cases ht : s = GRPC_CHANNEL_TRANSIENT_FAILURE
        · subst ht; simp
        · simp [hr, ht]
    have hsplit : (∃ l1 l2, s :: rest = l1 ++ GRPC_CHANNEL_TRANSIENT_FAILURE :: l2 ∧
          GRPC_CHANNEL_READY ∉ l2) ↔
        ((s = GRPC_CHANNEL_TRANSIENT_FAILURE ∧ GRPC_CHANNEL_READY ∉ rest) ∨
          ∃ l1 l2, rest = l1 ++ GRPC_CHANNEL_TRANSIENT_FAILURE :: l2 ∧
            GRPC_CHANNEL_READY ∉ l2) := by
      constructor
      · rintro ⟨l1, l2, h1, h2⟩
        cases l1 with
        | nil =>
          simp only [List.nil_append, List.cons.injEq] at h1
          exact Or.inl ⟨h1.1, h1.2 ▸ h2⟩
        | cons x xs =>
          simp only [List.cons_append, List.cons.injEq] at h1
          exact Or.inr ⟨xs, l2, h1.2, h2⟩
      · rintro (⟨h1, h2⟩ | ⟨l1, l2, h1, h2⟩)
        · exact ⟨[], rest, by simp [h1], h2⟩
        · exact ⟨s :: l1, l2, by simp [h1], h2⟩
    have hmem : GRPC_CHANNEL_READY ∉ s :: rest ↔
        (s ≠ GRPC_CHANNEL_READY ∧ GRPC_CHANNEL_READY ∉ rest) := by
      simp only [List.mem_cons, not_or, ne_eq]
      constructor
      · rintro ⟨h1, h2⟩; exact ⟨fun h => h1 h.symm, h2⟩
      · rintro ⟨h1, h2⟩; exact ⟨fun h => h1 h.symm, h2⟩
    have hstep := ih (StateWatcher.OnConnectivityStateChange w channel lb s).1
      (StateWatcher.OnConnectivityStateChange w channel lb s).2.1
    show (StateWatcher.notifications channel
      (StateWatcher.OnConnectivityStateChange w channel lb s).1
      (StateWatcher.OnConnectivityStateChange w channel lb s).2.1 rest).1.was_transient_failure
        = true ↔ _
    rw [hstep, hsplit, hmem, hflag]
    exact transient_failure_flag_aux _ _ _ _ _
theorem umFind_map_values {K V W : Type} [DecidableEq K] (m : List (K × V)) (f : V → W)
    (k : K) : umFind (m.map (fun p => (p.1, f p.2))) k = (umFind m k).map f := by
  induction m with
  | nil => rfl
  | cons p rest ih =>
    obtain ⟨k1, v1⟩ := p
    by_cases h : k1 = k
    · simp [umFind, h]
    · simp [umFind, h, ih]

theorem OnConnectivityStateChange_reset (w : StateWatcher) (channel : RlsChannel) (lb : RlsLb)
    (s : grpc_connectivity_state) (hc : channel.is_shutdown = false) :
    ((StateWatcher.OnConnectivityStateChange w channel lb s).2.2 = true ↔
      (s = GRPC_CHANNEL_READY ∧ w.was_transient_failure = true)) ∧
    ((StateWatcher.OnConnectivityStateChange w channel lb s).2.2 = true →
      (StateWatcher.OnConnectivityStateChange w channel lb s).2.1 =
        { lb with cache := lb.cache.ResetAllBackoff, picker_updates := lb.picker_updates + 1 }) ∧
    ((StateWatcher.OnConnectivityStateChange w channel lb s).2.2 = false →
      (StateWatcher.OnConnectivityStateChange w channel lb s).2.1 = lb) := by
  unfold StateWatcher.OnConnectivityStateChange
  rw [hc]
  simp only [Bool.false_eq_true, if_false]
  by_cases h1 : s = GRPC_CHANNEL_READY ∧ w.was_transient_failure = true
  · simp [h1]
  · simp only [h1, if_false]
    by_cases h2 : s = GRPC_CHANNEL_TRANSIENT_FAILURE <;> simp [h2]

/-- **C22.** For the watcher of a channel that is not shut down, starting
with `was_transient_failure_ = false`, and every sequence of notifications:
`ResetAllBackoff` is called at a notification exactly when that notification
is a READY that follows a TRANSIENT_FAILURE with no READY in between; a
notification that calls it replaces the cache by `ResetAllBackoff` of it
(and schedules a picker update), any other leaves the policy as it is.
`ResetAllBackoff` keeps the LRU list, the size, the size limit and the keys
of the map, and turns each entry into one with `backoff_time` at the infinite
past (before every time `now` later than that, so the entry is not in backoff)
and no backoff timer, with status, backoff state, backoff expiration time,
header data, wrappers, data expiration, stale and minimum expiration times
unchanged. -/
theorem backoff_reset_on_recovery (channel : RlsChannel) (hc : channel.is_shutdown = false) :
    (∀ (lb : RlsLb) (before : List grpc_connectivity_state)
        (new_state : grpc_connectivity_state) (after : List grpc_connectivity_state),
      ((StateWatcher.notifications channel ⟨false⟩ lb (before ++ new_state :: after)).2.2.getD
          before.length false = true ↔
        readyAfterTransientFailure before new_state)) ∧
    (∀ (w : StateWatcher) (lb : RlsLb) (s : grpc_connectivity_state),
      ((StateWatcher.OnConnectivityStateChange w channel lb s).2.2 = true →
        (StateWatcher.OnConnectivityStateChange w channel lb s).2.1 =
          { lb with cache := lb.cache.ResetAllBackoff
                    picker_updates := lb.picker_updates + 1 }) ∧
      ((StateWatcher.OnConnectivityStateChange w channel lb s).2.2 = false →
        (StateWatcher.OnConnectivityStateChange w channel lb s).2.1 = lb)) ∧
    (∀ c : Cache,
      c.ResetAllBackoff.lru_list = c.lru_list ∧ c.ResetAllBackoff.size = c.size ∧
      c.ResetAllBackoff.size_limit = c.size_limit ∧
      c.ResetAllBackoff.map.map Prod.fst = c.map.map Prod.fst ∧
      ∀ key, umFind c.ResetAllBackoff.map key = (umFind c.map key).map Entry.ResetBackoff) ∧
    (∀ e : Entry,
      e.ResetBackoff.backoff_time = InfPast ∧
      (∀ now : Timestamp, InfPast < now → ¬ now ≤ e.ResetBackoff.backoff_time) ∧
      e.ResetBackoff.backoff_timer = none ∧
      e.ResetBackoff.status = e.status ∧
      e.ResetBackoff.backoff_state = e.backoff_state ∧
      e.ResetBackoff.backoff_expiration_time = e.backoff_expiration_time ∧
      e.ResetBackoff.header_data = e.header_data ∧
      e.ResetBackoff.child_policy_wrappers = e.child_policy_wrappers ∧
      e.ResetBackoff.data_expiration_time = e.data_expiration_time ∧
      e.ResetBackoff.stale_time = e.stale_time ∧
      e.ResetBackoff.min_expiration_time = e.min_expiration_time) := by
  refine ⟨?_, ?_, ?_, ?_⟩
  · intro lb before new_state after
    rw [notifications_append]
    simp only [StateWatcher.notifications]
    have hlen := notifications_length channel ⟨false⟩ lb before
    rw [List.getD_eq_getElem?_getD, List.getElem?_append_right (by rw [hlen]), hlen,
      Nat.sub_self]
    simp only [List.getElem?_cons_zero, Option.getD_some]
    rw [(OnConnectivityStateChange_reset _ channel _ new_state hc).1,
      was_transient_failure_after channel hc before ⟨false⟩ lb]
    simp [readyAfterTransientFailure]
  · intro w lb s
    exact (OnConnectivityStateChange_reset w channel lb s hc).2
  · intro c
    refine ⟨rfl, rfl, rfl, ?_, ?_⟩
    · simp [Cache.ResetAllBackoff, List.map_map, Function.comp_def]
    · intro key
      exact umFind_map_values c.map Entry.ResetBackoff key
  · intro e
    refine ⟨rfl, ?_, rfl, rfl, rfl, rfl, rfl, rfl, rfl, rfl, rfl⟩
    intro now h
    exact not_le.2 h

/-- Witness for **C22**: of the notifications CONNECTING, TRANSIENT_FAILURE,
CONNECTING, READY, READY the fourth resets the backoff. -/
theorem backoff_reset_on_recovery_witness :
    (exChannel Throttle.new).is_shutdown = false ∧
    (StateWatcher.notifications (exChannel Throttle.new) ⟨false⟩
      (exLb [(exKey, exEntryFailed)] [] Throttle.new)
      ([GRPC_CHANNEL_CONNECTING, GRPC_CHANNEL_TRANSIENT_FAILURE, GRPC_CHANNEL_CONNECTING] ++
        GRPC_CHANNEL_READY :: [GRPC_CHANNEL_READY])).2.2.getD
      [GRPC_CHANNEL_CONNECTING, GRPC_CHANNEL_TRANSIENT_FAILURE,
        GRPC_CHANNEL_CONNECTING].length false = true :=
  ⟨rfl,
   ((backoff_reset_on_recovery (exChannel Throttle.new) rfl).1
      (exLb [(exKey, exEntryFailed)] [] Throttle.new)
      [GRPC_CHANNEL_CONNECTING, GRPC_CHANNEL_TRANSIENT_FAILURE, GRPC_CHANNEL_CONNECTING]
      GRPC_CHANNEL_READY [GRPC_CHANNEL_READY]).2
     ⟨rfl, [GRPC_CHANNEL_CONNECTING], [GRPC_CHANNEL_CONNECTING], rfl, by decide⟩⟩

/-! ## C23: the LRU list -/

theorem MarkUsed_lru_list {L : Layout} {c : Cache} (h : Cache.Inv L c) (key : RequestKey) :
    (c.MarkUsed key).lru_list = c.lru_list.filter (fun k => decide (k ≠ key)) ++ [key] := by
  simp only [Cache.MarkUsed, h.lru_nodup.erase_eq_filter]
  congr 2
  funext k
  by_cases hk : k = key <;> simp [hk]

/-- `OnRlsResponseLocked` returns when the entry is there and the response
failed or the policy has a configuration; the cache it leaves has the LRU list
of `MarkUsed` and the keys it had. -/
theorem OnRlsResponseLocked_lru (lb : RlsLb) (key : RequestKey) (response : ResponseInfo)
    (backoff_state : Option BackOff) (now : Timestamp) (jitter : Duration) (e : Entry)
    (he : umFind lb.cache.map key = some e)
    (hcfg : response.status.ok = false ∨ lb.config ≠ none) :
    ∃ lb1 finish, Entry.OnRlsResponseLocked lb key response backoff_state now jitter =
        some (lb1, finish) ∧
      lb1.cache.lru_list = (lb.cache.MarkUsed key).lru_list ∧
      lb1.cache.map.map Prod.fst = lb.cache.map.map Prod.fst ∧
      lb1.cache.size = lb.cache.size ∧ lb1.cache.size_limit = lb.cache.size_limit := by
  unfold Entry.OnRlsResponseLocked
  simp only [he]
  by_cases hok : response.status.ok = true
  · have hc : lb.config ≠ none := by
      rcases hcfg with h | h
      · rw [hok] at h; cases h
      · exact h
    cases hcfg1 : lb.config with
    | none => exact absurd hcfg1 hc
    | some config =>
      simp only [hok, Bool.not_true, Bool.false_eq_true, if_false]
      split_ifs
      all_goals exact ⟨_, _, rfl, rfl, by simp [keys_umSet, Cache.MarkUsed], rfl, rfl⟩
  · simp only [hok, Bool.not_false, if_true]
    exact ⟨_, _, rfl, rfl, by simp [keys_umSet, Cache.MarkUsed], rfl, rfl⟩

/-- **C23.** Every sequence of cache operations before shutdown, run from the
empty cache, returns a cache whose LRU list has no repetition, whose map binds
no key twice, and whose LRU list holds exactly the keys of the map; shutdown
then leaves both empty.  In a cache with these properties: `Find` of a key
that is present returns its entry and moves the key to the end of the LRU
list, the other keys keeping their order; `Find` of an absent key returns no
entry and the cache as it was; `FindOrInsert` returns an entry and leaves the
key at the end of the LRU list, behind the other keys that remain (all of them
when the key was present, those after the evicted head entries when it was
not) in their order; and applying a response to the entry of a key does the
same as `Find` to the LRU list. -/
theorem lru_list_holds_keys_in_order_of_use (L : Layout) :
    (∀ ops, CacheOp.shutdown ∉ ops →
      ∃ c, Cache.run L Cache.empty ops = some c ∧
        c.lru_list.Nodup ∧ (c.map.map Prod.fst).Nodup ∧
        (∀ k, k ∈ c.lru_list ↔ k ∈ c.map.map Prod.fst) ∧
        Cache.run L Cache.empty (ops ++ [CacheOp.shutdown]) = some c.Shutdown ∧
        c.Shutdown.lru_list = [] ∧ c.Shutdown.map = []) ∧
    (∀ (c : Cache) (key : RequestKey), Cache.Inv L c →
      (∀ e, umFind c.map key = some e →
        (c.Find key).2 = some e ∧
        (c.Find key).1.lru_list = c.lru_list.filter (fun k => decide (k ≠ key)) ++ [key] ∧
        (c.Find key).1.map = c.map) ∧
      (umFind c.map key = none → c.Find key = (c, none)) ∧
      (∀ now, ∃ n c1 e, Cache.FindOrInsert L now c key = some (c1, e) ∧
        umFind c1.map key = some e ∧
        c1.lru_list = (c.lru_list.drop n).filter (fun k => decide (k ≠ key)) ++ [key] ∧
        (∀ e0, umFind c.map key = some e0 → n = 0 ∧ e = e0))) ∧
    (∀ (lb : RlsLb) (key : RequestKey) (response : ResponseInfo) (backoff_state : Option BackOff)
        (now : Timestamp) (jitter : Duration) (e : Entry),
      Cache.Inv L lb.cache → umFind lb.cache.map key = some e →
      (response.status.ok = false ∨ lb.config ≠ none) →
      ∃ lb1 finish, Entry.OnRlsResponseLocked lb key response backoff_state now jitter =
          some (lb1, finish) ∧
        lb1.cache.lru_list =
          lb.cache.lru_list.filter (fun k => decide (k ≠ key)) ++ [key] ∧
        lb1.cache.map.map Prod.fst = lb.cache.map.map Prod.fst) := by
  refine ⟨?_, ?_, ?_⟩
  · intro ops hno
    obtain ⟨c, h1, h2⟩ := run_Inv ops Cache.empty (Inv_empty L) hno
    refine ⟨c, h1, h2.lru_nodup, h2.keys_nodup, h2.lru_mem, ?_, rfl, rfl⟩
    have happ : ∀ (ops1 ops2 : List CacheOp) (c0 : Cache),
        Cache.run L c0 (ops1 ++ ops2) =
          (Cache.run L c0 ops1).bind (fun c1 => Cache.run L c1 ops2) := by
      intro ops1
      induction ops1 with
      | nil => intro ops2 c0; rfl
      | cons op ops1 ih =>
        intro ops2 c0
        simp only [List.cons_append, Cache.run]
        cases Cache.step L c0 op with
        | none => rfl
        | some c1 => exact ih ops2 c1
    rw [happ, h1]
    rfl
  · intro c key hinv
    refine ⟨?_, ?_, ?_⟩
    · intro e he
      simp only [Cache.Find, he]
      exact ⟨trivial, MarkUsed_lru_list hinv key, rfl⟩
    · intro hnone
      simp only [Cache.Find, hnone]
    · intro now
      cases hf : umFind c.map key with
      | some e0 =>
        refine ⟨0, c.MarkUsed key, e0, by simp [Cache.FindOrInsert, hf], ?_, ?_, ?_⟩
        · simpa [Cache.MarkUsed] using hf
        · simpa using MarkUsed_lru_list hinv key
        · intro e1 h1; cases h1; exact ⟨rfl, rfl⟩
      | none =>
        obtain ⟨n, c1, h1, -, -, -, -, -, h7, h8, -⟩ := FindOrInsert_absent_aux L now c key hinv hf
        refine ⟨n, c1, Entry.new now, h1, ?_, ?_, ?_⟩
        · rw [h8]; simp [umFind]
        · rw [h7]
          congr 1
          symm
          rw [List.filter_eq_self]
          intro a ha
          have hnk : key ∉ c.lru_list := fun hk =>
            (umFind_eq_none_iff _ _).1 hf ((hinv.lru_mem key).1 hk)
          simp only [decide_eq_true_eq]
          intro hak
          exact hnk (hak ▸ List.mem_of_mem_drop ha)
        · intro e0 h0; cases h0
  · intro lb key response backoff_state now jitter e hinv he hcfg
    obtain ⟨lb1, finish, h1, h2, h3, -, -⟩ :=
      OnRlsResponseLocked_lru lb key response backoff_state now jitter e he hcfg
    exact ⟨lb1, finish, h1, by rw [h2]; exact MarkUsed_lru_list hinv key, h3⟩

/-- Witness for **C23**: in `exCacheTwo`, whose LRU list is the key `h = b`
followed by `exKey`, `Find` of `h = b` leaves `exKey` first. -/
theorem lru_list_holds_keys_in_order_of_use_witness :
    (exCacheTwo.Find ⟨[("h", "b")]⟩).1.lru_list =
      exCacheTwo.lru_list.filter (fun k => decide (k ≠ (⟨[("h", "b")]⟩ : RequestKey))) ++
        [⟨[("h", "b")]⟩] ∧
    (exCacheTwo.Find ⟨[("h", "b")]⟩).1.lru_list = [exKey, ⟨[("h", "b")]⟩] :=
  ⟨(((lru_list_holds_keys_in_order_of_use exLayout).2.1 exCacheTwo ⟨[("h", "b")]⟩
      ⟨by decide!, by decide!, by decide!, by simp [exCacheTwo]⟩).1 (Entry.new 3000)
      (by decide!)).2.1,
   by decide!⟩

/-! ## C21: nothing happens after shutdown -/

theorem run_after_shutdown (L : Layout) (lb : RlsLb) (hs : lb.is_shutdown = true)
    (hr : lb.request_map = []) : ∀ evs, RlsLb.run L lb evs = some lb := by
  intro evs
  induction evs with
  | nil => rfl
  | cons ev evs ih =>
    cases ev with
    | pick p args now u =>
      simp only [RlsLb.run, RlsLb.step, Picker.Pick, hs, if_true, Option.map_some',
        Option.some_bind]
      exact ih
    | complete key result now jitter =>
      simp only [RlsLb.run, RlsLb.step, hr, umFind, Option.some_bind]
      exact ih

/-- **C21.** After `ShutdownLocked` the policy is shut down, the cache has no
entry (map and LRU list are empty) and `request_map` is empty.  From then on
the completion of an RLS call returns with the policy as it is (cache,
`request_map`, channel and throttle, count of picker updates), and so does a
firing of the cleanup timer; every backoff timer of an entry the shutdown
removed is disarmed, and its callback returns without publishing a picker;
every pick returns Fail with Unavailable "LB policy already shut down" and
leaves the policy as it is, so no request is started; and every sequence of
picks and completions leaves the policy as it is. -/
theorem nothing_happens_after_shutdown (L : Layout) (lb : RlsLb) :
    lb.ShutdownLocked.is_shutdown = true ∧
    lb.ShutdownLocked.cache.map = [] ∧ lb.ShutdownLocked.cache.lru_list = [] ∧
    lb.ShutdownLocked.request_map = [] ∧
    (∀ req result now jitter,
      RlsRequest.OnRlsCallCompleteLocked L req lb.ShutdownLocked result now jitter =
        some lb.ShutdownLocked) ∧
    (∀ now cancelled,
      RlsLb.OnCleanupTimer L lb.ShutdownLocked now cancelled = lb.ShutdownLocked) ∧
    (∀ t ∈ lb.cache.orphanedTimers,
      t.armed = false ∧ t.OnBackoffTimer lb.ShutdownLocked = (t, none)) ∧
    (∀ p args now u,
      Picker.Pick p lb.ShutdownLocked args now u =
        some (lb.ShutdownLocked,
          ⟨PickResult.Fail (UnavailableError "LB policy already shut down"),
            args.initial_metadata⟩)) ∧
    (∀ evs, RlsLb.run L lb.ShutdownLocked evs = some lb.ShutdownLocked) := by
  refine ⟨rfl, rfl, rfl, rfl, ?_, ?_, ?_, ?_, run_after_shutdown L _ rfl rfl⟩
  · intro req result now jitter
    simp [RlsRequest.OnRlsCallCompleteLocked, RlsLb.ShutdownLocked]
  · intro now cancelled
    simp [RlsLb.OnCleanupTimer, RlsLb.ShutdownLocked]
  · intro t ht
    simp only [Cache.orphanedTimers, List.mem_filterMap, Option.map_eq_some'] at ht
    obtain ⟨p, -, t0, -, h⟩ := ht
    have harm : t.armed = false := by
      rw [← h]
      unfold BackoffTimer.Orphan
      split_ifs with h1
      · rfl
      · simpa using h1
    refine ⟨harm, ?_⟩
    simp only [BackoffTimer.OnBackoffTimer, harm, Bool.not_false, if_true]
    cases t
    simp_all
  · intro p args now u
    simp [Picker.Pick, RlsLb.ShutdownLocked]

/-! ## C25: a successful response -/

theorem umFind_umEmplace {K V : Type} [DecidableEq K] (m : List (K × V)) (k : K) (v : V)
    (k1 : K) :
    umFind (umEmplace m k v) k1 =
      if (umFind m k1).isSome then umFind m k1 else if k = k1 then some v else none := by
  unfold umEmplace
  cases hk : umFind m k with
  | some v0 =>
    simp only
    cases h1 : umFind m k1 with
    | some v1 => simp
    | none =>
      simp only [Option.isSome_none, Bool.false_eq_true, if_false]
      split_ifs with h
      · rw [h, h1] at hk; cases hk
      · rfl
  | none =>
    simp only [umFind]
    by_cases h : k = k1
    · subst h
      simp [hk]
    · simp only [h, if_false]
      cases h1 : umFind m k1 <;> simp

/-- What the loop over the targets of a response builds from `acc`: the map
keeps its bindings and gets a started new wrapper for each target it did not
bind; the wrapper list grows by the targets in order; the list of wrappers to
finish grows by the new targets, each once. -/
theorem updateTargets_spec (config : RlsLbConfig) (old_targets : List String) :
    ∀ (targets : List String) (acc : TargetsUpdate),
      (acc.child_policy_map.map Prod.fst).Nodup →
      ((Entry.updateTargets config old_targets targets acc).child_policy_map.map
        Prod.fst).Nodup ∧
      (∀ t, umFind (Entry.updateTargets config old_targets targets acc).child_policy_map t =
        if (umFind acc.child_policy_map t).isSome then umFind acc.child_policy_map t
        else if t ∈ targets then some ((ChildPolicyWrapper.new t).StartUpdate config)
        else none) ∧
      (Entry.updateTargets config old_targets targets acc).new_child_policy_wrappers =
        acc.new_child_policy_wrappers ++ targets ∧
      ∃ created : List String,
        (Entry.updateTargets config old_targets targets acc).child_policies_to_finish_update =
          acc.child_policies_to_finish_update ++ created ∧
        created.Nodup ∧
        ∀ t, t ∈ created ↔ (t ∈ targets ∧ umFind acc.child_policy_map t = none) := by
  intro targets
  induction targets with
  | nil =>
    intro acc hnd
    refine ⟨hnd, ?_, by simp [Entry.updateTargets], [], by simp [Entry.updateTargets], by simp,
      by simp⟩
    intro t
    simp only [Entry.updateTargets, List.not_mem_nil, if_false]
    cases umFind acc.child_policy_map t <;> simp
  | cons target rest ih =>
    intro acc hnd
    unfold Entry.updateTargets
    cases hf : umFind acc.child_policy_map target with
    | none =>
      simp only
      obtain ⟨h1, h2, h3, created, h4, h5, h6⟩ := ih
        { acc with
          child_policy_map := umEmplace acc.child_policy_map target
            ((ChildPolicyWrapper.new target).StartUpdate config)
          child_policies_to_finish_update := acc.child_policies_to_finish_update ++ [target]
          new_child_policy_wrappers := acc.new_child_policy_wrappers ++ [target] }
        (keys_nodup_umEmplace _ _ _ hnd)
      refine ⟨h1, ?_, by rw [h3]; simp, target :: created, by rw [h4]; simp, ?_, ?_⟩
      · intro t
        rw [h2]
        simp only [umFind_umEmplace]
        by_cases ht : target = t
        · subst ht
          simp [hf]
        · have ht1 : ¬ t = target := fun h => ht h.symm
          cases h0 : umFind acc.child_policy_map t with
          | some w => simp
          | none => simp [ht, ht1]
      · rw [List.nodup_cons]
        refine ⟨?_, h5⟩
        intro hmem
        have := ((h6 target).1 hmem).2
        simp only [umFind_umEmplace, hf, Option.isSome_none, Bool.false_eq_true, if_false,
          if_true, reduceCtorEq] at this
      · intro t
        simp only [List.mem_cons, h6, umFind_umEmplace]
        by_cases ht : target = t
        · subst ht
          simp [hf]
        · have ht1 : ¬ t = target := fun h => ht h.symm
          cases h0 : umFind acc.child_policy_map t with
          | some w => simp [ht1]
          | none => simp [ht, ht1]
    | some w0 =>
      simp only
      obtain ⟨h1, h2, h3, created, h4, h5, h6⟩ := ih
        { acc with
          new_child_policy_wrappers := acc.new_child_policy_wrappers ++ [target]
          update_picker := if target ∈ old_targets then acc.update_picker else true } hnd
      refine ⟨h1, ?_, by rw [h3]; simp, created, h4, h5, ?_⟩
      · intro t
        rw [h2]
        by_cases ht : t = target
        · subst ht
          simp [hf]
        · simp [ht]
      · intro t
        rw [h6]
        simp only [List.mem_cons]
        constructor
        · rintro ⟨h7, h8⟩; exact ⟨Or.inr h7, h8⟩
        · rintro ⟨h7 | h7, h8⟩
          · rw [h7, hf] at h8; cases h8
          · exact ⟨h7, h8⟩
theorem releaseWrappers_nodup (entries : List (RequestKey × Entry)) (d : Option String) :
    ∀ (targets : List String) (m : List (String × ChildPolicyWrapper)),
      (m.map Prod.fst).Nodup → ((releaseWrappers entries d targets m).map Prod.fst).Nodup := by
  intro targets
  induction targets with
  | nil => intro m h; exact h
  | cons t rest ih =>
    intro m h
    unfold releaseWrappers
    split_ifs
    · exact ih m h
    · exact ih _ (keys_nodup_umErase m t h)

/-- What `child_policy_map` binds once references are released: the wrapper of
a released target that no entry and not `default_child_policy_` holds is gone,
every other binding is as before. -/
theorem umFind_releaseWrappers (entries : List (RequestKey × Entry)) (d : Option String) :
    ∀ (targets : List String) (m : List (String × ChildPolicyWrapper)),
      (m.map Prod.fst).Nodup → ∀ t,
      umFind (releaseWrappers entries d targets m) t =
        if t ∈ targets ∧ wrapperHeld entries d t = false then none else umFind m t := by
  intro targets
  induction targets with
  | nil => intro m _ t; simp [releaseWrappers]
  | cons x rest ih =>
    intro m h t
    unfold releaseWrappers
    by_cases hx : wrapperHeld entries d x = true
    · rw [if_pos hx, ih m h t]
      by_cases ht : t = x
      · subst ht
        simp [hx]
      · simp [ht]
    · rw [if_neg hx, ih _ (keys_nodup_umErase m x h) t]
      have hx1 : wrapperHeld entries d x = false := by simpa using hx
      by_cases ht : t = x
      · subst ht
        simp [hx1, umFind_umErase_same h]
      · simp only [List.mem_cons, ht, false_or]
        rw [umFind_umErase_other m (Ne.symm ht)]

theorem wrapperHeld_of_mem (entries : List (RequestKey × Entry)) (d : Option String)
    (p : RequestKey × Entry) (t : String) (hp : p ∈ entries)
    (ht : t ∈ p.2.child_policy_wrappers) : wrapperHeld entries d t = true := by
  unfold wrapperHeld
  rw [Bool.or_eq_true]
  exact Or.inl (List.any_eq_true.2 ⟨p, hp, by simpa using ht⟩)

theorem mem_umSet {K V : Type} [DecidableEq K] {m : List (K × V)} {k : K} {v : V} {p : K × V}
    (h : p ∈ umSet m k v) : p ∈ m ∨ p = (k, v) := by
  induction m with
  | nil => simp [umSet] at h
  | cons q rest ih =>
    obtain ⟨k1, v1⟩ := q
    unfold umSet at h
    split_ifs at h with hk
    · rcases List.mem_cons.1 h with h1 | h1
      · exact Or.inr (by rw [h1, hk])
      · exact Or.inl (List.mem_cons_of_mem _ h1)
    · rcases List.mem_cons.1 h with h1 | h1
      · exact Or.inl (by rw [h1]; exact List.mem_cons_self _ _)
      · rcases ih h1 with h2 | h2
        · exact Or.inl (List.mem_cons_of_mem _ h2)
        · exact Or.inr h2

theorem responseInfo_ok_targets (result : RlsCallResult)
    (h : (RlsRequest.responseInfo result).status.ok = true) :
    (RlsRequest.responseInfo result).targets ≠ [] := by
  unfold RlsRequest.responseInfo at h ⊢
  split_ifs at h ⊢ with h1 h2
  · simp only [Bool.not_eq_true'] at h1
    simp only [Status.ok] at h h1
    rw [h1] at h
    cases h
  · exfalso
    revert h
    simp [Status.ok]
    exact h2
  · unfold RlsRequest.ParseResponseProto at h ⊢
    cases hm : result.recv_message with
    | none => simp [hm, Status.ok, InternalError] at h
    | some response =>
      simp only [hm] at h ⊢
      split_ifs at h ⊢ with h3
      · simp [Status.ok, InvalidArgumentError] at h
      · intro h4
        apply h3
        have h5 : response.targets = [] := h4
        rw [h5]
        rfl

theorem StartRlsCall_keeps (L : Layout) (lb lb1 : RlsLb) (key : RequestKey)
    (stale : Option RequestKey) (hinv : Cache.Inv L lb.cache) (hw : lb.entriesHaveWrappers)
    (h : RlsChannel.StartRlsCall lb key stale = some lb1) :
    Cache.Inv L lb1.cache ∧ lb1.entriesHaveWrappers ∧
      lb1.child_policy_map = lb.child_policy_map := by
  unfold RlsChannel.StartRlsCall at h
  cases hc : lb.rls_channel with
  | none => simp [hc] at h
  | some ch =>
    cases stale with
    | none =>
      simp only [hc, Option.some.injEq] at h
      rw [← h]
      exact ⟨hinv, hw, rfl⟩
    | some ek =>
      cases hf : umFind lb.cache.map ek with
      | none => simp [hc, hf] at h
      | some e =>
        simp only [hc, hf, Option.some.injEq] at h
        rw [← h]
        refine ⟨Inv_of_same_keys hinv rfl rfl (keys_umSet _ _ _), ?_, rfl⟩
        intro p hp
        rcases mem_umSet hp with h1 | h1
        · exact hw p h1
        · rw [h1]
          exact hw (ek, e) (umFind_some_mem hf)

theorem Pick_keeps (L : Layout) (p : Picker) (lb : RlsLb) (args : PickArgs) (now : Timestamp)
    (u : ℚ) (r : RlsLb × PickOutcome) (hinv : Cache.Inv L lb.cache)
    (hw : lb.entriesHaveWrappers) (h : Picker.Pick p lb args now u = some r) :
    Cache.Inv L r.1.cache ∧ r.1.entriesHaveWrappers ∧
      r.1.child_policy_map = lb.child_policy_map := by
  have hfind : Cache.Inv L (lb.cache.Find
      ⟨BuildKeyMap p.config.key_builder_map args.path lb.server_name
        args.initial_metadata⟩).1 ∧
      ({ lb with cache := (lb.cache.Find
        ⟨BuildKeyMap p.config.key_builder_map args.path lb.server_name
          args.initial_metadata⟩).1 } : RlsLb).entriesHaveWrappers ∧
      ({ lb with cache := (lb.cache.Find
        ⟨BuildKeyMap p.config.key_builder_map args.path lb.server_name
          args.initial_metadata⟩).1 } : RlsLb).child_policy_map = lb.child_policy_map := by
    refine ⟨Find_Inv hinv _, ?_, rfl⟩
    intro q hq
    have hmap : (lb.cache.Find ⟨BuildKeyMap p.config.key_builder_map args.path lb.server_name
        args.initial_metadata⟩).1.map = lb.cache.map := by
      unfold Cache.Find
      split <;> rfl
    simp only [hmap] at hq
    exact hw q hq
  unfold Picker.Pick at h
  simp only at h
  split at h
  · simp only [Option.some.injEq] at h
    rw [← h]
    exact ⟨hinv, hw, rfl⟩
  · split at h
    · split at h
      · simp at h
      · split at h
        · split at h
          · split at h
            · simp at h
            · simp only [Option.some.injEq] at h
              rw [← h]
              exact hfind
          · simp only [Option.some.injEq] at h
            rw [← h]
            exact hfind
        · split at h
          · simp at h
          · rename_i lb3 hstart
            simp only [Option.map_eq_some'] at h
            obtain ⟨out, -, hout⟩ := h
            rw [← hout]
            have hk := fun h1 h2 => StartRlsCall_keeps L _ lb3 _ _ h1 h2 hstart
            obtain ⟨k1, k2, k3⟩ := hk hfind.1 hfind.2.1
            exact ⟨k1, k2, k3⟩
    · simp only [Option.map_eq_some'] at h
      obtain ⟨out, -, hout⟩ := h
      rw [← hout]
      exact hfind

theorem OnRlsResponseLocked_keeps (L : Layout) (lb : RlsLb) (key : RequestKey)
    (response : ResponseInfo) (backoff_state : Option BackOff) (now : Timestamp)
    (jitter : Duration) (r : RlsLb × List String)
    (hinv : Cache.Inv L lb.cache) (hw : lb.entriesHaveWrappers)
    (hnd : (lb.child_policy_map.map Prod.fst).Nodup)
    (hresp : response.status.ok = true → response.targets ≠ [])
    (h : Entry.OnRlsResponseLocked lb key response backoff_state now jitter = some r) :
    Cache.Inv L r.1.cache ∧ r.1.entriesHaveWrappers ∧
      (r.1.child_policy_map.map Prod.fst).Nodup := by
  unfold Entry.OnRlsResponseLocked at h
  cases hf : umFind lb.cache.map key with
  | none => simp [hf] at h
  | some e =>
    have hmark : Cache.Inv L (lb.cache.MarkUsed key) :=
      Inv_MarkUsed hinv ((hinv.lru_mem key).2 (umFind_some_mem_keys hf))
    have he := hw (key, e) (umFind_some_mem hf)
    simp only [hf] at h
    split at h
    · simp only [Option.some.injEq] at h
      rw [← h]
      refine ⟨Inv_of_same_keys hmark rfl rfl (keys_umSet _ _ _), ?_, hnd⟩
      intro q hq
      rcases mem_umSet hq with h1 | h1
      · exact hw q h1
      · rw [h1]; exact he
    · rename_i hok
      have hok : response.status.ok = true := by
        cases hb : response.status.ok with
        | true => rfl
        | false => rw [hb] at hok; exact absurd rfl hok
      cases hcfg : lb.config with
      | none => simp [hcfg] at h
      | some config =>
        simp only [hcfg] at h
        split at h
        · rename_i hch
          simp only [Bool.not_eq_true', decide_eq_false_iff_not, ne_eq, not_not] at hch
          simp only [Option.some.injEq] at h
          rw [← h]
          refine ⟨Inv_of_same_keys hmark rfl rfl (keys_umSet _ _ _), ?_, hnd⟩
          intro q hq
          rcases mem_umSet hq with h1 | h1
          · exact hw q h1
          · rw [h1]
            refine ⟨fun _ => ?_, he.2⟩
            show e.child_policy_wrappers ≠ []
            rw [hch]
            exact hresp hok
        · obtain ⟨h1, h2, h3, -⟩ :=
            updateTargets_spec config e.child_policy_wrappers response.targets
              ⟨lb.child_policy_map, false, [], []⟩ hnd
          simp only [List.nil_append] at h3
          simp only [Option.some.injEq] at h
          rw [← h]
          have hmono : ∀ t, (umFind lb.child_policy_map t).isSome = true →
              (umFind (Entry.updateTargets config e.child_policy_wrappers response.targets
                ⟨lb.child_policy_map, false, [], []⟩).child_policy_map t).isSome = true := by
            intro t ht
            rw [h2 t, if_pos ht]
            exact ht
          refine ⟨Inv_of_same_keys hmark rfl rfl (keys_umSet _ _ _), ?_,
            releaseWrappers_nodup _ _ _ _ h1⟩
          intro q hq
          have hkept : ∀ t ∈ q.2.child_policy_wrappers,
              umFind (releaseWrappers (umSet (lb.cache.MarkUsed key).map key
                  { e with
                    header_data := response.header_data
                    data_expiration_time := now + config.max_age
                    stale_time := now + config.stale_age
                    status := OkStatus
                    backoff_state := none
                    backoff_time := InfPast
                    backoff_expiration_time := InfPast
                    child_policy_wrappers :=
                      (Entry.updateTargets config e.child_policy_wrappers response.targets
                        ⟨lb.child_policy_map, false, [], []⟩).new_child_policy_wrappers })
                  lb.default_child_policy e.child_policy_wrappers
                  (Entry.updateTargets config e.child_policy_wrappers response.targets
                    ⟨lb.child_policy_map, false, [], []⟩).child_policy_map) t =
                umFind (Entry.updateTargets config e.child_policy_wrappers response.targets
                  ⟨lb.child_policy_map, false, [], []⟩).child_policy_map t := by
            intro t ht
            rw [umFind_releaseWrappers _ _ _ _ h1 t, if_neg]
            rintro ⟨-, hnot⟩
            rw [wrapperHeld_of_mem _ _ q t hq ht] at hnot
            cases hnot
          rcases mem_umSet hq with h4 | h4
          · refine ⟨(hw q h4).1, fun t ht => ?_⟩
            show (umFind (releaseWrappers _ _ _ _) t).isSome = true
            rw [hkept t ht]
            exact hmono t ((hw q h4).2 t ht)
          · refine ⟨fun _ => ?_, ?_⟩
            · rw [h4]
              show (Entry.updateTargets config e.child_policy_wrappers response.targets
                ⟨lb.child_policy_map, false, [], []⟩).new_child_policy_wrappers ≠ []
              rw [h3]
              exact hresp hok
            · intro t ht
              have ht1 : t ∈ response.targets := by
                rw [h4] at ht
                rw [← h3]; exact ht
              show (umFind (releaseWrappers _ _ _ _) t).isSome = true
              rw [hkept t ht, h2 t]
              cases h0 : umFind lb.child_policy_map t with
              | some w => simp
              | none => simp [ht1]

theorem keys_map_same_key {K V : Type} (m : List (K × V)) (f : K × V → K × V)
    (hf : ∀ p, (f p).1 = p.1) : (m.map f).map Prod.fst = m.map Prod.fst := by
  induction m with
  | nil => rfl
  | cons p rest ih => simp only [List.map_cons, ih, hf]

theorem umFind_map_same_key {K V : Type} [DecidableEq K] (m : List (K × V))
    (f : K × V → K × V) (hf : ∀ p, (f p).1 = p.1) (k : K) :
    (umFind (m.map f) k).isSome = (umFind m k).isSome := by
  induction m with
  | nil => rfl
  | cons p rest ih =>
    have h1 := hf p
    obtain ⟨k1, v1⟩ := p
    cases hq : f (k1, v1) with
    | mk k2 v2 =>
      rw [hq] at h1
      simp only at h1
      subst h1
      by_cases h : k2 = k
      · subst h
        simp [umFind, hq]
      · simp only [List.map_cons, hq, umFind, h, if_false]
        exact ih

theorem FindOrInsert_bindings (L : Layout) (now : Timestamp) (c : Cache) (key : RequestKey)
    (r : Cache × Entry) (hinv : Cache.Inv L c) (h : Cache.FindOrInsert L now c key = some r) :
    Cache.Inv L r.1 ∧ ∀ p ∈ r.1.map, p ∈ c.map ∨ p = (key, Entry.new now) := by
  obtain ⟨r1, hr1, hinv1⟩ := FindOrInsert_Inv L now hinv key
  rw [h] at hr1
  simp only [Option.some.injEq] at hr1
  subst hr1
  refine ⟨hinv1, ?_⟩
  cases hf : umFind c.map key with
  | some e =>
    simp only [Cache.FindOrInsert, hf, Option.some.injEq] at h
    rw [← h]
    intro p hp
    exact Or.inl hp
  | none =>
    obtain ⟨n, c1, h1, -, -, -, -, -, -, h8, -⟩ := FindOrInsert_absent_aux L now c key hinv hf
    rw [h] at h1
    simp only [Option.some.injEq] at h1
    rw [h1]
    intro p hp
    simp only at hp
    rw [h8] at hp
    rcases List.mem_cons.1 hp with h2 | h2
    · exact Or.inr h2
    · exact Or.inl (List.mem_filter.1 h2).1

theorem reportResponse_cache (req : RlsRequest) (lb : RlsLb) (now : Timestamp) (ok : Bool) :
    (req.reportResponse lb now ok).cache = lb.cache ∧
    (req.reportResponse lb now ok).child_policy_map = lb.child_policy_map := by
  unfold RlsRequest.reportResponse
  cases lb.rls_channel with
  | none => exact ⟨rfl, rfl⟩
  | some ch =>
    simp only
    split
    · exact ⟨rfl, rfl⟩
    · exact ⟨rfl, rfl⟩

theorem OnRlsCallCompleteLocked_keeps (L : Layout) (req : RlsRequest) (lb : RlsLb)
    (result : RlsCallResult) (now : Timestamp) (jitter : Duration) (lb1 : RlsLb)
    (hinv : Cache.Inv L lb.cache) (hw : lb.entriesHaveWrappers)
    (hnd : (lb.child_policy_map.map Prod.fst).Nodup)
    (h : RlsRequest.OnRlsCallCompleteLocked L req lb result now jitter = some lb1) :
    Cache.Inv L lb1.cache ∧ lb1.entriesHaveWrappers ∧
      (lb1.child_policy_map.map Prod.fst).Nodup := by
  unfold RlsRequest.OnRlsCallCompleteLocked at h
  simp only at h
  split at h
  · simp only [Option.some.injEq] at h
    rw [← h]
    exact ⟨hinv, hw, hnd⟩
  · split at h
    · simp at h
    · rename_i cache e0 hfi
      split at h
      · simp at h
      · rename_i lb3 fin hresp
        obtain ⟨hc, hm⟩ := reportResponse_cache req lb now (RlsRequest.responseInfo result).status.ok
        rw [hc] at hfi
        obtain ⟨hinv1, hb⟩ := FindOrInsert_bindings L now lb.cache req.key _ hinv hfi
        have hkeep := OnRlsResponseLocked_keeps L _ req.key _ req.backoff_state now jitter
          (lb3, fin) ?_ ?_ ?_ (responseInfo_ok_targets result) hresp
        · obtain ⟨k1, k2, k3⟩ := hkeep
          simp only [Option.some.injEq] at h
          rw [← h]
          refine ⟨k1, ?_, ?_⟩
          · intro p hp
            refine ⟨(k2 p hp).1, fun t ht => ?_⟩
            show (umFind (lb3.child_policy_map.map _) t).isSome = true
            rw [umFind_map_same_key _ _ (fun q => by split_ifs <;> rfl)]
            exact (k2 p hp).2 t ht
          · show ((lb3.child_policy_map.map _).map Prod.fst).Nodup
            rw [keys_map_same_key _ _ (fun q => by split_ifs <;> rfl)]
            exact k3
        · exact hinv1
        · intro p hp
          refine ⟨?_, fun t ht => ?_⟩
          · rcases hb p hp with h1 | h1
            · exact (hw p h1).1
            · rw [h1]
              exact fun h2 => absurd h2 (lt_irrefl _)
          · show (umFind (releaseWrappers _ _ _ _) t).isSome = true
            rw [umFind_releaseWrappers _ _ _ _ (by rw [hm]; exact hnd) t, if_neg, hm]
            · rcases hb p hp with h1 | h1
              · exact (hw p h1).2 t ht
              · rw [h1] at ht
                simp [Entry.new] at ht
            · rintro ⟨-, hnot⟩
              rw [wrapperHeld_of_mem _ _ p t hp ht] at hnot
              cases hnot
        · show ((releaseWrappers _ _ _ _).map Prod.fst).Nodup
          exact releaseWrappers_nodup _ _ _ _ (by rw [hm]; exact hnd)

theorem step_keeps (L : Layout) (lb lb1 : RlsLb) (ev : RlsEvent)
    (hinv : Cache.Inv L lb.cache) (hw : lb.entriesHaveWrappers)
    (hnd : (lb.child_policy_map.map Prod.fst).Nodup) (h : RlsLb.step L lb ev = some lb1) :
    Cache.Inv L lb1.cache ∧ lb1.entriesHaveWrappers ∧
      (lb1.child_policy_map.map Prod.fst).Nodup := by
  cases ev with
  | pick p args now u =>
    simp only [RlsLb.step, Option.map_eq_some'] at h
    obtain ⟨r, hr, rfl⟩ := h
    obtain ⟨h1, h2, h3⟩ := Pick_keeps L p lb args now u r hinv hw hr
    refine ⟨h1, h2, ?_⟩
    rw [h3]
    exact hnd
  | complete key result now jitter =>
    simp only [RlsLb.step] at h
    cases hf : umFind lb.request_map key with
    | none =>
      simp only [hf, Option.some.injEq] at h
      rw [← h]; exact ⟨hinv, hw, hnd⟩
    | some req =>
      simp only [hf] at h
      exact OnRlsCallCompleteLocked_keeps L req lb result now jitter lb1 hinv hw hnd h

theorem run_keeps (L : Layout) : ∀ (evs : List RlsEvent) (lb lb1 : RlsLb),
    Cache.Inv L lb.cache → lb.entriesHaveWrappers →
    (lb.child_policy_map.map Prod.fst).Nodup → RlsLb.run L lb evs = some lb1 →
    Cache.Inv L lb1.cache ∧ lb1.entriesHaveWrappers ∧
      (lb1.child_policy_map.map Prod.fst).Nodup := by
  intro evs
  induction evs with
  | nil =>
    intro lb lb1 hinv hw hnd h
    simp only [RlsLb.run, Option.some.injEq] at h
    rw [← h]; exact ⟨hinv, hw, hnd⟩
  | cons ev evs ih =>
    intro lb lb1 hinv hw hnd h
    simp only [RlsLb.run, Option.bind_eq_some] at h
    obtain ⟨lb2, h2, h3⟩ := h
    obtain ⟨k1, k2, k3⟩ := step_keeps L lb lb2 ev hinv hw hnd h2
    exact ih lb2 lb1 k1 k2 k3 h3

theorem pickLoop_some (cpm : List (String × ChildPolicyWrapper)) :
    ∀ (targets : List String), targets ≠ [] →
      (∀ t ∈ targets, (umFind cpm t).isSome = true) →
      ∃ t w, t ∈ targets ∧ umFind cpm t = some w ∧ Entry.pickLoop cpm targets = some w := by
  intro targets
  induction targets with
  | nil => intro h; exact absurd rfl h
  | cons t rest ih =>
    intro _ hreg
    obtain ⟨w, hw⟩ := Option.isSome_iff_exists.1 (hreg t (List.mem_cons_self _ _))
    unfold Entry.pickLoop
    simp only [hw]
    split_ifs with hc
    · obtain ⟨t1, w1, h1, h2, h3⟩ := ih hc.2 (fun t1 ht1 => hreg t1 (List.mem_cons_of_mem _ ht1))
      exact ⟨t1, w1, List.mem_cons_of_mem _ h1, h2, h3⟩
    · exact ⟨t, w, List.mem_cons_self _ _, hw, rfl⟩

/-- **C29.** Start from a policy whose cache satisfies the cache invariant,
whose entries with a data expiration time later than the infinite past hold at
least one wrapper, all wrappers of entries being registered, and whose wrapper
map binds no target twice (a policy with an empty cache is one).  After any
sequence of picks and request completions (a response counts as successful
only with at least one target, by `RlsRequest.responseInfo`), every entry
whose data expiration time is later than the infinite past has a non-empty
wrapper list; hence for every entry with `now ≤ data_expiration_time`, at a
time `now` later than the infinite past, the target loop of `Entry::Pick`
ends on the wrapper registered for one of the targets of the entry, and
`Entry::Pick` returns. -/
theorem entry_with_data_has_wrappers (L : Layout) (lb0 lb : RlsLb) (evs : List RlsEvent)
    (hinv : Cache.Inv L lb0.cache) (hw : lb0.entriesHaveWrappers)
    (hnd : (lb0.child_policy_map.map Prod.fst).Nodup)
    (hrun : RlsLb.run L lb0 evs = some lb) (key : RequestKey) (e : Entry)
    (he : umFind lb.cache.map key = some e) :
    (InfPast < e.data_expiration_time → e.child_policy_wrappers ≠ []) ∧
    ∀ (now : Timestamp) (args : PickArgs), InfPast < now → now ≤ e.data_expiration_time →
      ∃ t w, t ∈ e.child_policy_wrappers ∧ umFind lb.child_policy_map t = some w ∧
        Entry.pickLoop lb.child_policy_map e.child_policy_wrappers = some w ∧
        Entry.Pick lb.child_policy_map e args =
          some ⟨w.Pick (if e.header_data = "" then args
              else { args with
                initial_metadata :=
                  args.initial_metadata.Add kRlsHeaderKey (strcpy e.header_data) }),
            (if e.header_data = "" then args
              else { args with
                initial_metadata :=
                  args.initial_metadata.Add kRlsHeaderKey
                    (strcpy e.header_data) }).initial_metadata⟩ := by
  obtain ⟨-, k2, -⟩ := run_keeps L evs lb0 lb hinv hw hnd hrun
  have hk := k2 (key, e) (umFind_some_mem he)
  refine ⟨hk.1, ?_⟩
  intro now args hnow hdata
  obtain ⟨t, w, h1, h2, h3⟩ :=
    pickLoop_some lb.child_policy_map e.child_policy_wrappers
      (hk.1 (lt_of_lt_of_le hnow hdata)) hk.2
  refine ⟨t, w, h1, h2, h3, ?_⟩
  unfold Entry.Pick
  rw [h3]

/-- Witness for **C29**: a lookup started by a pick at 1000 on a policy with an
empty cache completes at 2000 with the targets `t3` and `t1`; the entry then
has data at 2500 and `Entry::Pick` returns. -/
theorem entry_with_data_has_wrappers_witness :
    ∃ lb e,
      RlsLb.run exLayout (exLb [] [] Throttle.new)
        [.pick exPicker exArgs 1000 (1/2),
         .complete exKey (exResultTargets ["t3", "t1"] "hd") 2000 0] = some lb ∧
      umFind lb.cache.map exKey = some e ∧
      (2500 : Timestamp) ≤ e.data_expiration_time ∧
      e.child_policy_wrappers ≠ [] ∧
      (Entry.Pick lb.child_policy_map e exArgs).isSome = true := by
  have h0 : (RlsLb.run exLayout (exLb [] [] Throttle.new)
      [.pick exPicker exArgs 1000 (1/2),
       .complete exKey (exResultTargets ["t3", "t1"] "hd") 2000 0]).bind
      (fun lb => (umFind lb.cache.map exKey).map
        (fun e => decide ((2500 : Timestamp) ≤ e.data_expiration_time))) = some true := by
    decide!
  obtain ⟨lb, hl, h1⟩ := Option.bind_eq_some.1 h0
  obtain ⟨e, he, h2⟩ := Option.map_eq_some'.1 h1
  have h3 : (2500 : Timestamp) ≤ e.data_expiration_time := of_decide_eq_true h2
  have hthm := entry_with_data_has_wrappers exLayout (exLb [] [] Throttle.new) lb
    [.pick exPicker exArgs 1000 (1/2),
     .complete exKey (exResultTargets ["t3", "t1"] "hd") 2000 0]
    ⟨by decide!, by decide!, by decide!, by simp [exLb]⟩
    (fun p hp => absurd hp (by simp [exLb]))
    (by decide) hl exKey e he
  obtain ⟨t, w, -, -, -, h4⟩ := hthm.2 2500 exArgs (by decide) h3
  refine ⟨lb, e, hl, he, h3, hthm.1 (lt_of_lt_of_le (by decide) h3), ?_⟩
  rw [h4]
  rfl

end Rls
